import Mathlib

/-!
# Turn-based combat coordinator of flare-engine (CombatManager)

A shallow embedding of `src/src/CombatManager.h` and `src/src/CombatManager.cpp`.

* Entities are referred to by an identifier (the model of an `Entity*`); their
  `StatBlock` lives in a store `World.stats`.
* `int` fields are integers, `size_t` and `unsigned` fields are naturals. The
  modulo by `initiative_order.size()` in `nextTurn` is undefined for an empty
  order; the operations that reach it return `none` there.
* Collaborators whose code is outside `src/` (the library sort, the random
  generator, `Entity::logic`, the threat test of `enterCombat`) are fields of `Env`.
-/

namespace Flare

/-- Map position (`FPoint`). Positions are only copied and compared by the
coordinator operations embedded here, so the coordinates are exact numbers. -/
structure FPoint where
  x : Int
  y : Int
deriving DecidableEq, Repr

/-- The default constructed point `FPoint()`. -/
def FPoint.zero : FPoint := ⟨0, 0⟩

/-- Enum `CombatManager::CombatState`. -/
inductive CombatState where
  | COMBAT_INACTIVE
  | COMBAT_ACTIVE
  | COMBAT_TRANSITION
deriving DecidableEq, Repr

/-- Enum `CombatManager::ActionType`. -/
inductive ActionType where
  | ACTION_NONE
  | ACTION_MOVE
  | ACTION_POWER
  | ACTION_ITEM
deriving DecidableEq, Repr

/-- Struct `CombatManager::TurnState`. -/
structure TurnState where
  last_action : ActionType
  movement_start : FPoint
  actions_remaining : Int
deriving DecidableEq, Repr

/-- The constructor `TurnState()`. -/
def TurnState.init : TurnState :=
  { last_action := ActionType.ACTION_NONE, movement_start := FPoint.zero, actions_remaining := 2 }

/-- The method `TurnState::reset`. -/
def TurnState.reset (_t : TurnState) : TurnState :=
  { last_action := ActionType.ACTION_NONE, movement_start := FPoint.zero, actions_remaining := 2 }

/-- Struct `CombatManager::CombatEntity`: an entity and its rolled initiative. -/
structure CombatEntity where
  entity : Nat
  initiative : Int
deriving DecidableEq, Repr

/-- The comparison `CombatEntity::operator<`: higher initiative sorts first. -/
def CombatEntity.lt (a other : CombatEntity) : Bool :=
  decide (a.initiative > other.initiative)

/-- Modelled from the spec: class Timer is declared in Utils.h, which is not in
src. A timer is a duration and a countdown that has ended when it is zero. -/
structure Timer where
  current : Nat
  duration : Nat
deriving DecidableEq, Repr

/-- Modelled from the spec: the constructor `Timer(duration)`, an ended timer. -/
def Timer.mk_duration (d : Nat) : Timer := { current := 0, duration := d }

/-- Modelled from the spec: `Timer::tick`, one frame of countdown. -/
def Timer.tick (t : Timer) : Timer :=
  if t.current > 0 then { t with current := t.current - 1 } else t

/-- Modelled from the spec: `Timer::isEnd`. -/
def Timer.isEnd (t : Timer) : Bool := t.current == 0

/-- Modelled from the spec: `Timer::reset(Timer::BEGIN)`. -/
def Timer.resetBegin (t : Timer) : Timer := { t with current := t.duration }

/-- The fields of `StatBlock` that the coordinator reads or writes. `speed` holds
`static_cast<int>(stats.speed)`, the only form in which the coordinator uses it;
`movement_type` is only handed to the collider and `hp` is compared with zero. -/
structure StatBlock where
  name : String
  hero : Bool
  hero_ally : Bool
  alive : Bool
  in_combat : Bool
  pos : FPoint
  speed : Int
  movement_type : Nat := 0
  hp : Int := 1
deriving DecidableEq, Repr

/-- The private fields of `class CombatManager`. -/
structure CombatManager where
  current_state : CombatState
  combat_entities : List Nat
  initiative_order : List CombatEntity
  current_turn_index : Nat
  current_round : Int
  transition_timer : Timer
  turn_state : TurnState
deriving DecidableEq, Repr

/-- Everything the coordinator operations touch: the coordinator itself, the
stat blocks of the entities, the entity manager list `entitym->entities`, the
HUD log (`none` when `menu` or `menu->hudlog` is null) and the number of random
draws made so far. -/
structure World where
  cm : CombatManager
  stats : Nat → StatBlock
  entities : List Nat
  hudlog : Option (List String)
  rand_calls : Nat

/-- Collaborators defined outside `src/`: the frame rate setting, the raw output
of the random generator at each draw, `std::sort` on the initiative order,
`Entity::logic`, and the threat test of `enterCombat` (distance within
`threat_range` and line of sight, given the stats of the entity and of the target). -/
structure Env where
  max_frames_per_sec : Nat
  randRaw : Nat → Nat
  stdSort : List CombatEntity → List CombatEntity
  entityLogic : Nat → World → World
  inThreat : StatBlock → StatBlock → Bool

/-- What the C++ standard guarantees of `std::sort` with `operator<`: the result
is a rearrangement of the input in which no element is less than an earlier one. -/
def StdSortSpec (srt : List CombatEntity → List CombatEntity) : Prop :=
  ∀ l, (srt l).Perm l ∧ (srt l).Pairwise (fun a b => CombatEntity.lt b a = false)

/-- Frame condition on `Entity::logic`: it may change entity stats, the log and
the turn-state record (reachable through `getTurnState()`), but none of the
private coordinator fields. -/
def EntityLogicFrame (f : Nat → World → World) : Prop :=
  ∀ e w, (f e w).cm = { w.cm with turn_state := (f e w).cm.turn_state }

/-- The constructor `CombatManager::CombatManager`. -/
def CombatManager.new (max_frames_per_sec : Nat) : CombatManager :=
  { current_state := CombatState.COMBAT_INACTIVE
    combat_entities := []
    initiative_order := []
    current_turn_index := 0
    current_round := 0
    transition_timer := Timer.mk_duration max_frames_per_sec
    turn_state := TurnState.init }

/-- The guarded call `menu->hudlog->add(m)`. -/
def hudlogAdd (w : World) (m : String) : World :=
  { w with hudlog := w.hudlog.map (fun l => l ++ [m]) }

/-- Assignment `e->stats.in_combat = b`. -/
def setInCombat (stats : Nat → StatBlock) (e : Nat) (b : Bool) : Nat → StatBlock :=
  fun i => if i = e then { stats i with in_combat := b } else stats i

/-- The possessive used in the turn messages: "Your" for the hero, else the name. -/
def turnName (w : World) (e : Nat) : String :=
  if (w.stats e).hero then "Your" else (w.stats e).name ++ "\x27s"

/-- Method `CombatManager::getCurrentTurnEntity`; `none` is the null pointer. -/
def getCurrentTurnEntity (cm : CombatManager) : Option Nat :=
  if cm.initiative_order.isEmpty || cm.current_turn_index ≥ cm.initiative_order.length then none
  else (cm.initiative_order.get? cm.current_turn_index).map (fun ce => ce.entity)

/-- Method `CombatManager::isPlayerTurn`. -/
def isPlayerTurn (w : World) : Bool :=
  match getCurrentTurnEntity w.cm with
  | none => false
  | some current => (w.stats current).hero

/-- Method `CombatManager::resetTurnState`. -/
def resetTurnState (w : World) : World :=
  let w1 : World := { w with cm := { w.cm with turn_state := w.cm.turn_state.reset } }
  match getCurrentTurnEntity w1.cm with
  | none => w1
  | some current =>
    { w1 with cm := { w1.cm with turn_state :=
        { last_action := ActionType.ACTION_NONE
          movement_start := (w1.stats current).pos
          actions_remaining := 2 } } }

/-- The log of the turn end in `nextTurn` (lines 241 to 246). -/
def logTurnEnds (w : World) : World :=
  match getCurrentTurnEntity w.cm with
  | none => w
  | some current => hudlogAdd w (turnName w current ++ " turn ends.")

/-- The index step of `nextTurn` (lines 248 to 257), for a non-empty order: the
index moves on modulo the order length and a wrap to zero counts a round. -/
def advanceTurnIndex (w : World) : World :=
  let idx := (w.cm.current_turn_index + 1) % w.cm.initiative_order.length
  let w2 : World := { w with cm := { w.cm with current_turn_index := idx } }
  if idx = 0 then
    hudlogAdd { w2 with cm := { w2.cm with current_round := w2.cm.current_round + 1 } }
      ("Round " ++ toString (w2.cm.current_round + 1) ++ " begins!")
  else w2

/-- The announcement of whose turn it is (lines 262 to 267, and 58 to 62 of `logic`). -/
def logTurnBegins (w : World) : World :=
  match getCurrentTurnEntity w.cm with
  | none => w
  | some current => hudlogAdd w (turnName w current ++ " turn")

/-- Method `CombatManager::nextTurn`; `none` when the order is empty (modulo by zero). -/
def nextTurn (w : World) : Option World :=
  let w1 := logTurnEnds w
  if w1.cm.initiative_order.length = 0 then none
  else some (logTurnBegins (resetTurnState (advanceTurnIndex w1)))

/-- Method `CombatManager::endPlayerTurn`. -/
def endPlayerTurn (w : World) : Option World :=
  if !isPlayerTurn w then some w
  else nextTurn (hudlogAdd w "You end your turn.")

/-- Method `CombatManager::canTakeAction`. -/
def canTakeAction (w : World) : Bool :=
  w.cm.current_state == CombatState.COMBAT_ACTIVE
    && decide (w.cm.turn_state.actions_remaining > 0)
    && (getCurrentTurnEntity w.cm).isSome

/-- Method `CombatManager::spendAction`. -/
def spendAction (w : World) : Option World :=
  let w1 : World := { w with cm := { w.cm with turn_state :=
    { w.cm.turn_state with actions_remaining := w.cm.turn_state.actions_remaining - 1 } } }
  if w1.cm.turn_state.actions_remaining ≤ 0 then nextTurn w1 else some w1

/-- Method `CombatManager::exitCombat`. -/
def exitCombat (w : World) : World :=
  if w.cm.current_state = CombatState.COMBAT_INACTIVE then w
  else
    let stats1 := w.cm.combat_entities.foldl (fun st e => setInCombat st e false) w.stats
    hudlogAdd
      { w with
        stats := stats1
        cm := { w.cm with
          combat_entities := []
          initiative_order := []
          current_state := CombatState.COMBAT_INACTIVE
          current_round := 0
          current_turn_index := 0 } }
      "Combat ended."

/-- Method `CombatManager::startTransition`. -/
def startTransition (w : World) : World :=
  { w with cm := { w.cm with
      current_state := CombatState.COMBAT_TRANSITION
      transition_timer := w.cm.transition_timer.resetBegin } }

/-- Modelled from the spec: Math::randBetween is declared in UtilsMath.h, which is
not in src. The draw maps the raw generator output into the range lo..hi. -/
def randBetween (lo hi : Int) (raw : Nat) : Int :=
  lo + (raw : Int) % (hi - lo + 1)

/-- Method `CombatManager::rollInitiativeForEntity`: the rolled value and the
world after the draw. -/
def rollInitiativeForEntity (env : Env) (w : World) (entity : Nat) : Int × World :=
  let initiative := randBetween 1 20 (env.randRaw w.rand_calls)
  (initiative + (w.stats entity).speed, { w with rand_calls := w.rand_calls + 1 })

/-- The roll loop of `rollInitiative`: one `emplace_back` per participant. -/
def rollLoop (env : Env) : List Nat → World → World
  | [], w => w
  | entity :: rest, w =>
    let r := rollInitiativeForEntity env w entity
    rollLoop env rest
      { r.2 with cm := { r.2.cm with
          initiative_order := r.2.cm.initiative_order ++ [⟨entity, r.1⟩] } }

/-- The line logged for one entry of the initiative order. -/
def initiativeLine (w : World) (ce : CombatEntity) : String :=
  (if (w.stats ce.entity).hero then "You" else (w.stats ce.entity).name)
    ++ ": " ++ toString ce.initiative

/-- Method `CombatManager::rollInitiative`. -/
def rollInitiative (env : Env) (w : World) : World :=
  let w1 : World := { w with cm := { w.cm with initiative_order := [] } }
  let w2 := rollLoop env w1.cm.combat_entities w1
  let w3 : World := { w2 with cm := { w2.cm with
    initiative_order := env.stdSort w2.cm.initiative_order } }
  { w3 with hudlog := w3.hudlog.map (fun l =>
      l ++ ["Initiative order:"] ++ w3.cm.initiative_order.map (initiativeLine w3)) }

/-- Method `CombatManager::addCombatant`; the argument `none` is a null pointer. -/
def addCombatant (env : Env) (w : World) (entity : Option Nat) : World :=
  match entity with
  | none => w
  | some e =>
    if w.cm.current_state = CombatState.COMBAT_INACTIVE then w
    else if e ∈ w.cm.combat_entities then w
    else
      let w1 : World :=
        { w with
          cm := { w.cm with combat_entities := w.cm.combat_entities ++ [e] }
          stats := setInCombat w.stats e true }
      let r := rollInitiativeForEntity env w1 e
      let w2 : World := { r.2 with cm := { r.2.cm with
        initiative_order := env.stdSort (r.2.cm.initiative_order ++ [⟨e, r.1⟩]) } }
      hudlogAdd w2 ((w2.stats e).name ++ " joins the battle!")

/-- The loop of `enterCombat` over `entitym->entities`: living entities that are
not hero allies and see the target within their threat range join at once. -/
def joinLoop (env : Env) (initiator target : Nat) : List Nat → World → World
  | [], w => w
  | entity :: rest, w =>
    if entity = initiator || entity = target then joinLoop env initiator target rest w
    else if !(w.stats entity).alive || (w.stats entity).hero_ally then
      joinLoop env initiator target rest w
    else if env.inThreat (w.stats entity) (w.stats target) then
      joinLoop env initiator target rest
        { w with
          cm := { w.cm with combat_entities := w.cm.combat_entities ++ [entity] }
          stats := setInCombat w.stats entity true }
    else joinLoop env initiator target rest w

/-- Method `CombatManager::enterCombat`. -/
def enterCombat (env : Env) (w : World) (initiator target : Nat) : World :=
  if w.cm.current_state ≠ CombatState.COMBAT_INACTIVE then w
  else
    let w1 : World := { w with cm := { w.cm with
      current_round := 1
      current_turn_index := 0
      combat_entities := [initiator, target]
      initiative_order := [] } }
    let w2 := joinLoop env initiator target w1.entities w1
    let w3 : World := { w2 with
      stats := w2.cm.combat_entities.foldl (fun st e => setInCombat st e true) w2.stats }
    hudlogAdd (startTransition w3) "Combat started!"

/-- First block of `CombatManager::logic` (lines 45 to 64): the transition timer
and, when it ends, the promotion to active combat with the initiative roll. -/
def logicTransition (env : Env) (w : World) : World :=
  if w.cm.current_state = CombatState.COMBAT_TRANSITION then
    let w1 : World := { w with cm := { w.cm with
      transition_timer := w.cm.transition_timer.tick } }
    if w1.cm.transition_timer.isEnd then
      let w2 : World := { w1 with cm := { w1.cm with
        current_state := CombatState.COMBAT_ACTIVE } }
      let w3 := rollInitiative env w2
      let w4 := resetTurnState w3
      logTurnBegins (hudlogAdd w4 "Round 1 begins!")
    else w1
  else w

/-- The pruning step of `logic` (lines 68 to 75): participants that are not
alive are erased from `combat_entities`. -/
def pruneDead (w : World) : World :=
  { w with cm := { w.cm with
      combat_entities := w.cm.combat_entities.filter (fun e => (w.stats e).alive) } }

/-- The flag `has_enemies` of `logic` (lines 78 to 84): some participant is
neither the hero nor a hero ally. -/
def hasEnemies (w : World) : Bool :=
  w.cm.combat_entities.any (fun e => !(w.stats e).hero && !(w.stats e).hero_ally)

/-- The automatic handling of a non-player turn in `logic` (lines 90 to 102). -/
def autoTurn (env : Env) (w : World) : Option World :=
  if !isPlayerTurn w then
    match getCurrentTurnEntity w.cm with
    | none => some w
    | some current =>
      let w3 :=
        if w.cm.turn_state.actions_remaining > 0 then env.entityLogic current w else w
      if w3.cm.turn_state.actions_remaining = 0 then nextTurn w3 else some w3
  else some w

/-- Second block of `CombatManager::logic` (lines 66 to 103): pruning of dead
participants, the exit test and the automatic handling of non-player turns. -/
def logicActive (env : Env) (w : World) : Option World :=
  if w.cm.current_state = CombatState.COMBAT_ACTIVE then
    let w1 := pruneDead w
    let w2 := if !hasEnemies w1 then exitCombat w1 else w1
    autoTurn env w2
  else some w

/-- Method `CombatManager::logic`. -/
def logic (env : Env) (w : World) : Option World :=
  logicActive env (logicTransition env w)

/-- The entries that the roll loop appends for the participants `l` when `n`
draws have been made before: each participant with its roll plus its speed. -/
def rolledEntries (env : Env) (stats : Nat → StatBlock) : Nat → List Nat → List CombatEntity
  | _, [] => []
  | n, e :: rest =>
    ⟨e, randBetween 1 20 (env.randRaw n) + (stats e).speed⟩ :: rolledEntries env stats (n + 1) rest

/-- A call on the coordinator, or (`world`) an update of the entity stats and of
the entity list by the rest of the game between two calls. -/
inductive Call where
  | enterCombat (initiator target : Nat)
  | logic
  | addCombatant (entity : Option Nat)
  | nextTurn
  | spendAction
  | endPlayerTurn
  | exitCombat
  | world (stats : Nat → StatBlock) (entities : List Nat)

/-- The effect of one call; `none` when the call divides by an empty order. -/
def step (env : Env) (w : World) : Call → Option World
  | Call.enterCombat initiator target => some (enterCombat env w initiator target)
  | Call.logic => logic env w
  | Call.addCombatant entity => some (addCombatant env w entity)
  | Call.nextTurn => nextTurn w
  | Call.spendAction => spendAction w
  | Call.endPlayerTurn => endPlayerTurn w
  | Call.exitCombat => some (exitCombat w)
  | Call.world stats entities => some { w with stats := stats, entities := entities }

/-- The effect of a sequence of calls, stopping at the first undefined one. -/
def run (env : Env) : List Call → World → Option World
  | [], w => some w
  | c :: cs, w => (step env w c).bind (run env cs)

/-- The turn-state record that `resetTurnState` writes. -/
def freshTurnState (w : World) : TurnState :=
  match getCurrentTurnEntity w.cm with
  | none => TurnState.init
  | some current =>
    { last_action := ActionType.ACTION_NONE
      movement_start := (w.stats current).pos
      actions_remaining := 2 }

/-- The invariant carried along every run: during the transition the index is
below the number of participants, which bounds the length of the order; in
active combat the index is a valid position of the order. -/
def TurnInv (cm : CombatManager) : Prop :=
  (cm.current_state = CombatState.COMBAT_TRANSITION →
    cm.current_turn_index < cm.combat_entities.length ∧
    cm.initiative_order.length ≤ cm.combat_entities.length) ∧
  (cm.current_state = CombatState.COMBAT_ACTIVE →
    cm.current_turn_index < cm.initiative_order.length)

/-- A library sort that keeps equal elements in their input order (insertion
sort by descending initiative). -/
def stableSort (l : List CombatEntity) : List CombatEntity :=
  l.insertionSort (fun a b => b.initiative ≤ a.initiative)

/-- A library sort that leaves equal elements in the reverse of their input order. -/
def reverseTieSort (l : List CombatEntity) : List CombatEntity :=
  stableSort l.reverse

/-- An `Entity::logic` that gives up the turn at once: it zeroes the actions of
the turn through `getTurnState()`. -/
def forfeitLogic (_e : Nat) (w : World) : World :=
  { w with cm := { w.cm with turn_state := { w.cm.turn_state with actions_remaining := 0 } } }

/-- Stat block of the hero used in the examples. -/
def heroStats : StatBlock :=
  { name := "hero", hero := true, hero_ally := false, alive := true, in_combat := false
    pos := ⟨3, 4⟩, speed := 0 }

/-- Stat block of a living hostile creature used in the examples. -/
def enemyStats : StatBlock :=
  { name := "goblin", hero := false, hero_ally := false, alive := true, in_combat := false
    pos := ⟨5, 6⟩, speed := 0 }

/-- Example store: entity 0 is the hero, every other entity a living enemy. -/
def exampleStats : Nat → StatBlock :=
  fun i => if i = 0 then heroStats else enemyStats

/-- Example environment: two frames per second, raw draws 6 then 14 then 0 (rolls
7, 15, 1), a stable sort, enemies that forfeit, nobody else in threat range. -/
def exampleEnv : Env :=
  { max_frames_per_sec := 2
    randRaw := fun n => if n = 0 then 6 else if n = 1 then 14 else 0
    stdSort := stableSort
    entityLogic := forfeitLogic
    inThreat := fun _ _ => false }

/-- Example world: a freshly constructed coordinator, the example store, a HUD log. -/
def exampleWorld : World :=
  { cm := CombatManager.new 2
    stats := exampleStats
    entities := [0, 1]
    hudlog := some []
    rand_calls := 0 }

/-- The effect of `k` consecutive `nextTurn` calls. -/
def nextTurnTimes : Nat → World → Option World
  | 0, w => some w
  | k + 1, w => (nextTurnTimes k w).bind nextTurn

/-- Example coordinator in active combat, round 1: the enemy (1) rolled 15, the
hero (0) rolled 7, and it is the turn of the entry at `idx` with `k` actions left. -/
def activeWorld (idx : Nat) (k : Int) : World :=
  { cm :=
      { current_state := CombatState.COMBAT_ACTIVE
        combat_entities := [0, 1]
        initiative_order := [⟨1, 15⟩, ⟨0, 7⟩]
        current_turn_index := idx
        current_round := 1
        transition_timer := Timer.mk_duration 2
        turn_state :=
          { last_action := ActionType.ACTION_NONE, movement_start := ⟨5, 6⟩
            actions_remaining := k } }
    stats := exampleStats
    entities := [0, 1]
    hudlog := some []
    rand_calls := 2 }

/-- Example coordinator in the last frame of the transition after
`enterCombat(hero, enemy)`: one more tick promotes it to active combat. -/
def transitionWorld : World :=
  { cm :=
      { current_state := CombatState.COMBAT_TRANSITION
        combat_entities := [0, 1]
        initiative_order := []
        current_turn_index := 0
        current_round := 1
        transition_timer := { current := 1, duration := 2 }
        turn_state := TurnState.init }
    stats := exampleStats
    entities := [0, 1]
    hudlog := some []
    rand_calls := 0 }

/-- Example environment in which every draw gives the roll 7 and the library
sort leaves equal elements in reverse input order. -/
def tieEnv : Env :=
  { max_frames_per_sec := 2
    randRaw := fun _ => 6
    stdSort := reverseTieSort
    entityLogic := forfeitLogic
    inThreat := fun _ _ => false }

/-- Example store in the middle of a combat: the hero (0) is alive, the enemy (1)
has just died, and both still carry the combat membership flag. -/
def deadEnemyStats : Nat → StatBlock :=
  fun i =>
    if i = 0 then { heroStats with in_combat := true }
    else { enemyStats with alive := false, in_combat := true }

/-- Example coordinator in active combat whose only hostile participant (1) has
died since the last tick; it is the turn of the entry at `idx`. -/
def deadEnemyWorld (idx : Nat) : World :=
  { activeWorld idx 2 with stats := deadEnemyStats }

/-- The queries of `mapr->collider` (class MapCollision, outside `src/`) used by
the coordinator and the avatar: `lineOfMovement(from, to, movement_type)`,
`isValidPosition(pos, movement_type, collide_type)`, `getCollideType(hero)` and
`computePath(start, end, movement_type)`, which yields the waypoints and whether
a path was found. -/
structure MapCollision where
  lineOfMovement : FPoint → FPoint → Nat → Bool
  isValidPosition : FPoint → Nat → Nat → Bool
  getCollideType : Bool → Nat
  computePath : FPoint → FPoint → Nat → List FPoint × Bool

/-- Modelled from the spec: Utils::calcDist is declared in Utils.h, which is not in
src. It is the Euclidean distance; the test `calcDist(a, b) > r` for a range
`r >= 0` is decided on the squares, which is exact on the coordinates used here. -/
def distExceeds (a b : FPoint) (r : Int) : Bool :=
  decide (r * r < (a.x - b.x) * (a.x - b.x) + (a.y - b.y) * (a.y - b.y))

/-- Method `CombatManager::getMovementRange`: 6 tiles when an entity has the turn. -/
def getMovementRange (w : World) : Int :=
  match getCurrentTurnEntity w.cm with
  | none => 0
  | some _ => 6

/-- Method `CombatManager::isValidMovement`. -/
def isValidMovement (col : MapCollision) (w : World) (dest : FPoint) : Bool :=
  if !canTakeAction w then false
  else
    match getCurrentTurnEntity w.cm with
    | none => false
    | some current =>
      if distExceeds (w.stats current).pos dest (getMovementRange w) then false
      else if !col.lineOfMovement w.cm.turn_state.movement_start dest
          (w.stats current).movement_type then false
      else if !col.isValidPosition dest (w.stats current).movement_type
          (col.getCollideType (w.stats current).hero) then false
      else true

/-- A collider for an open map: every line is free and every position valid. -/
def openCollider : MapCollision :=
  { lineOfMovement := fun _ _ _ => true
    isValidPosition := fun _ _ _ => true
    getCollideType := fun hero => if hero then 1 else 0
    computePath := fun _ dest _ => ([dest], true) }

/-- Example store for a hero that has walked during its turn: the hero (0) now
stands at (5, 0), in combat; every other entity is a living enemy. -/
def movedHeroStats : Nat → StatBlock :=
  fun i => if i = 0 then { heroStats with in_combat := true, pos := ⟨5, 0⟩ } else enemyStats

/-- Example coordinator in active combat: it is the turn of the hero, which began
the turn at (0, 0), has spent one action walking to (5, 0) and has `k` actions left. -/
def movedHeroWorld (k : Int) : World :=
  { cm :=
      { current_state := CombatState.COMBAT_ACTIVE
        combat_entities := [0, 1]
        initiative_order := [⟨1, 15⟩, ⟨0, 7⟩]
        current_turn_index := 1
        current_round := 1
        transition_timer := Timer.mk_duration 2
        turn_state :=
          { last_action := ActionType.ACTION_NONE, movement_start := ⟨0, 0⟩
            actions_remaining := k } }
    stats := movedHeroStats
    entities := [0, 1]
    hudlog := some []
    rand_calls := 2 }

/-! ## The avatar (Avatar.h, Avatar.cpp)

The avatar keeps its own stat block `stats`; the coordinator is reached through
the global pointer `combat_manager`, which may be null. Dereferencing a null
timer or a null `combat_manager` is undefined, and the operations that do so
return `none`. The ghost fields `activated`, `handled` and `computePath_calls` of
`Game` record the calls made to `powers->activate`, to `handleReplacedPower` and
to `computePath`. -/

/-- The states of `StatBlock::cur_state` that the avatar state machine handles. -/
inductive EntityState where
  | ENTITY_STANCE
  | ENTITY_MOVE
  | ENTITY_POWER
  | ENTITY_BLOCK
  | ENTITY_HIT
  | ENTITY_DEAD
deriving DecidableEq, Repr

/-- The input bindings `Input::...` used by the avatar. -/
inductive Key where
  | MAIN1
  | MAIN2
  | SHIFT
  | UP
  | DOWN
  | LEFT
  | RIGHT
  | AIM_UP
  | AIM_DOWN
  | AIM_LEFT
  | AIM_RIGHT
deriving DecidableEq, Repr

/-- The values of `Power::new_state` told apart by the avatar. -/
inductive PowerNewState where
  | STATE_INSTANT
  | STATE_ATTACK
  | STATE_NONE
deriving DecidableEq, Repr

/-- The values of `Power::type` told apart by the avatar. -/
inductive PowerType where
  | TYPE_FIXED
  | TYPE_BLOCK
  | TYPE_TRANSFORM
  | TYPE_OTHER
deriving DecidableEq, Repr

/-- The values of `Power::starting_pos` told apart by the avatar. -/
inductive StartingPos where
  | STARTING_POS_SOURCE
  | STARTING_POS_TARGET
  | STARTING_POS_MELEE
deriving DecidableEq, Repr

/-- An entry of `Power::chain_powers`: whether it is of `ChainPower::TYPE_PRE`,
its chance in percent and the power it activates. -/
structure ChainPower where
  type_pre : Bool
  chance : Int
  id : Nat
deriving DecidableEq, Repr

/-- The fields of `Power` read by the avatar. -/
structure Power where
  new_state : PowerNewState
  type : PowerType
  starting_pos : StartingPos
  cooldown : Nat
  attack_anim : String
  face : Bool
  state_duration : Nat
  charge_speed : Int
  prevent_interrupt : Bool
  chain_powers : List ChainPower
  required_items_empty : Bool
  spawn_type : String
deriving DecidableEq, Repr

/-- Struct `ActionData`: an entry of the action queue. -/
structure ActionData where
  power : Nat
  hotkey : Nat
  instant_item : Bool
  activated_from_inventory : Bool
  target : FPoint
deriving DecidableEq, Repr

/-- The flags of `stats.effects` (class EffectManager) read or written by the avatar. -/
structure EffectManager where
  stun : Bool
  triggered_block : Bool
  triggered_death : Bool
  triggered_hit : Bool
  knockback_speed : Int
deriving DecidableEq, Repr

/-- The fields of the avatar's `StatBlock` (`stats`) read or written by the
avatar logic. -/
structure AvatarStats where
  cur_state : EntityState
  in_combat : Bool
  pos : FPoint
  direction : Nat
  movement_type : Nat
  hp : Int
  level : Nat
  xp : Nat
  level_up : Bool
  corpse : Bool
  transformed : Bool
  transform_duration : Int
  blocking : Bool
  block_power : Nat
  hold_state : Bool
  state_timer : Timer
  cooldown : Timer
  refresh_stats : Bool
  prevent_interrupt : Bool
  death_penalty : Bool
  permadeath : Bool
  charge_speed : Int
  powers_passive : List Nat
  effects : EffectManager
deriving DecidableEq, Repr

/-- What the avatar asks of `activeAnimation` (class Animation, outside `src/`). -/
structure Animation where
  name : String
  first_frame : Bool
  active_frame : Bool
  last_frame : Bool
  times_played : Nat
  duration : Nat
deriving DecidableEq, Repr

/-- The input state `inpt` as the avatar sees it: the pressed and locked
bindings, the map point under the mouse (`Utils::screenToMap` of the mouse and
the camera), whether the mouse is the active device, and whether the mouse is
over the action bar slots or over a menu. -/
structure InputState where
  pressing : Key → Bool
  lock : Key → Bool
  mouse_target : FPoint
  using_mouse : Bool
  within_slots : Bool
  within_menus : Bool

/-- The fields of `menu->game_over` used by the dead state. -/
structure MenuGameOver where
  visible : Bool
  continue_clicked : Bool
deriving DecidableEq, Repr

/-- The fields of `class Avatar` read or written by the embedded operations. -/
structure Avatar where
  stats : AvatarStats
  anim : Animation
  mm_key : Key
  mm_is_distant : Bool
  set_dir_timer : Timer
  path : List FPoint
  prev_target : FPoint
  collided : Bool
  path_found : Bool
  chance_calc_path : Int
  path_found_fails : Int
  path_found_fail_timer : Timer
  restrict_power_use : Bool
  mm_target : FPoint
  mm_target_desired : FPoint
  power_cooldown_ids : List Nat
  transform_triggered : Bool
  sound_steps : Nat
  attack_anim : String
  untransform_power : Nat
  current_power : Nat
  current_power_original : Nat
  act_target : FPoint
  drag_walking : Bool
  respawn : Bool
  close_menus : Bool
  allow_movement : Bool
  power_cooldown_timers : List (Option Timer)
  power_cast_timers : List (Option Timer)
  cursor_enemy : Option Nat
  lock_enemy : Option Nat
  using_main1 : Bool
  using_main2 : Bool
  teleport_camera_lock : Bool
  mm_target_object : Nat
  mm_target_object_pos : FPoint
  action_queue : List ActionData

/-- The state on which the avatar operates: the world of the coordinator, whether
the global `combat_manager` is non-null, the avatar `pc`, the input state, the
game-over menu, and the ghost records of the calls to `powers->activate`, to
`handleReplacedPower` and to `computePath`. -/
structure Game where
  w : World
  combat_manager : Bool
  pc : Avatar
  inpt : InputState
  game_over : MenuGameOver
  activated : List (Nat × FPoint)
  handled : List ActionData
  computePath_calls : Nat

/-- Collaborators of the avatar defined outside `src/`, on top of those of the
coordinator: settings, the power table and `PowerManager` calls, `StatBlock`
methods, the experience table, the collider, `Entity::move` (whether the step
succeeded and the position after it), the animation, and the float computations
of distances and delays. -/
structure AvatarEnv extends Env where
  mouse_move : Bool
  mouse_aim : Bool
  mouse_move_swap : Bool
  mouse_move_attack : Bool
  tileset_orthogonal : Bool
  powers_size : Nat
  isValid : Nat → Bool
  power : Nat → Power
  checkReplaceByEffect : Nat → AvatarStats → Nat
  activate : Nat → AvatarStats → FPoint → AvatarStats
  activatePassives : AvatarStats → AvatarStats
  statsLogic : AvatarStats → AvatarStats
  recalc : AvatarStats → AvatarStats
  clearEffects : EffectManager → EffectManager
  revertHeroStats : AvatarStats → AvatarStats
  maxLevel : Nat
  levelXP : Nat → Nat
  levelFromXP : Nat → Nat
  collider : MapCollision
  entityMove : AvatarStats → Bool × FPoint
  advanceFrame : Animation → Animation
  setAnimation : String → Animation → Animation
  resetActiveAnimation : Animation → Animation
  calcDirection : FPoint → FPoint → Nat
  beyondDeadzone : Bool → FPoint → FPoint → Bool
  withinReach : AvatarStats → FPoint → Bool
  cameraNear : FPoint → Bool
  mouseTurnDelay : AvatarStats → FPoint → Nat

/-- Constant `Avatar::PATH_FOUND_FAIL_THRESHOLD`. -/
def PATH_FOUND_FAIL_THRESHOLD : Int := 1

/-- Constant `Avatar::PATH_FOUND_FAIL_WAIT_SECONDS`; no code refers to it. -/
def PATH_FOUND_FAIL_WAIT_SECONDS : Nat := 2

/-- Constant `Avatar::MM_TARGET_NONE`. -/
def MM_TARGET_NONE : Nat := 0

/-- Constant `Avatar::MM_TARGET_ENTITY`. -/
def MM_TARGET_ENTITY : Nat := 3

/-- Modelled from the spec: the default constructor `Timer()`, duration zero. -/
def Timer.default : Timer := { current := 0, duration := 0 }

/-- Modelled from the spec: `Timer::setDuration`, which also restarts the countdown. -/
def Timer.setDuration (_t : Timer) (d : Nat) : Timer := { current := d, duration := d }

/-- Modelled from the spec: `Timer::reset(Timer::END)`. -/
def Timer.resetEnd (t : Timer) : Timer := { t with current := 0 }

/-- The timer behind `timers[i]`; `none` when the pointer is null or `i` is out of range. -/
def timerAt (timers : List (Option Timer)) (i : Nat) : Option Timer :=
  (timers.get? i).join

/-- The call `timers[i]->setDuration(d)`; `none` when the pointer is null. -/
def timerSetDuration (timers : List (Option Timer)) (i d : Nat) :
    Option (List (Option Timer)) :=
  match timerAt timers i with
  | none => none
  | some t => some (timers.set i (some (t.setDuration d)))

/-- The call `timers[i]->tick()`; `none` when the pointer is null. -/
def timerTick (timers : List (Option Timer)) (i : Nat) : Option (List (Option Timer)) :=
  match timerAt timers i with
  | none => none
  | some t => some (timers.set i (some t.tick))

/-- Modelled from the spec: Math::percentChance is declared in UtilsMath.h, which is
not in src. The coin flip succeeds when the raw draw, reduced to 0..99, is below
the percentage. -/
def percentChance (percent : Int) (raw : Nat) : Bool :=
  decide (((raw % 100 : Nat) : Int) < percent)

/-- Constant `MapCollision::ENTITY_COLLIDE_HERO`, only handed to the collider. -/
def ENTITY_COLLIDE_HERO : Nat := 1

/-- Method `Avatar::isNearMMtarget`; the float test
`calcDist(stats.pos, mm_target_desired) <= stats.speed * 2` is `withinReach`. -/
def isNearMMtarget (aenv : AvatarEnv) (g : Game) : Bool :=
  g.pc.path.isEmpty && aenv.withinReach g.pc.stats g.pc.mm_target_desired

/-- Method `Avatar::pressing_move`. -/
def pressing_move (aenv : AvatarEnv) (g : Game) : Bool :=
  if !g.pc.allow_movement || g.pc.teleport_camera_lock then false
  else if g.pc.stats.effects.knockback_speed ≠ 0 then false
  else if g.pc.stats.in_combat then
    aenv.mouse_move && g.pc.mm_is_distant && !isNearMMtarget aenv g
  else if aenv.mouse_move then g.pc.mm_is_distant && !isNearMMtarget aenv g
  else
    (g.inpt.pressing Key.UP && !g.inpt.lock Key.UP) ||
    (g.inpt.pressing Key.DOWN && !g.inpt.lock Key.DOWN) ||
    (g.inpt.pressing Key.LEFT && !g.inpt.lock Key.LEFT) ||
    (g.inpt.pressing Key.RIGHT && !g.inpt.lock Key.RIGHT)

/-- Method `Avatar::shouldRecalculatePath`: the answer and the state after the
side effects (the accumulator step, the random draw, the cleared collision flag).
The truncation `FPoint(Point(..))` is the identity on whole coordinates. -/
def shouldRecalculatePath (aenv : AvatarEnv) (g : Game) : Bool × Game :=
  let g1 : Game :=
    { g with
      pc := { g.pc with chance_calc_path := g.pc.chance_calc_path + 5 }
      w := { g.w with rand_calls := g.w.rand_calls + 1 } }
  if percentChance g1.pc.chance_calc_path (aenv.randRaw g.w.rand_calls) then (true, g1)
  else if g1.pc.collided then (true, { g1 with pc := { g1.pc with collided := false } })
  else if g1.pc.path.isEmpty then (true, g1)
  else if distExceeds g1.pc.prev_target g1.pc.mm_target 1 then (true, g1)
  else (false, g1)

/-- Method `Avatar::recalculatePath`. -/
def recalculatePath (aenv : AvatarEnv) (g : Game) : Game :=
  let r := aenv.collider.computePath g.pc.stats.pos g.pc.mm_target g.pc.stats.movement_type
  let g1 : Game :=
    { g with
      computePath_calls := g.computePath_calls + 1
      pc := { g.pc with chance_calc_path := -100, path := r.1, path_found := r.2 } }
  if !g1.pc.path_found then
    let g2 : Game :=
      { g1 with pc := { g1.pc with path_found_fails := g1.pc.path_found_fails + 1 } }
    if g2.pc.path_found_fails ≥ PATH_FOUND_FAIL_THRESHOLD then
      { g2 with pc := { g2.pc with
          path_found_fail_timer := g2.pc.path_found_fail_timer.resetBegin } }
    else g2
  else
    { g1 with pc := { g1.pc with
        path_found_fails := 0
        path_found_fail_timer := g1.pc.path_found_fail_timer.resetEnd } }

/-- Method `Avatar::updatePathTarget`; `path.back()` is the last element. -/
def updatePathTarget (g : Game) : Game :=
  match g.pc.path.getLast? with
  | none => g
  | some last =>
    let g1 : Game := { g with pc := { g.pc with mm_target := last } }
    if !distExceeds g1.pc.stats.pos g1.pc.mm_target 1 then
      { g1 with pc := { g1.pc with path := g1.pc.path.dropLast } }
    else g1

/-- Method `Avatar::handlePathfinding`. -/
def handlePathfinding (aenv : AvatarEnv) (g : Game) : Game :=
  let r := shouldRecalculatePath aenv g
  let g1 := r.2
  let should_recalc := if !g1.pc.path_found_fail_timer.isEnd then false else r.1
  let g2 : Game :=
    if !g1.pc.path_found_fail_timer.isEnd then
      { g1 with pc := { g1.pc with chance_calc_path := -100 } }
    else g1
  let g3 : Game := { g2 with pc := { g2.pc with prev_target := g2.pc.mm_target } }
  let g4 := if should_recalc then recalculatePath aenv g3 else g3
  updatePathTarget g4

/-- The click block of `handleMouseMoveDirection` (lines 376 to 396): the state
after it and whether the function returns early because the coordinator
rejected the destination. `none` when `combat_manager` is null in combat or when
`spendAction` divides by an empty order. -/
def handleMouseClick (aenv : AvatarEnv) (g : Game) : Option (Game × Bool) :=
  if g.inpt.pressing g.pc.mm_key && (!g.inpt.lock g.pc.mm_key || g.pc.drag_walking) then
    let target_pos := g.inpt.mouse_target
    let combat : Option (Game × Bool) :=
      if g.pc.stats.in_combat then
        if !g.combat_manager then none
        else if !isValidMovement aenv.collider g.w target_pos then some (g, true)
        else (spendAction g.w).map (fun w1 => ({ g with w := w1 }, false))
      else some (g, false)
    combat.map (fun r =>
      if r.2 then r
      else if aenv.collider.isValidPosition target_pos r.1.pc.stats.movement_type
          ENTITY_COLLIDE_HERO then
        ({ r.1 with
            inpt := { r.1.inpt with
              lock := fun k => if k = r.1.pc.mm_key then true else r.1.inpt.lock k }
            pc := { r.1.pc with mm_target_desired := target_pos } }, false)
      else r)
  else some (g, false)

/-- Method `Avatar::handleMouseMoveDirection`. -/
def handleMouseMoveDirection (aenv : AvatarEnv) (g : Game) : Option Game :=
  if !g.pc.mm_is_distant then some g
  else
    (handleMouseClick aenv g).map (fun r =>
      if r.2 then r.1
      else
        let g2 : Game := { r.1 with pc := { r.1.pc with mm_target := r.1.pc.mm_target_desired } }
        let g3 : Game :=
          if g2.pc.collided || !aenv.collider.lineOfMovement g2.pc.stats.pos g2.pc.mm_target
              g2.pc.stats.movement_type then
            handlePathfinding aenv g2
          else { g2 with pc := { g2.pc with path := [] } }
        { g3 with pc := { g3.pc with stats := { g3.pc.stats with
            direction := aenv.calcDirection g3.pc.stats.pos g3.pc.mm_target } } })

/-- The direction chosen by `handleKeyboardDirection` for the four (possibly aim
key) flags, `none` when no case of the chain applies. -/
def keyboardDirection (press_up press_down press_left press_right : Bool) : Option Nat :=
  if press_up && press_left then some 1
  else if press_up && press_right then some 3
  else if press_down && press_right then some 5
  else if press_down && press_left then some 7
  else if press_left then some 0
  else if press_up then some 2
  else if press_right then some 4
  else if press_down then some 6
  else none

/-- Method `Avatar::handleKeyboardDirection`; `stats.direction` is an unsigned char. -/
def handleKeyboardDirection (aenv : AvatarEnv) (g : Game) : Game :=
  let up0 := g.inpt.pressing Key.UP && !g.inpt.lock Key.UP
  let down0 := g.inpt.pressing Key.DOWN && !g.inpt.lock Key.DOWN
  let left0 := g.inpt.pressing Key.LEFT && !g.inpt.lock Key.LEFT
  let right0 := g.inpt.pressing Key.RIGHT && !g.inpt.lock Key.RIGHT
  let aim := !up0 && !down0 && !left0 && !right0
  let press_up := if aim then g.inpt.pressing Key.AIM_UP && !g.inpt.lock Key.AIM_UP else up0
  let press_down :=
    if aim then g.inpt.pressing Key.AIM_DOWN && !g.inpt.lock Key.AIM_DOWN else down0
  let press_left :=
    if aim then g.inpt.pressing Key.AIM_LEFT && !g.inpt.lock Key.AIM_LEFT else left0
  let press_right :=
    if aim then g.inpt.pressing Key.AIM_RIGHT && !g.inpt.lock Key.AIM_RIGHT else right0
  let dir1 :=
    match keyboardDirection press_up press_down press_left press_right with
    | some d => d
    | none => g.pc.stats.direction
  let dir2 :=
    if aenv.tileset_orthogonal && (press_up || press_down || press_left || press_right) then
      (if dir1 = 7 then 0 else dir1 + 1) % 256
    else dir1
  { g with pc := { g.pc with stats := { g.pc.stats with direction := dir2 } } }

/-- Method `Avatar::updateDirectionTimer`; the float computation of the mouse
turn delay, already capped, is `mouseTurnDelay`. -/
def updateDirectionTimer (aenv : AvatarEnv) (old_dir : Nat) (g : Game) : Game :=
  if aenv.mouse_move then
    { g with pc := { g.pc with set_dir_timer :=
        g.pc.set_dir_timer.setDuration (aenv.mouseTurnDelay g.pc.stats g.pc.mm_target) } }
  else if g.pc.stats.direction ≠ old_dir then
    { g with pc := { g.pc with set_dir_timer :=
        g.pc.set_dir_timer.setDuration (aenv.max_frames_per_sec / 10) } }
  else g

/-- Method `Avatar::set_direction`. -/
def set_direction (aenv : AvatarEnv) (g : Game) : Option Game :=
  if g.pc.teleport_camera_lock || !g.pc.set_dir_timer.isEnd then some g
  else
    let old_dir := g.pc.stats.direction
    let moved : Option Game :=
      if aenv.mouse_move then handleMouseMoveDirection aenv g
      else some (handleKeyboardDirection aenv g)
    moved.map (updateDirectionTimer aenv old_dir)

/-- Method `Avatar::move`: the answer and the state after `Entity::move`, if it ran. -/
def Avatar.move (aenv : AvatarEnv) (g : Game) : Bool × Game :=
  if g.pc.stats.in_combat && !g.combat_manager then (false, g)
  else if g.pc.stats.in_combat && !isPlayerTurn g.w then (false, g)
  else
    let r := aenv.entityMove g.pc.stats
    (r.1, { g with pc := { g.pc with stats := { g.pc.stats with pos := r.2 } } })

/-- The call `powers->activate(id, &stats, stats.pos, target)`: it is recorded in
`activated`, and `PowerManager` may change the caster's stats. -/
def powersActivate (aenv : AvatarEnv) (id : Nat) (target : FPoint) (g : Game) : Game :=
  { g with
    activated := g.activated ++ [(id, target)]
    pc := { g.pc with stats := aenv.activate id g.pc.stats target } }

/-- Modelled from the spec: Math::percentChanceF is declared in UtilsMath.h, which
is not in src; it is the coin flip of `percentChance` for a chance in percent. -/
def percentChanceF (percent : Int) (raw : Nat) : Bool := percentChance percent raw

/-- The loop of `beginPower` over `power->chain_powers` (lines 1238 to 1243). -/
def chainLoop (aenv : AvatarEnv) (target : FPoint) : List ChainPower → Game → Game
  | [], g => g
  | cp :: rest, g =>
    if cp.type_pre then
      let g1 : Game := { g with w := { g.w with rand_calls := g.w.rand_calls + 1 } }
      if percentChanceF cp.chance (aenv.randRaw g.w.rand_calls) then
        chainLoop aenv target rest (powersActivate aenv cp.id target g1)
      else chainLoop aenv target rest g1
    else chainLoop aenv target rest g

/-- Method `Avatar::beginPower` for a non-null target pointer: the state after
it and the possibly redirected target. -/
def beginPower (aenv : AvatarEnv) (replaced_id : Nat) (target : FPoint) (g : Game) :
    Game × FPoint :=
  let power := aenv.power replaced_id
  let g1 : Game :=
    if power.type = PowerType.TYPE_BLOCK then
      { g with pc := { g.pc with stats := { g.pc.stats with blocking := true } } }
    else g
  let target1 : FPoint :=
    if g1.inpt.using_mouse && power.type = PowerType.TYPE_FIXED
        && power.starting_pos = StartingPos.STARTING_POS_MELEE then
      match g1.pc.cursor_enemy with
      | some e => (g1.w.stats e).pos
      | none => target
    else target
  let g2 : Game :=
    if power.face then
      { g1 with pc := { g1.pc with stats := { g1.pc.stats with
          direction := aenv.calcDirection g1.pc.stats.pos target1 } } }
    else g1
  let g3 : Game :=
    if power.state_duration > 0 then
      { g2 with pc := { g2.pc with stats := { g2.pc.stats with
          state_timer := g2.pc.stats.state_timer.setDuration power.state_duration } } }
    else g2
  let g4 : Game :=
    if power.charge_speed ≠ 0 then
      { g3 with pc := { g3.pc with stats := { g3.pc.stats with
          charge_speed := power.charge_speed } } }
    else g3
  let g5 : Game :=
    { g4 with pc := { g4.pc with stats := { g4.pc.stats with
        prevent_interrupt := power.prevent_interrupt } } }
  (chainLoop aenv target1 power.chain_powers g5, target1)

/-- The two `setDuration` calls that commit the cooldown `cd` to the timers of
`first` and then of `second`; `none` when one of the timers is null. -/
def commitCooldown (first second cd : Nat) (g : Game) : Option Game :=
  (timerSetDuration g.pc.power_cooldown_timers first cd).bind (fun t1 =>
    (timerSetDuration t1 second cd).map (fun t2 =>
      { g with pc := { g.pc with power_cooldown_timers := t2 } }))

/-- Method `Avatar::handleInstantPower`. -/
def handleInstantPower (aenv : AvatarEnv) (replaced_id : Nat) (action : ActionData)
    (g : Game) : Option Game :=
  let r := beginPower aenv replaced_id action.target g
  let g1 := powersActivate aenv replaced_id r.2 r.1
  commitCooldown action.power replaced_id (aenv.power replaced_id).cooldown g1

/-- The block power start shared by `handleBlockingPower` and
`handleStanceMovePower`: state BLOCK, `beginPower`, activation, stats refresh. -/
def startBlock (aenv : AvatarEnv) (replaced_id : Nat) (g : Game) : Game :=
  let g1 : Game :=
    { g with pc := { g.pc with stats := { g.pc.stats with
        cur_state := EntityState.ENTITY_BLOCK } } }
  let r := beginPower aenv replaced_id g1.pc.act_target g1
  let g2 : Game := { r.1 with pc := { r.1.pc with act_target := r.2 } }
  let g3 := powersActivate aenv replaced_id g2.pc.act_target g2
  { g3 with pc := { g3.pc with stats := { g3.pc.stats with refresh_stats := true } } }

/-- Method `Avatar::handleBlockingPower`. -/
def handleBlockingPower (aenv : AvatarEnv) (replaced_id : Nat) (action : ActionData)
    (g : Game) : Game :=
  if (aenv.power replaced_id).type = PowerType.TYPE_BLOCK then
    startBlock aenv replaced_id
      { g with pc := { g.pc with
          current_power := replaced_id
          current_power_original := action.power
          act_target := action.target
          attack_anim := (aenv.power replaced_id).attack_anim } }
  else g

/-- Method `Avatar::handleStanceMovePower`. -/
def handleStanceMovePower (aenv : AvatarEnv) (replaced_id : Nat) (action : ActionData)
    (g : Game) : Game :=
  let g1 : Game :=
    { g with pc := { g.pc with
        current_power := replaced_id
        current_power_original := action.power
        act_target := action.target
        attack_anim := (aenv.power replaced_id).attack_anim
        anim := aenv.resetActiveAnimation g.pc.anim } }
  if (aenv.power replaced_id).new_state = PowerNewState.STATE_ATTACK then
    { g1 with pc := { g1.pc with stats := { g1.pc.stats with
        cur_state := EntityState.ENTITY_POWER } } }
  else if (aenv.power replaced_id).type = PowerType.TYPE_BLOCK then
    startBlock aenv replaced_id g1
  else g1

/-- Method `Avatar::handleReplacedPower`; the call is recorded in `handled`. -/
def handleReplacedPower (aenv : AvatarEnv) (replaced_id : Nat) (action : ActionData)
    (g : Game) : Option Game :=
  let g0 : Game := { g with handled := g.handled ++ [action] }
  if (aenv.power replaced_id).new_state = PowerNewState.STATE_INSTANT then
    handleInstantPower aenv replaced_id action g0
  else if g0.pc.stats.cur_state = EntityState.ENTITY_BLOCK then
    some (handleBlockingPower aenv replaced_id action g0)
  else if g0.pc.stats.cur_state = EntityState.ENTITY_STANCE
      ∨ g0.pc.stats.cur_state = EntityState.ENTITY_MOVE then
    some (handleStanceMovePower aenv replaced_id action g0)
  else some g0

/-- The loop of `handleActionQueue` (lines 823 to 830) over the queued entries. -/
def actionLoop (aenv : AvatarEnv) : List ActionData → Game → Option Game
  | [], g => some g
  | action :: rest, g =>
    let replaced_id := aenv.checkReplaceByEffect action.power g.pc.stats
    if replaced_id = 0 then actionLoop aenv rest g
    else (handleReplacedPower aenv replaced_id action g).bind (actionLoop aenv rest)

/-- Method `Avatar::handleActionQueue`. -/
def handleActionQueue (aenv : AvatarEnv) (g : Game) : Option Game :=
  (actionLoop aenv g.pc.action_queue g).map (fun g1 =>
    { g1 with pc := { g1.pc with action_queue := [] } })

/-- The call `setAnimation(name)` of Entity on the active animation. -/
def setAnim (aenv : AvatarEnv) (name : String) (g : Game) : Game :=
  { g with pc := { g.pc with anim := aenv.setAnimation name g.pc.anim } }

/-- The assignment `stats.cur_state = s`. -/
def setCurState (s : EntityState) (g : Game) : Game :=
  { g with pc := { g.pc with stats := { g.pc.stats with cur_state := s } } }

/-- The last block of `handleStanceState` (lines 960 to 971): the transition to
MOVE, taken only when `move()` succeeds. -/
def stanceMoveBlock (aenv : AvatarEnv) (allowed_to_move : Bool) (g : Game) : Game :=
  if pressing_move aenv g && allowed_to_move then
    let r := Avatar.move aenv g
    if r.1 then
      let g1 : Game :=
        if aenv.mouse_move && r.2.inpt.pressing r.2.pc.mm_key then
          { r.2 with pc := { r.2.pc with drag_walking := true } }
        else r.2
      let g2 := setCurState EntityState.ENTITY_MOVE g1
      { g2 with pc := { g2.pc with mm_target_object := MM_TARGET_NONE } }
    else r.2
  else g

/-- The flag `allowed_to_move` computed by `handleStanceState` (lines 939 to 954). -/
def stanceAllowedToMove (aenv : AvatarEnv) (g : Game) : Bool :=
  if aenv.mouse_move then
    g.pc.restrict_power_use && (!g.inpt.lock g.pc.mm_key || g.pc.drag_walking)
  else if !aenv.mouse_aim then !g.inpt.pressing Key.SHIFT
  else true

/-- The flag `allowed_to_turn` computed by `handleStanceState`. -/
def stanceAllowedToTurn (aenv : AvatarEnv) (g : Game) : Bool :=
  if aenv.mouse_move then stanceAllowedToMove aenv g else true

/-- The first part of `handleStanceState` (lines 936 to 958): the animation, the
unlocking by shift in mouse-move mode and the direction. -/
def stanceTurn (aenv : AvatarEnv) (g : Game) : Option Game :=
  let g0 := setAnim aenv "stance" g
  let g1 : Game :=
    if aenv.mouse_move && g0.inpt.pressing g0.pc.mm_key && g0.inpt.pressing Key.SHIFT then
      { g0 with inpt := { g0.inpt with
          lock := fun k => if k = g0.pc.mm_key then false else g0.inpt.lock k } }
    else g0
  if stanceAllowedToTurn aenv g0 then set_direction aenv g1 else some g1

/-- Method `Avatar::handleStanceState`. -/
def handleStanceState (aenv : AvatarEnv) (g : Game) : Option Game :=
  (stanceTurn aenv g).map
    (stanceMoveBlock aenv (stanceAllowedToMove aenv (setAnim aenv "stance" g)))

/-- The transitions back to STANCE of `handleMoveState` (lines 990 to 1015). -/
def moveTransitions (aenv : AvatarEnv) (g : Game) : Game :=
  let g1 : Game :=
    if !pressing_move aenv g then setCurState EntityState.ENTITY_STANCE g
    else
      let r := Avatar.move aenv g
      if !r.1 then
        let g2 : Game :=
          if aenv.mouse_move && !isNearMMtarget aenv r.2 then
            { r.2 with pc := { r.2.pc with collided := true } }
          else r.2
        setCurState EntityState.ENTITY_STANCE g2
      else if (aenv.mouse_move || !aenv.mouse_aim) && r.2.inpt.pressing Key.SHIFT then
        setCurState EntityState.ENTITY_STANCE r.2
      else r.2
  let g3 : Game :=
    if aenv.mouse_move && g1.inpt.pressing g1.pc.mm_key then
      { g1 with pc := { g1.pc with drag_walking := true } }
    else g1
  if g3.pc.anim.name ≠ "run" then setCurState EntityState.ENTITY_STANCE g3 else g3

/-- Method `Avatar::handleMoveState`; the step sound draws from `rand()`. -/
def handleMoveState (aenv : AvatarEnv) (g : Game) : Option Game :=
  let g0 := setAnim aenv "run" g
  let g1 : Game :=
    if g0.pc.sound_steps ≠ 0 then
      { g0 with w := { g0.w with rand_calls := g0.w.rand_calls + 1 } }
    else g0
  (set_direction aenv g1).map (moveTransitions aenv)

/-- The first-frame block of `handlePowerState` (lines 1036 to 1052); the field
`duration` of the animation is what `getDuration()` returns there. -/
def powerFirstFrame (aenv : AvatarEnv) (g : Game) : Option Game :=
  if g.pc.anim.first_frame then
    let r := beginPower aenv g.pc.current_power g.pc.act_target g
    let g1 : Game := { r.1 with pc := { r.1.pc with act_target := r.2 } }
    (timerSetDuration g1.pc.power_cast_timers g1.pc.current_power g1.pc.anim.duration).bind
      (fun t1 =>
        (timerSetDuration t1 g1.pc.current_power_original g1.pc.anim.duration).bind
          (fun t2 =>
            let g2 : Game := { g1 with pc := { g1.pc with power_cast_timers := t2 } }
            if g2.pc.stats.in_combat && g2.combat_manager then
              (spendAction g2.w).map (fun w1 => { g2 with w := w1 })
            else some g2))
  else some g

/-- The activation block of `handlePowerState` (lines 1055 to 1066). -/
def powerDoPower (aenv : AvatarEnv) (g : Game) : Option Game :=
  if g.pc.anim.active_frame && !g.pc.stats.hold_state then
    let g1 := powersActivate aenv g.pc.current_power g.pc.act_target g
    (commitCooldown g1.pc.current_power g1.pc.current_power_original
        (aenv.power g1.pc.current_power).cooldown g1).map
      (fun g2 =>
        if !g2.pc.stats.state_timer.isEnd then
          { g2 with pc := { g2.pc with stats := { g2.pc.stats with hold_state := true } } }
        else g2)
  else some g

/-- The end of `handlePowerState` (lines 1070 to 1074): back to STANCE when the
animation is done. -/
def powerFinish (g : Game) : Game :=
  if (g.pc.anim.last_frame && g.pc.stats.state_timer.isEnd)
      || g.pc.anim.name ≠ g.pc.attack_anim then
    { g with pc := { g.pc with stats := { g.pc.stats with
        cur_state := EntityState.ENTITY_STANCE
        cooldown := g.pc.stats.cooldown.resetBegin
        prevent_interrupt := false } } }
  else g

/-- Method `Avatar::handlePowerState`. -/
def handlePowerState (aenv : AvatarEnv) (g : Game) : Option Game :=
  let g0 := setAnim aenv g.pc.attack_anim g
  let body : Option Game :=
    if aenv.isValid g0.pc.current_power then
      (powerFirstFrame aenv g0).bind (powerDoPower aenv)
    else some g0
  body.map powerFinish

/-- Method `Avatar::handleBlockState`. -/
def handleBlockState (aenv : AvatarEnv) (g : Game) : Game := setAnim aenv "block" g

/-- Method `Avatar::handleHitState`. -/
def handleHitState (aenv : AvatarEnv) (g : Game) : Option Game :=
  let g0 := setAnim aenv "hit" g
  let first : Option Game :=
    if g0.pc.anim.first_frame then
      let g1 : Game :=
        { g0 with pc := { g0.pc with stats := { g0.pc.stats with
            effects := { g0.pc.stats.effects with triggered_hit := true } } } }
      if aenv.isValid g1.pc.stats.block_power then
        (timerSetDuration g1.pc.power_cooldown_timers g1.pc.stats.block_power
            (aenv.power g1.pc.stats.block_power).cooldown).map
          (fun t => { g1 with pc := { g1.pc with
            power_cooldown_timers := t
            stats := { g1.pc.stats with block_power := 0 } } })
      else some g1
    else some g0
  first.map (fun g2 =>
    if g2.pc.anim.times_played ≥ 1 ∨ g2.pc.anim.name ≠ "hit" then
      setCurState EntityState.ENTITY_STANCE g2
    else g2)

/-- Method `Avatar::untransform`, as far as the modelled fields go: the saved
hero stats are restored (`revertHeroStats`), the avatar is no longer
transformed, stands in STANCE and shows the run animation. -/
def untransform (aenv : AvatarEnv) (g : Game) : Game :=
  let s := aenv.revertHeroStats g.pc.stats
  setAnim aenv "run"
    { g with pc := { g.pc with
        transform_triggered := true
        stats := { s with transformed := false, cur_state := EntityState.ENTITY_STANCE } } }

/-- The reset of all power timers in `handleDeadState` (lines 1125 to 1130). -/
def resetTimersEnd (timers : List (Option Timer)) : List (Option Timer) :=
  timers.map (fun t => t.map Timer.resetEnd)

/-- The first-entry block of `handleDeadState` (lines 1119 to 1154). -/
def deadFirstFrame (aenv : AvatarEnv) (g : Game) : Game :=
  if !g.pc.stats.corpse && g.pc.anim.first_frame && decide (g.pc.anim.times_played < 1) then
    { g with
      inpt := { g.inpt with
        lock := fun k =>
          if k = Key.MAIN1 ∧ g.inpt.pressing Key.MAIN1 = true then true else g.inpt.lock k }
      pc := { g.pc with
        close_menus := true
        power_cooldown_timers := resetTimersEnd g.pc.power_cooldown_timers
        power_cast_timers := resetTimersEnd g.pc.power_cast_timers
        stats := { g.pc.stats with
          effects := aenv.clearEffects g.pc.stats.effects
          powers_passive := []
          death_penalty := if g.pc.stats.permadeath then false else true } } }
  else g

/-- Method `Avatar::handleDeadState`. The teleport request written to `mapr` is
outside the model. -/
def handleDeadState (aenv : AvatarEnv) (g : Game) : Game :=
  let g1 : Game :=
    if g.pc.stats.transformed then
      untransform aenv
        { g with pc := { g.pc with stats := { g.pc.stats with transform_duration := 0 } } }
    else g
  let g2 := deadFirstFrame aenv (setAnim aenv "die" g1)
  let g3 : Game :=
    if !g2.pc.stats.corpse
        && (decide (g2.pc.anim.times_played ≥ 1) || decide (g2.pc.anim.name ≠ "die")) then
      { g2 with
        game_over := { g2.game_over with visible := true }
        pc := { g2.pc with stats := { g2.pc.stats with corpse := true } } }
    else g2
  if g3.game_over.visible && g3.game_over.continue_clicked then
    let g4 : Game := { g3 with game_over := { g3.game_over with visible := false } }
    if g4.pc.stats.permadeath then g4
    else { g4 with pc := { g4.pc with respawn := true } }
  else g3

/-- Method `Avatar::handleCurrentState`. -/
def handleCurrentState (aenv : AvatarEnv) (g : Game) : Option Game :=
  match g.pc.stats.cur_state with
  | EntityState.ENTITY_STANCE => handleStanceState aenv g
  | EntityState.ENTITY_MOVE => handleMoveState aenv g
  | EntityState.ENTITY_POWER => handlePowerState aenv g
  | EntityState.ENTITY_BLOCK => some (handleBlockState aenv g)
  | EntityState.ENTITY_HIT => handleHitState aenv g
  | EntityState.ENTITY_DEAD => some (handleDeadState aenv g)

/-- Method `Avatar::handlePowerRestrictions`. -/
def handlePowerRestrictions (aenv : AvatarEnv) (g : Game) : Game :=
  if aenv.mouse_move && g.inpt.pressing g.pc.mm_key && !g.inpt.pressing Key.SHIFT
      && !g.inpt.within_slots && !g.inpt.within_menus then
    { g with pc := { g.pc with restrict_power_use := true } }
  else g

/-- Method `Avatar::resetBlockState`; `clearTriggerEffects` removes effects from a
list that is outside the model. -/
def resetBlockState (g : Game) : Game :=
  { g with pc := { g.pc with stats := { g.pc.stats with
      cur_state := EntityState.ENTITY_STANCE
      effects := { g.pc.stats.effects with triggered_block := false }
      refresh_stats := true
      block_power := 0 } } }

/-- Method `Avatar::handleBasicState`; the collision map is outside the model. -/
def handleBasicState (aenv : AvatarEnv) (g : Game) : Game :=
  let g1 : Game :=
    if (decide (g.pc.stats.hp > 0) || g.pc.stats.effects.triggered_death)
        && !g.pc.respawn && !g.pc.transform_triggered then
      { g with pc := { g.pc with stats := aenv.activatePassives g.pc.stats } }
    else g
  let g2 : Game := { g1 with pc := { g1.pc with transform_triggered := false } }
  let g3 : Game :=
    if g2.pc.stats.effects.triggered_block && !g2.pc.stats.blocking then resetBlockState g2
    else g2
  { g3 with pc := { g3.pc with stats := aenv.statsLogic g3.pc.stats } }

/-- Method `Avatar::handleLowHealthEffects`: it only touches `prev_hp`,
`playing_lowhp`, the message log and the sound channel, all outside the model. -/
def handleLowHealthEffects (g : Game) : Game := g

/-- Method `Avatar::shouldLevelUp`. -/
def shouldLevelUp (aenv : AvatarEnv) (g : Game) : Bool :=
  decide (g.pc.stats.level < aenv.maxLevel)
    && decide (g.pc.stats.xp ≥ aenv.levelXP (g.pc.stats.level + 1))

/-- Method `Avatar::performLevelUp`; messages and the sound are outside the model. -/
def performLevelUp (aenv : AvatarEnv) (g : Game) : Game :=
  let s1 : AvatarStats :=
    { g.pc.stats with level_up := true, level := aenv.levelFromXP g.pc.stats.xp }
  let s2 := aenv.recalc s1
  let s3 : AvatarStats :=
    if s2.cur_state = EntityState.ENTITY_DEAD then
      { s2 with cur_state := EntityState.ENTITY_STANCE }
    else s2
  { g with pc := { g.pc with stats := s3 } }

/-- Method `Avatar::handleLevelUp`. -/
def handleLevelUp (aenv : AvatarEnv) (g : Game) : Game :=
  if !shouldLevelUp aenv g then g else performLevelUp aenv g

/-- Method `Avatar::updateMouseDistance`; the float comparison with the deadzone
(moving or not) is `beyondDeadzone`. -/
def updateMouseDistance (aenv : AvatarEnv) (g : Game) : Game :=
  let moving := decide (g.pc.stats.cur_state = EntityState.ENTITY_MOVE)
  let distant := aenv.beyondDeadzone moving g.pc.stats.pos g.inpt.mouse_target
  { g with pc := { g.pc with mm_is_distant := distant } }

/-- Method `Avatar::handleMouseLock`. -/
def handleMouseLock (aenv : AvatarEnv) (g : Game) : Game :=
  if !g.inpt.lock g.pc.mm_key then
    let g1 : Game :=
      match g.pc.cursor_enemy with
      | some e =>
        if aenv.mouse_move_attack && !(g.w.stats e).hero_ally then
          { g with
            inpt := { g.inpt with
              lock := fun k => if k = g.pc.mm_key then true else g.inpt.lock k }
            pc := { g.pc with lock_enemy := some e, mm_target_object := MM_TARGET_ENTITY } }
        else g
      | none => g
    match g1.pc.cursor_enemy with
    | some _ => g1
    | none =>
      { g1 with pc := { g1.pc with
          lock_enemy := none
          mm_target_object :=
            if g1.pc.mm_target_object = MM_TARGET_ENTITY then MM_TARGET_NONE
            else g1.pc.mm_target_object } }
  else g

/-- Method `Avatar::updateLockedEnemy`. -/
def updateLockedEnemy (g : Game) : Game :=
  match g.pc.lock_enemy with
  | none => g
  | some e =>
    if (g.w.stats e).hp ≤ 0 then
      { g with pc := { g.pc with lock_enemy := none, mm_target_object := MM_TARGET_NONE } }
    else
      { g with pc := { g.pc with
          mm_target_object_pos := (g.w.stats e).pos
          mm_target := (g.w.stats e).pos
          mm_target_desired := (g.w.stats e).pos } }

/-- Method `Avatar::handleMouseTargeting`; the float test on the camera distance
is `cameraNear`. -/
def handleMouseTargeting (aenv : AvatarEnv) (g : Game) : Game :=
  let g1 : Game :=
    if g.inpt.pressing g.pc.mm_key then handleMouseLock aenv (updateMouseDistance aenv g)
    else g
  let g2 := updateLockedEnemy g1
  if g2.pc.teleport_camera_lock && aenv.cameraNear g2.pc.stats.pos then
    { g2 with pc := { g2.pc with teleport_camera_lock := false } }
  else g2

/-- Method `Avatar::handleMouseMovement`. -/
def handleMouseMovement (aenv : AvatarEnv) (g : Game) : Game :=
  let g1 : Game :=
    { g with pc := { g.pc with
        mm_key := if aenv.mouse_move_swap then Key.MAIN2 else Key.MAIN1 } }
  let g2 : Game :=
    if !g1.inpt.pressing g1.pc.mm_key then
      { g1 with pc := { g1.pc with drag_walking := false } }
    else g1
  let g3 : Game :=
    { g2 with pc := { g2.pc with
        using_main1 := g2.inpt.pressing Key.MAIN1 && !g2.inpt.lock Key.MAIN1
        using_main2 := g2.inpt.pressing Key.MAIN2 && !g2.inpt.lock Key.MAIN2 } }
  if aenv.mouse_move then handleMouseTargeting aenv g3 else g3

/-- Method `Avatar::handleAnimations`, for the active animation. -/
def handleAnimations (aenv : AvatarEnv) (g : Game) : Game :=
  if !g.pc.stats.effects.stun then
    { g with pc := { g.pc with anim := aenv.advanceFrame g.pc.anim } }
  else g

/-- Method `Avatar::handleTransformState`: it only saves `transform_pos` and
`transform_map`, which are outside the model. -/
def handleTransformState (g : Game) : Game := g

/-- Method `Avatar::handleStateChanges`. -/
def handleStateChanges (aenv : AvatarEnv) (g : Game) : Option Game :=
  let g1 : Game := { g with pc := { g.pc with set_dir_timer := g.pc.set_dir_timer.tick } }
  let g2 : Game :=
    if !pressing_move aenv g1 then
      { g1 with pc := { g1.pc with set_dir_timer := g1.pc.set_dir_timer.resetEnd } }
    else g1
  if !g2.pc.stats.effects.stun then
    (handleActionQueue aenv g2).bind (handleCurrentState aenv)
  else some g2

/-- The loop of `handleCameraAndCooldowns` over `power_cooldown_ids` (lines 1195
to 1199). -/
def tickLoop : List Nat → Game → Option Game
  | [], g => some g
  | power_id :: rest, g =>
    (timerTick g.pc.power_cooldown_timers power_id).bind (fun t1 =>
      (timerTick g.pc.power_cast_timers power_id).bind (fun t2 =>
        tickLoop rest
          { g with pc := { g.pc with power_cooldown_timers := t1, power_cast_timers := t2 } }))

/-- Method `Avatar::handleCameraAndCooldowns`; the camera, the map events and the
collision map are outside the model. -/
def handleCameraAndCooldowns (g : Game) : Option Game :=
  (tickLoop g.pc.power_cooldown_ids g).map (fun g1 =>
    let g2 : Game :=
      if g1.pc.stats.state_timer.isEnd && g1.pc.stats.hold_state then
        { g1 with pc := { g1.pc with stats := { g1.pc.stats with hold_state := false } } }
      else g1
    if g2.pc.stats.cur_state ≠ EntityState.ENTITY_POWER ∧ g2.pc.stats.charge_speed ≠ 0 then
      { g2 with pc := { g2.pc with stats := { g2.pc.stats with charge_speed := 0 } } }
    else g2)

/-- The handlers of `Avatar::logic` that run before `handleStateChanges`. -/
def logicPrelude (aenv : AvatarEnv) (g : Game) : Game :=
  handleTransformState
    (handleAnimations aenv
      (handleMouseMovement aenv
        (handleLevelUp aenv
          (handleLowHealthEffects
            (handleBasicState aenv
              (handlePowerRestrictions aenv g))))))

/-- Method `Avatar::logic`. -/
def Avatar.logic (aenv : AvatarEnv) (g : Game) : Option Game :=
  (handleStateChanges aenv (logicPrelude aenv g)).bind handleCameraAndCooldowns

/-- The timer loop of the constructor `Avatar::Avatar` (lines 120 to 129) from
index `i` on, for `n` more powers: the identifiers of the valid powers and the
two timer vectors. -/
def constructTimers (aenv : AvatarEnv) :
    Nat → Nat → List Nat × List (Option Timer) × List (Option Timer)
  | 0, _ => ([], [], [])
  | n + 1, i =>
    let r := constructTimers aenv n (i + 1)
    if aenv.isValid i then (i :: r.1, some Timer.default :: r.2.1, some Timer.default :: r.2.2)
    else (r.1, none :: r.2.1, none :: r.2.2)

/-- The reset `*timers[i] = Timer()` of `initializePowers`, guarded by the null test. -/
def timerRenew (timers : List (Option Timer)) (i : Nat) : List (Option Timer) :=
  match timerAt timers i with
  | none => timers
  | some _ => timers.set i (some Timer.default)

/-- The loop of `Avatar::initializePowers` (lines 231 to 249) from index `i` on,
for `n` more powers. -/
def initializePowersLoop (aenv : AvatarEnv) : Nat → Nat → Avatar → Avatar
  | 0, _, a => a
  | n + 1, i, a =>
    if !aenv.isValid i then initializePowersLoop aenv n (i + 1) a
    else
      let a1 : Avatar :=
        if a.untransform_power = 0 && (aenv.power i).required_items_empty
            && (aenv.power i).spawn_type = "untransform" then
          { a with untransform_power := i }
        else a
      initializePowersLoop aenv n (i + 1)
        { a1 with
          power_cooldown_timers := timerRenew a1.power_cooldown_timers i
          power_cast_timers := timerRenew a1.power_cast_timers i }

/-- Method `Avatar::initializePowers`. -/
def initializePowers (aenv : AvatarEnv) (a : Avatar) : Avatar :=
  initializePowersLoop aenv aenv.powers_size 0 { a with untransform_power := 0 }

/-- Method `Avatar::init`, as far as the modelled fields go: the stats start in
STANCE and are recalculated, the power state is reset, the timers are renewed.
The map position, the message log and the sprite layers are outside the model. -/
def Avatar.init (aenv : AvatarEnv) (a : Avatar) : Avatar :=
  let s1 := aenv.recalc { a.stats with cur_state := EntityState.ENTITY_STANCE, level := 1, xp := 0 }
  initializePowers aenv
    { a with
      stats := { s1 with cooldown := s1.cooldown.resetEnd }
      current_power := 0
      current_power_original := 0
      respawn := false
      transform_triggered := false }

/-- The constructor `Avatar::Avatar`: the member initialisers, the timer loop and
`init()`. The stat block and the animation start as given. -/
def Avatar.new (aenv : AvatarEnv) (stats0 : AvatarStats) (anim0 : Animation) : Avatar :=
  let r := constructTimers aenv aenv.powers_size 0
  Avatar.init aenv
    { stats := stats0
      anim := anim0
      mm_key := if aenv.mouse_move_swap then Key.MAIN2 else Key.MAIN1
      mm_is_distant := false
      set_dir_timer := Timer.default
      path := []
      prev_target := FPoint.zero
      collided := false
      path_found := false
      chance_calc_path := 0
      path_found_fails := 0
      path_found_fail_timer := Timer.default
      restrict_power_use := false
      mm_target := ⟨-1, -1⟩
      mm_target_desired := ⟨-1, -1⟩
      power_cooldown_ids := r.1
      transform_triggered := false
      sound_steps := 0
      attack_anim := ""
      untransform_power := 0
      current_power := 0
      current_power_original := 0
      act_target := FPoint.zero
      drag_walking := false
      respawn := false
      close_menus := false
      allow_movement := true
      power_cooldown_timers := r.2.1
      power_cast_timers := r.2.2
      cursor_enemy := none
      lock_enemy := none
      using_main1 := false
      using_main2 := false
      teleport_camera_lock := false
      mm_target_object := MM_TARGET_NONE
      mm_target_object_pos := FPoint.zero
      action_queue := [] }

/-- The respawn block of `GameStatePlay::logic` (lines 971 to 985), as far as the
modelled fields go. -/
def respawnHero (aenv : AvatarEnv) (g : Game) : Game :=
  if g.pc.respawn then
    let s1 : AvatarStats :=
      { g.pc.stats with corpse := false, cur_state := EntityState.ENTITY_STANCE }
    { g with pc := { g.pc with
        stats := aenv.activatePassives (aenv.recalc (aenv.statsLogic s1))
        respawn := false } }
  else g

/-- Example power table: power 1 is an instant power with cooldown 10, power 2 an
instant power with cooldown 30, power 3 an attack with cooldown 20; other
identifiers carry an empty power. -/
def examplePower (i : Nat) : Power :=
  { new_state :=
      if i = 1 ∨ i = 2 then PowerNewState.STATE_INSTANT
      else if i = 3 then PowerNewState.STATE_ATTACK else PowerNewState.STATE_NONE
    type := PowerType.TYPE_FIXED
    starting_pos := StartingPos.STARTING_POS_SOURCE
    cooldown := if i = 1 then 10 else if i = 2 then 30 else if i = 3 then 20 else 0
    attack_anim := "swing"
    face := false
    state_duration := 0
    charge_speed := 0
    prevent_interrupt := false
    chain_powers := []
    required_items_empty := true
    spawn_type := "" }

/-- Example environment of the avatar: mouse movement, four power slots of which
1, 2 and 3 are valid, an active effect that replaces power 1 by power 2, an open
map, an `Entity::move` that always succeeds in place, and stat block methods that
change nothing. -/
def exampleAvatarEnv : AvatarEnv :=
  { exampleEnv with
    mouse_move := true
    mouse_aim := false
    mouse_move_swap := false
    mouse_move_attack := false
    tileset_orthogonal := false
    powers_size := 4
    isValid := fun i => decide (i = 1 ∨ i = 2 ∨ i = 3)
    power := examplePower
    checkReplaceByEffect := fun i _ => if i = 1 then 2 else i
    activate := fun _ s _ => s
    activatePassives := fun s => s
    statsLogic := fun s => s
    recalc := fun s => s
    clearEffects := fun e => e
    revertHeroStats := fun s => s
    maxLevel := 10
    levelXP := fun l => 100 * l
    levelFromXP := fun x => x / 100
    collider := openCollider
    entityMove := fun s => (true, s.pos)
    advanceFrame := fun a => a
    setAnimation := fun n a => { a with name := n }
    resetActiveAnimation := fun a => a
    calcDirection := fun _ _ => 0
    beyondDeadzone := fun _ a b => decide (a ≠ b)
    withinReach := fun s p => decide (s.pos = p)
    cameraNear := fun _ => true
    mouseTurnDelay := fun _ _ => 1 }

/-- Example stat block of the avatar: in combat, standing at (5, 0), level 1. -/
def exampleAvatarStats : AvatarStats :=
  { cur_state := EntityState.ENTITY_STANCE
    in_combat := true
    pos := ⟨5, 0⟩
    direction := 0
    movement_type := 0
    hp := 10
    level := 1
    xp := 0
    level_up := false
    corpse := false
    transformed := false
    transform_duration := 0
    blocking := false
    block_power := 0
    hold_state := false
    state_timer := Timer.default
    cooldown := Timer.default
    refresh_stats := false
    prevent_interrupt := false
    death_penalty := false
    permadeath := false
    charge_speed := 0
    powers_passive := []
    effects :=
      { stun := false, triggered_block := false, triggered_death := false
        triggered_hit := false, knockback_speed := 0 } }

/-- Example animation: a middle frame of the named animation. -/
def exampleAnim (name : String) : Animation :=
  { name := name, first_frame := false, active_frame := false, last_frame := false
    times_played := 0, duration := 8 }

/-- Example input: nothing pressed, nothing locked, the mouse over (6, 0). -/
def exampleInput : InputState :=
  { pressing := fun _ => false
    lock := fun _ => false
    mouse_target := ⟨6, 0⟩
    using_mouse := true
    within_slots := false
    within_menus := false }

/-- Example game: the freshly constructed example avatar with the example stats,
in the combat of `movedHeroWorld` (the hero's turn, `k` actions left). -/
def exampleGame (k : Int) : Game :=
  { w := movedHeroWorld k
    combat_manager := true
    pc := Avatar.new exampleAvatarEnv exampleAvatarStats (exampleAnim "stance")
    inpt := exampleInput
    game_over := { visible := false, continue_clicked := false }
    activated := []
    handled := []
    computePath_calls := 0 }

/-- Example game in the middle of a pointer-driven movement towards (6, 0): the
mouse key is held and locked, `drag_walking` is set, the avatar is in MOVE, and
`k` actions are left in the hero's turn. -/
def dragGame (k : Int) : Game :=
  { exampleGame k with
    inpt := { exampleInput with
      pressing := fun key => decide (key = Key.MAIN1)
      lock := fun key => decide (key = Key.MAIN1) }
    pc := { (exampleGame k).pc with
      stats := { exampleAvatarStats with cur_state := EntityState.ENTITY_MOVE }
      anim := exampleAnim "run"
      mm_is_distant := true
      drag_walking := true
      restrict_power_use := true
      mm_target := ⟨6, 0⟩
      mm_target_desired := ⟨6, 0⟩ } }

/-- Which entries of a timer vector are non-null. -/
def timerShape (timers : List (Option Timer)) : List Bool := timers.map Option.isSome

/-- The second state has the same action queue as the first. -/
def KeepsQueue (g g1 : Game) : Prop := g1.pc.action_queue = g.pc.action_queue

/-- The second state has the same non-null timers and the same list
`power_cooldown_ids` as the first. -/
def KeepsTimers (g g1 : Game) : Prop :=
  timerShape g1.pc.power_cooldown_timers = timerShape g.pc.power_cooldown_timers ∧
  timerShape g1.pc.power_cast_timers = timerShape g.pc.power_cast_timers ∧
  g1.pc.power_cooldown_ids = g.pc.power_cooldown_ids

/-- The second state has the same control state, combat flag, transformation flag
and coordinator pointer as the first. -/
def KeepsState (g g1 : Game) : Prop :=
  g1.pc.stats.cur_state = g.pc.stats.cur_state ∧
  g1.pc.stats.in_combat = g.pc.stats.in_combat ∧
  g1.pc.stats.transformed = g.pc.stats.transformed ∧
  g1.combat_manager = g.combat_manager

/-- The second state differs from the first in none of the aspects above and
records no further call of `handleReplacedPower` or `powers->activate`. -/
def MoveFrame (g g1 : Game) : Prop :=
  KeepsQueue g g1 ∧ KeepsTimers g g1 ∧ KeepsState g g1 ∧
  g1.handled = g.handled ∧ g1.activated = g.activated

/-- The second state has the same action queue, the same non-null timers and the
same record of `handleReplacedPower` calls as the first. -/
def PipeFrame (g g1 : Game) : Prop :=
  KeepsQueue g g1 ∧ KeepsTimers g g1 ∧ g1.handled = g.handled

/-- A dead, untransformed avatar in the first state is still so in the second. -/
def DeadFrame (g g1 : Game) : Prop :=
  g.pc.stats.cur_state = EntityState.ENTITY_DEAD ∧ g.pc.stats.transformed = false →
  g1.pc.stats.cur_state = EntityState.ENTITY_DEAD ∧ g1.pc.stats.transformed = false

/-- The assignment of the avatar position made by `Entity::move`. -/
def setPos (p : FPoint) (g : Game) : Game :=
  { g with pc := { g.pc with stats := { g.pc.stats with pos := p } } }

/-- Example game at the enemy's turn: the avatar stands in STANCE in combat, the
mouse key is pressed on (6, 0) and movement is requested, but the turn index
points at the enemy. -/
def offTurnGame : Game :=
  { exampleGame 2 with
    w := { movedHeroWorld 2 with cm := { (movedHeroWorld 2).cm with current_turn_index := 0 } }
    inpt := { exampleInput with pressing := fun key => decide (key = Key.MAIN1) }
    pc := { (exampleGame 2).pc with
      mm_is_distant := true
      restrict_power_use := true
      mm_target := ⟨6, 0⟩
      mm_target_desired := ⟨6, 0⟩ } }

/-- The second state has the same coordinator, action queue and non-null timers
as the first. -/
def ActFrame (g g1 : Game) : Prop :=
  g1.w.cm = g.w.cm ∧ KeepsQueue g g1 ∧ KeepsTimers g g1

/-- The stat block methods outside `src/` that run while the avatar is dead
(`activatePassives`, `StatBlock::logic`, `PowerManager::activate`) leave the
control state and the transformation flag alone. -/
def StatsKeepDead (aenv : AvatarEnv) : Prop :=
  (∀ s, (aenv.activatePassives s).cur_state = s.cur_state ∧
    (aenv.activatePassives s).transformed = s.transformed) ∧
  (∀ s, (aenv.statsLogic s).cur_state = s.cur_state ∧
    (aenv.statsLogic s).transformed = s.transformed) ∧
  (∀ i s t, (aenv.activate i s t).cur_state = s.cur_state ∧
    (aenv.activate i s t).transformed = s.transformed)

/-- The second state has the same control state and transformation flag as the first. -/
def KeepsCT (g g1 : Game) : Prop :=
  g1.pc.stats.cur_state = g.pc.stats.cur_state ∧
  g1.pc.stats.transformed = g.pc.stats.transformed

/-- The second state has the same coordinator pointer, the same coordinator and
the same current power (resolved and original) as the first. -/
def CoordFrame (g g1 : Game) : Prop :=
  g1.combat_manager = g.combat_manager ∧ g1.w.cm = g.w.cm ∧
  g1.pc.current_power = g.pc.current_power ∧
  g1.pc.current_power_original = g.pc.current_power_original

/-- Both timers of every valid power are non-null. -/
def TimersReady (aenv : AvatarEnv) (g : Game) : Prop :=
  ∀ i, aenv.isValid i = true →
    (∃ t, timerAt g.pc.power_cooldown_timers i = some t) ∧
    (∃ t, timerAt g.pc.power_cast_timers i = some t)

/-- The original identifier of a valid current power is valid. -/
def PowerPairValid (aenv : AvatarEnv) (g : Game) : Prop :=
  aenv.isValid g.pc.current_power = true → aenv.isValid g.pc.current_power_original = true

/-- An effect replaces a valid power by a valid power or by none. -/
def ReplaceValid (aenv : AvatarEnv) : Prop :=
  ∀ i s, aenv.isValid i = true →
    aenv.checkReplaceByEffect i s = 0 ∨ aenv.isValid (aenv.checkReplaceByEffect i s) = true

/-- Conditions under which `Avatar::logic` dereferences no null pointer and the
coordinator divides by no empty initiative order: the coordinator exists and has
a turn order, the timers of every valid power exist, `power_cooldown_ids` and the
action queue hold valid powers only, replacement keeps powers valid, and the
original of a valid current power is valid. -/
def LogicReady (aenv : AvatarEnv) (g : Game) : Prop :=
  g.combat_manager = true ∧ g.w.cm.initiative_order ≠ [] ∧
  TimersReady aenv g ∧
  (∀ i, i ∈ g.pc.power_cooldown_ids → aenv.isValid i = true) ∧
  (∀ a, a ∈ g.pc.action_queue → aenv.isValid a.power = true) ∧
  ReplaceValid aenv ∧ PowerPairValid aenv g

/-- Example queue entry: power `p` requested on hotkey 0 with the target (6, 0). -/
def exampleAction (p : Nat) : ActionData :=
  { power := p, hotkey := 0, instant_item := false, activated_from_inventory := false
    target := ⟨6, 0⟩ }

/-- Example game at the enemy's turn with one queued entry for power `p`. -/
def offTurnQueueGame (p : Nat) : Game :=
  { offTurnGame with pc := { offTurnGame.pc with action_queue := [exampleAction p] } }

/-- Example game in the hero's turn with one queued entry for power `p`. -/
def queueGame (p : Nat) : Game :=
  { exampleGame 2 with pc := { (exampleGame 2).pc with action_queue := [exampleAction p] } }

/-- Example game with a stunned avatar and one queued entry for power 1. -/
def stunnedGame : Game :=
  { exampleGame 2 with pc := { (exampleGame 2).pc with
      action_queue := [exampleAction 1]
      stats := { exampleAvatarStats with
        effects := { exampleAvatarStats.effects with stun := true } } } }

/-- The stats after the passive-power block of `handleBasicState` (lines 579 to
582). -/
def statsAfterPassives (aenv : AvatarEnv) (g : Game) : AvatarStats :=
  if (decide (g.pc.stats.hp > 0) || g.pc.stats.effects.triggered_death)
      && !g.pc.respawn && !g.pc.transform_triggered then
    aenv.activatePassives g.pc.stats
  else g.pc.stats

/-- Example game with a dead avatar: no hit points, no experience. -/
def deadGame : Game :=
  { exampleGame 2 with pc := { (exampleGame 2).pc with
      stats := { exampleAvatarStats with cur_state := EntityState.ENTITY_DEAD, hp := 0 } } }

/-- Example game with a dead avatar whose experience (250) has passed the
threshold of level 2 (200). -/
def deadLevelGame : Game :=
  { exampleGame 2 with pc := { (exampleGame 2).pc with
      stats := { exampleAvatarStats with
        cur_state := EntityState.ENTITY_DEAD, hp := 0, xp := 250 } } }

/-- A collider on which no straight line is free and no path is ever found. -/
def blockedCollider : MapCollision :=
  { lineOfMovement := fun _ _ _ => false
    isValidPosition := fun _ _ _ => true
    getCollideType := fun hero => if hero then 1 else 0
    computePath := fun _ _ _ => ([], false) }

/-- The example environment on the map of `blockedCollider`. -/
def blockedEnv : AvatarEnv := { exampleAvatarEnv with collider := blockedCollider }

/-- Example game for path planning: the freshly constructed avatar heads for (9, 0). -/
def pathGame : Game :=
  { exampleGame 2 with pc := { (exampleGame 2).pc with mm_target := ⟨9, 0⟩ } }

/-- A collider on which no straight line is free and every plan goes through a
waypoint one tile east of the start: towards a destination with x = 9 the plan is
the destination followed by that waypoint (`path.back()` is the waypoint), towards
any other destination it is the waypoint alone. -/
def detourCollider : MapCollision :=
  { lineOfMovement := fun _ _ _ => false
    isValidPosition := fun _ _ _ => true
    getCollideType := fun hero => if hero then 1 else 0
    computePath := fun start dest _ =>
      (if dest.x = 9 then [dest, ⟨start.x + 1, start.y⟩] else [⟨start.x + 1, start.y⟩], true) }

/-- The example environment on the map of `detourCollider`. -/
def detourEnv : AvatarEnv := { exampleAvatarEnv with collider := detourCollider }

/-- Example game for the resolved target: the freshly constructed avatar at (5, 0),
no key pressed, the mouse far away, the desired target at (`x`, 0). -/
def detourGame (x : Int) : Game :=
  { exampleGame 2 with pc := { (exampleGame 2).pc with
      mm_is_distant := true
      mm_target_desired := ⟨x, 0⟩ } }

/-- The example environment with every power a melee power (`STARTING_POS_MELEE`):
power 3 is then a fixed melee attack. -/
def meleeEnv : AvatarEnv :=
  { exampleAvatarEnv with
    power := fun i => { examplePower i with starting_pos := StartingPos.STARTING_POS_MELEE } }

/-- Example game on the first animation frame of the POWER state: power 3 was
queued with the target (6, 0), and the enemy 1, standing at (5, 6), is under the
cursor. -/
def meleeGame : Game :=
  { exampleGame 2 with pc := { (exampleGame 2).pc with
      stats := { exampleAvatarStats with cur_state := EntityState.ENTITY_POWER }
      anim := { exampleAnim "swing" with first_frame := true }
      attack_anim := "swing"
      current_power := 3
      current_power_original := 3
      act_target := ⟨6, 0⟩
      cursor_enemy := some 1 } }

/-- The initiative order is sorted: no entry follows an entry of lower initiative. -/
def OrderSorted (cm : CombatManager) : Prop :=
  cm.initiative_order.Pairwise (fun a b => b.initiative ≤ a.initiative)

/-- Example game at the enemy's turn with `k` actions left in that turn: as
`offTurnGame`, but the pointer is clicked on (5, 3), three tiles from the enemy
at (5, 6) whose turn it is. -/
def offTurnClickGame (k : Int) : Game :=
  { offTurnGame with
    w := { movedHeroWorld k with cm := { (movedHeroWorld k).cm with current_turn_index := 0 } }
    inpt := { offTurnGame.inpt with mouse_target := ⟨5, 3⟩ } }

/-- The calls of a first combat in which the hero spends one action before the
enemy dies, followed by the start of a second combat: two ticks of transition,
one action of the hero, the death of the enemy, the tick that prunes it and
ends the combat, a living enemy again, and `enterCombat`. -/
def secondCombatCalls : List Call :=
  [Call.enterCombat 0 1, Call.logic, Call.logic, Call.spendAction,
    Call.world deadEnemyStats [0, 1], Call.logic,
    Call.world exampleStats [0, 1], Call.enterCombat 0 1]

/-- Example game in the transition of the second combat of `secondCombatCalls`:
the avatar is in the first frame of the attack animation of power 3. -/
def transitionGame : Game :=
  { meleeGame with w := (run exampleEnv secondCombatCalls exampleWorld).getD exampleWorld }

/-- Example environment in which every living entity of the entity list is in
threat range of the target of `enterCombat`. -/
def crowdEnv : Env :=
  { exampleEnv with inThreat := fun _ _ => true }

/-- Example world with the hero (0) and two living enemies (1 and 2). -/
def crowdWorld : World :=
  { exampleWorld with entities := [0, 1, 2] }

/-- Example store in the middle of the combat of the three: enemy 1 has died. -/
def crowdDeadStats : Nat → StatBlock :=
  fun i =>
    if i = 0 then { heroStats with in_combat := true }
    else if i = 1 then { enemyStats with alive := false, in_combat := true }
    else { enemyStats with in_combat := true }

/-- The calls of a combat of the three up to the tick that prunes enemy 1: the
combat starts, two ticks of transition (enemy 1 rolls highest and forfeits its
turn in the second), and enemy 1 dies in the turn of the hero. -/
def pruneCalls : List Call :=
  [Call.enterCombat 0 1, Call.logic, Call.logic, Call.world crowdDeadStats [0, 1, 2],
    Call.logic]

/-- Example environment in which every draw gives the roll 10. -/
def midRollEnv : Env :=
  { exampleEnv with randRaw := fun _ => 9 }

/-! ## The action bar (MenuActionBar.h, MenuActionBar.cpp)

`GameStatePlay` passes the avatar's `action_queue` to `MenuActionBar::checkAction`,
which calls `processValidAction` for every triggered slot with a valid power. -/

/-- Collaborators of the action bar defined outside `src/`, on top of those of the
avatar: `inpt->usingTouchscreen()`, the fields `requires_mp`,
`requires_resource_stat`, `requires_corpse`, `aim_assist` and `target_nearest > 0`
of a power, whether some entry of its `required_items` has a positive id and is
not equipped, the low-resource messages of `eset->resource_stats.list`, the
`PowerManager` queries `checkCombatRange`, `hasValidTarget` and
`checkNearestTargeting` (the position of the target found, `none` when there is
none), `lineOfSight` of the collider, `Utils::screenToMap` of the mouse with the
aim assist offset, and `Utils::calcVector` of the avatar position, direction
and melee range. -/
structure BarEnv extends AvatarEnv where
  usingTouchscreen : Bool
  requires_mp : Nat → Int
  requires_resource_stat : Nat → List Int
  requires_corpse : Nat → Bool
  aim_assist : Nat → Bool
  target_nearest : Nat → Bool
  unequipped_required_item : Nat → Bool
  text_log_low : List String
  checkCombatRange : Nat → AvatarStats → FPoint → Bool
  hasValidTarget : Nat → AvatarStats → FPoint → Bool
  checkNearestTargeting : Nat → AvatarStats → Bool → Option FPoint
  lineOfSight : FPoint → FPoint → Bool
  aimAssistTarget : InputState → FPoint
  calcVector : AvatarStats → FPoint

/-- The state on which `processValidAction` operates: the game (with the
avatar's action queue), the per-slot vectors `slot_fail_cooldown`,
`slots[i]->enabled` and `hotkeys_mod` of the action bar, the fields `mp` and
`resource_stats` of the avatar's stat block, and the ghost records of the
messages passed to `pc->logMsg` and of the plays of `sfx_unable_to_cast`. -/
structure BarState where
  g : Game
  slot_fail_cooldown : Nat → Int
  slot_enabled : Nat → Bool
  hotkeys_mod : Nat → Nat
  mp : Int
  resource_stats : List Int
  log_msgs : List String
  unable_sounds : Nat

/-- The messages of the resource loop of `checkResourceRequirements` (lines 853 to
858): one for every resource stat below the requirement of the power. -/
def lowResources (benv : BarEnv) (power : Nat) (b : BarState) : List String :=
  (List.range benv.text_log_low.length).filterMap (fun i =>
    if b.resource_stats.getD i 0 < (benv.requires_resource_stat power).getD i 0 then
      some (benv.text_log_low.getD i "")
    else none)

/-- Method `MenuActionBar::checkResourceRequirements`. -/
def checkResourceRequirements (benv : BarEnv) (slot_index power : Nat) (b : BarState) :
    Bool × BarState :=
  if b.slot_fail_cooldown slot_index > 0 then (false, b)
  else
    let low_mp := decide (b.mp < benv.requires_mp power)
    let b1 : BarState :=
      if low_mp then { b with log_msgs := b.log_msgs ++ ["Not enough MP."] } else b
    let low := lowResources benv power b1
    let b2 : BarState := { b1 with log_msgs := b1.log_msgs ++ low }
    let has_resources := !low_mp && low.isEmpty
    if !has_resources then
      (false, { b2 with
        slot_fail_cooldown := fun i =>
          if i = slot_index then (benv.max_frames_per_sec : Int) else b2.slot_fail_cooldown i
        unable_sounds := b2.unable_sounds + 1 })
    else (true, b2)

/-- The count of queued actions in `processValidAction` (lines 749 to 754): the
entries of the queue that were not activated from the inventory. -/
def queuedActions (queue : List ActionData) : Int :=
  ((queue.filter (fun queued => !queued.activated_from_inventory)).length : Int)

/-- The turn gate of `processValidAction` (lines 737 to 760): whether the
function returns there, before anything is queued. -/
def turnGateReturns (g : Game) : Bool :=
  if g.pc.stats.in_combat && g.combat_manager then
    if !isPlayerTurn g.w then true
    else if !canTakeAction g.w then true
    else decide (queuedActions g.pc.action_queue ≥ g.w.cm.turn_state.actions_remaining)
  else false

/-- Method `MenuActionBar::setupActionProperties`. -/
def setupActionProperties (benv : BarEnv) (action : ActionData) : ActionData :=
  let instant := decide ((benv.power action.power).new_state = PowerNewState.STATE_INSTANT)
  { action with instant_item := instant && benv.unequipped_required_item action.power }

/-- Method `MenuActionBar::checkMouseMoveTarget`: the flag it returns and the
state after its update of `pc->stats.cur_state`. -/
def checkMouseMoveTarget (benv : BarEnv) (mm_slot : Nat) (b : BarState) : Bool × BarState :=
  if !benv.mouse_move then (false, b)
  else
    let has_target :=
      decide (b.g.pc.mm_target_object = MM_TARGET_ENTITY)
        && benv.checkCombatRange (benv.checkReplaceByEffect (b.hotkeys_mod mm_slot) b.g.pc.stats)
            b.g.pc.stats b.g.pc.mm_target_object_pos
        && benv.lineOfSight b.g.pc.stats.pos b.g.pc.mm_target_object_pos
    if has_target && decide (b.g.pc.stats.cur_state = EntityState.ENTITY_MOVE) then
      (has_target, { b with g := { b.g with pc := { b.g.pc with
        stats := { b.g.pc.stats with cur_state := EntityState.ENTITY_STANCE } } } })
    else if !has_target && decide (b.g.pc.mm_target_object = MM_TARGET_ENTITY)
        && decide (b.g.pc.stats.cur_state = EntityState.ENTITY_STANCE) then
      (has_target, { b with g := { b.g with pc := { b.g.pc with
        stats := { b.g.pc.stats with cur_state := EntityState.ENTITY_MOVE } } } })
    else (has_target, b)

/-- Method `MenuActionBar::setActionTarget`. -/
def setActionTarget (benv : BarEnv) (action : ActionData) (have_aim has_mouse_move_target : Bool)
    (b : BarState) : ActionData :=
  if have_aim && benv.mouse_aim && !benv.usingTouchscreen then
    let near := benv.checkNearestTargeting action.power b.g.pc.stats
    if benv.target_nearest action.power then
      if !benv.requires_corpse action.power && (near false).isSome then
        { action with target := (near false).getD b.g.pc.stats.pos }
      else if benv.requires_corpse action.power && (near true).isSome then
        { action with target := (near true).getD b.g.pc.stats.pos }
      else { action with target := b.g.pc.stats.pos }
    else if has_mouse_move_target then { action with target := b.g.pc.mm_target_object_pos }
    else if benv.aim_assist action.power then
      { action with target := benv.aimAssistTarget b.g.inpt }
    else { action with target := b.g.inpt.mouse_target }
  else { action with target := benv.calcVector b.g.pc.stats }

/-- Method `MenuActionBar::canUsePower`. -/
def canUsePower (benv : BarEnv) (slot_index : Nat) (action : ActionData) (b : BarState) : Bool :=
  b.slot_enabled slot_index
    && (decide ((benv.power action.power).new_state = PowerNewState.STATE_INSTANT)
      || (b.g.pc.stats.cooldown.isEnd
        && decide (b.g.pc.stats.cur_state ≠ EntityState.ENTITY_POWER)
        && decide (b.g.pc.stats.cur_state ≠ EntityState.ENTITY_HIT)))
    && benv.hasValidTarget action.power b.g.pc.stats action.target

/-- The condition of line 775,
`slot_index != settings->mouse_move_swap ? 11 : 10 && !action.instant_item`, which
C++ reads as `(slot_index != mouse_move_swap) ? 11 : (10 && !instant_item)`. -/
def clearsTargetObject (benv : BarEnv) (slot_index : Nat) (action : ActionData) : Bool :=
  if slot_index ≠ (if benv.mouse_move_swap then 1 else 0) then true
  else !action.instant_item

/-- Method `MenuActionBar::processValidAction` on the avatar's action queue;
`none` when `pc->power_cast_timers[action.power]` is null. -/
def processValidAction (benv : BarEnv) (slot_index : Nat) (action : ActionData)
    (have_aim : Bool) (b : BarState) : Option BarState :=
  let r := checkResourceRequirements benv slot_index action.power b
  if !r.1 then some r.2
  else if turnGateReturns r.2.g then some r.2
  else
    match timerAt r.2.g.pc.power_cast_timers action.power with
    | none => none
    | some t =>
      let b1 : BarState := { r.2 with
        slot_fail_cooldown := fun i =>
          if i = slot_index then (t.duration : Int) else r.2.slot_fail_cooldown i }
      let action1 := setupActionProperties benv action
      let m := checkMouseMoveTarget benv (if benv.mouse_move_swap then 11 else 10) b1
      let action2 := setActionTarget benv action1 have_aim m.1 m.2
      if canUsePower benv slot_index action2 m.2 then
        let b2 : BarState :=
          if clearsTargetObject benv slot_index action2 then
            { m.2 with g := { m.2.g with pc := { m.2.g.pc with
              mm_target_object := MM_TARGET_NONE } } }
          else m.2
        some { b2 with g := { b2.g with pc := { b2.g.pc with
          action_queue := b2.g.pc.action_queue ++ [action2] } } }
      else some m.2

/-- Example action bar environment: no power has requirements, every target is
valid and in range. -/
def exampleBarEnv : BarEnv :=
  { exampleAvatarEnv with
    usingTouchscreen := false
    requires_mp := fun _ => 0
    requires_resource_stat := fun _ => []
    requires_corpse := fun _ => false
    aim_assist := fun _ => false
    target_nearest := fun _ => false
    unequipped_required_item := fun _ => false
    text_log_low := []
    checkCombatRange := fun _ _ _ => true
    hasValidTarget := fun _ _ _ => true
    checkNearestTargeting := fun _ _ _ => none
    lineOfSight := fun _ _ => true
    aimAssistTarget := fun i => i.mouse_target
    calcVector := fun s => s.pos }

/-- Example action bar over a game: every slot enabled and off cooldown, slot `i`
bound to power `i`. -/
def exampleBar (g : Game) : BarState :=
  { g := g
    slot_fail_cooldown := fun _ => 0
    slot_enabled := fun _ => true
    hotkeys_mod := fun i => i
    mp := 5
    resource_stats := []
    log_msgs := []
    unable_sounds := 0 }

/-! ## Basic facts about the operations -/

@[simp] theorem hudlogAdd_cm (w : World) (m : String) : (hudlogAdd w m).cm = w.cm := rfl

@[simp] theorem hudlogAdd_stats (w : World) (m : String) : (hudlogAdd w m).stats = w.stats := rfl

@[simp] theorem logTurnEnds_cm (w : World) : (logTurnEnds w).cm = w.cm := by
  unfold logTurnEnds
  split <;> rfl

@[simp] theorem logTurnEnds_stats (w : World) : (logTurnEnds w).stats = w.stats := by
  unfold logTurnEnds
  split <;> rfl

@[simp] theorem logTurnBegins_cm (w : World) : (logTurnBegins w).cm = w.cm := by
  unfold logTurnBegins
  split <;> rfl

@[simp] theorem logTurnBegins_stats (w : World) : (logTurnBegins w).stats = w.stats := by
  unfold logTurnBegins
  split <;> rfl

theorem advanceTurnIndex_cm (w : World) :
    (advanceTurnIndex w).cm =
      { w.cm with
        current_turn_index := (w.cm.current_turn_index + 1) % w.cm.initiative_order.length
        current_round :=
          if (w.cm.current_turn_index + 1) % w.cm.initiative_order.length = 0
          then w.cm.current_round + 1 else w.cm.current_round } := by
  unfold advanceTurnIndex
  dsimp only
  split <;> rfl

@[simp] theorem advanceTurnIndex_stats (w : World) : (advanceTurnIndex w).stats = w.stats := by
  unfold advanceTurnIndex
  dsimp only
  split <;> rfl

theorem resetTurnState_cm (w : World) :
    (resetTurnState w).cm = { w.cm with turn_state := freshTurnState w } := by
  unfold resetTurnState freshTurnState
  have h : getCurrentTurnEntity { w.cm with turn_state := w.cm.turn_state.reset }
      = getCurrentTurnEntity w.cm := rfl
  dsimp only
  rw [h]
  split <;> rfl

@[simp] theorem resetTurnState_stats (w : World) : (resetTurnState w).stats = w.stats := by
  unfold resetTurnState
  dsimp only
  split <;> rfl

theorem getCurrentTurnEntity_of_lt (cm : CombatManager)
    (h : cm.current_turn_index < cm.initiative_order.length) :
    getCurrentTurnEntity cm
      = some (cm.initiative_order.get ⟨cm.current_turn_index, h⟩).entity := by
  unfold getCurrentTurnEntity
  have hne : cm.initiative_order ≠ [] := by
    intro h0
    rw [h0] at h
    exact Nat.not_lt_zero _ h
  simp [hne, h, List.get?_eq_get h]

theorem getCurrentTurnEntity_of_ge (cm : CombatManager)
    (h : cm.initiative_order.length ≤ cm.current_turn_index) :
    getCurrentTurnEntity cm = none := by
  unfold getCurrentTurnEntity
  simp [h]

theorem nextTurn_eq (w : World) :
    nextTurn w =
      if w.cm.initiative_order.length = 0 then none
      else some (logTurnBegins (resetTurnState (advanceTurnIndex (logTurnEnds w)))) := by
  unfold nextTurn
  simp

theorem nextTurn_cm {w w1 : World} (h : nextTurn w = some w1) :
    w.cm.initiative_order.length ≠ 0 ∧
    w1.cm = { w.cm with
      current_turn_index := (w.cm.current_turn_index + 1) % w.cm.initiative_order.length
      current_round :=
        if (w.cm.current_turn_index + 1) % w.cm.initiative_order.length = 0
        then w.cm.current_round + 1 else w.cm.current_round
      turn_state := w1.cm.turn_state } ∧
    w1.stats = w.stats := by
  rw [nextTurn_eq] at h
  by_cases hl : w.cm.initiative_order.length = 0
  · simp [hl] at h
  · rw [if_neg hl] at h
    injection h with h
    subst h
    refine ⟨hl, ?_, ?_⟩
    · simp [resetTurnState_cm, advanceTurnIndex_cm]
    · simp

theorem nextTurn_isSome (w : World) (h : w.cm.initiative_order ≠ []) :
    ∃ w1, nextTurn w = some w1 := by
  rw [nextTurn_eq]
  have hl : w.cm.initiative_order.length ≠ 0 := by
    intro h0
    exact h (List.length_eq_zero.mp h0)
  rw [if_neg hl]
  exact ⟨_, rfl⟩

theorem rollLoop_spec (env : Env) (l : List Nat) (w : World) :
    (rollLoop env l w).cm = { w.cm with
      initiative_order :=
        w.cm.initiative_order ++ rolledEntries env w.stats w.rand_calls l } ∧
    (rollLoop env l w).stats = w.stats ∧
    (rollLoop env l w).rand_calls = w.rand_calls + l.length ∧
    (rollLoop env l w).hudlog = w.hudlog ∧
    (rollLoop env l w).entities = w.entities := by
  induction l generalizing w with
  | nil => simp [rollLoop, rolledEntries]
  | cons e rest ih =>
    simp only [rollLoop, rolledEntries, rollInitiativeForEntity]
    obtain ⟨h1, h2, h3, h4, h5⟩ := ih
      { cm := { w.cm with initiative_order := w.cm.initiative_order ++
            [⟨e, randBetween 1 20 (env.randRaw w.rand_calls) + (w.stats e).speed⟩] }
        stats := w.stats
        entities := w.entities
        hudlog := w.hudlog
        rand_calls := w.rand_calls + 1 }
    refine ⟨?_, ?_, ?_, ?_, ?_⟩
    · rw [h1]
      simp
    · rw [h2]
    · rw [h3]
      simp
      omega
    · rw [h4]
    · rw [h5]

theorem rollInitiative_cm (env : Env) (w : World) :
    (rollInitiative env w).cm = { w.cm with
      initiative_order :=
        env.stdSort (rolledEntries env w.stats w.rand_calls w.cm.combat_entities) } := by
  unfold rollInitiative
  have h := (rollLoop_spec env w.cm.combat_entities
    { w with cm := { w.cm with initiative_order := [] } }).1
  simp only [h]
  simp

@[simp] theorem rollInitiative_stats (env : Env) (w : World) :
    (rollInitiative env w).stats = w.stats := by
  unfold rollInitiative
  have h := (rollLoop_spec env w.cm.combat_entities
    { w with cm := { w.cm with initiative_order := [] } }).2.1
  simp only [h]

theorem rolledEntries_length (env : Env) (stats : Nat → StatBlock) (n : Nat) (l : List Nat) :
    (rolledEntries env stats n l).length = l.length := by
  induction l generalizing n with
  | nil => rfl
  | cons e rest ih => simp [rolledEntries, ih]

theorem rolledEntries_map_entity (env : Env) (stats : Nat → StatBlock) (n : Nat)
    (l : List Nat) : (rolledEntries env stats n l).map (fun ce => ce.entity) = l := by
  induction l generalizing n with
  | nil => rfl
  | cons e rest ih => simp [rolledEntries, ih]

theorem joinLoop_cm (env : Env) (initiator target : Nat) (es : List Nat) (w : World) :
    ∃ l, (joinLoop env initiator target es w).cm =
      { w.cm with combat_entities := w.cm.combat_entities ++ l } := by
  induction es generalizing w with
  | nil => exact ⟨[], by simp [joinLoop]⟩
  | cons e rest ih =>
    unfold joinLoop
    split
    · exact ih w
    · split
      · exact ih w
      · split
        · obtain ⟨l, hl⟩ := ih
            { w with
              cm := { w.cm with combat_entities := w.cm.combat_entities ++ [e] }
              stats := setInCombat w.stats e true }
          exact ⟨e :: l, by rw [hl]; simp⟩
        · exact ih w

theorem exitCombat_cm (w : World) :
    (exitCombat w).cm =
      if w.cm.current_state = CombatState.COMBAT_INACTIVE then w.cm
      else { w.cm with
        combat_entities := []
        initiative_order := []
        current_state := CombatState.COMBAT_INACTIVE
        current_round := 0
        current_turn_index := 0 } := by
  unfold exitCombat
  split <;> rfl

theorem exitCombat_inactive (w : World) :
    (exitCombat w).cm.current_state = CombatState.COMBAT_INACTIVE := by
  rw [exitCombat_cm]
  split
  · assumption
  · rfl

/-! ## The turn index invariant along runs -/

theorem TurnInv_of_inactive {cm : CombatManager}
    (h : cm.current_state = CombatState.COMBAT_INACTIVE) : TurnInv cm := by
  constructor <;> intro h1 <;> rw [h] at h1 <;> cases h1

theorem TurnInv_turn_state (cm : CombatManager) (t : TurnState) :
    TurnInv { cm with turn_state := t } ↔ TurnInv cm := Iff.rfl

theorem TurnInv_nextTurn {w w1 : World} (hinv : TurnInv w.cm) (h : nextTurn w = some w1) :
    TurnInv w1.cm := by
  obtain ⟨hl, hcm, _⟩ := nextTurn_cm h
  have hlt := Nat.mod_lt (w.cm.current_turn_index + 1) (Nat.pos_of_ne_zero hl)
  rw [hcm]
  constructor
  · intro hs
    have h2 := (hinv.1 hs).2
    exact ⟨lt_of_lt_of_le hlt h2, h2⟩
  · intro _
    exact hlt

theorem TurnInv_spendAction {w w1 : World} (hinv : TurnInv w.cm)
    (h : spendAction w = some w1) : TurnInv w1.cm := by
  unfold spendAction at h
  dsimp only at h
  split at h
  · refine TurnInv_nextTurn ?_ h
    exact (TurnInv_turn_state _ _).2 hinv
  · injection h with h
    subst h
    exact (TurnInv_turn_state _ _).2 hinv

theorem TurnInv_endPlayerTurn {w w1 : World} (hinv : TurnInv w.cm)
    (h : endPlayerTurn w = some w1) : TurnInv w1.cm := by
  unfold endPlayerTurn at h
  split at h
  · injection h with h
    subst h
    exact hinv
  · exact TurnInv_nextTurn (w := hudlogAdd w "You end your turn.") hinv h

theorem TurnInv_exitCombat (w : World) : TurnInv (exitCombat w).cm :=
  TurnInv_of_inactive (exitCombat_inactive w)

theorem TurnInv_enterCombat (env : Env) (w : World) (initiator target : Nat)
    (hinv : TurnInv w.cm) : TurnInv (enterCombat env w initiator target).cm := by
  unfold enterCombat
  split
  · exact hinv
  · obtain ⟨l, hl⟩ := joinLoop_cm env initiator target w.entities
      { w with cm := { w.cm with
          current_round := 1
          current_turn_index := 0
          combat_entities := [initiator, target]
          initiative_order := [] } }
    simp only [hudlogAdd_cm, startTransition, hl]
    constructor
    · intro _
      simp
    · intro h
      cases h

theorem TurnInv_addCombatant (env : Env) (hsort : StdSortSpec env.stdSort) (w : World)
    (entity : Option Nat) (hinv : TurnInv w.cm) : TurnInv (addCombatant env w entity).cm := by
  unfold addCombatant
  split
  · exact hinv
  · split
    · exact hinv
    · split
      · exact hinv
      · simp only [hudlogAdd_cm, rollInitiativeForEntity]
        constructor
        · intro hs
          have h2 := hinv.1 hs
          simp only [List.length_append, List.length_singleton, (hsort _).1.length_eq]
          omega
        · intro hs
          have h2 := hinv.2 hs
          simp only [List.length_append, List.length_singleton, (hsort _).1.length_eq]
          omega

theorem TurnInv_logicTransition (env : Env) (hsort : StdSortSpec env.stdSort) (w : World)
    (hinv : TurnInv w.cm) : TurnInv (logicTransition env w).cm := by
  unfold logicTransition
  split
  · rename_i hs
    dsimp only
    split
    · simp only [logTurnBegins_cm, hudlogAdd_cm, resetTurnState_cm, rollInitiative_cm]
      constructor
      · intro h
        cases h
      · intro _
        simp only [(hsort _).1.length_eq, rolledEntries_length]
        exact (hinv.1 hs).1
    · exact hinv
  · exact hinv

theorem TurnInv_autoTurn (env : Env) (hframe : EntityLogicFrame env.entityLogic)
    {w w1 : World} (hinv : TurnInv w.cm) (h : autoTurn env w = some w1) :
    TurnInv w1.cm := by
  unfold autoTurn at h
  split at h
  · split at h
    · injection h with h
      subst h
      exact hinv
    · rename_i current _
      dsimp only at h
      have hinv4 : TurnInv (if w.cm.turn_state.actions_remaining > 0
          then env.entityLogic current w else w).cm := by
        split
        · rw [hframe current w]
          exact (TurnInv_turn_state _ _).2 hinv
        · exact hinv
      generalize (if w.cm.turn_state.actions_remaining > 0
          then env.entityLogic current w else w) = x at h hinv4
      split at h
      · exact TurnInv_nextTurn hinv4 h
      · injection h with h
        subst h
        exact hinv4
  · injection h with h
    subst h
    exact hinv

theorem TurnInv_logicActive (env : Env) (hframe : EntityLogicFrame env.entityLogic)
    {w w1 : World} (hinv : TurnInv w.cm) (h : logicActive env w = some w1) :
    TurnInv w1.cm := by
  unfold logicActive at h
  split at h
  · rename_i hs
    dsimp only at h
    refine TurnInv_autoTurn env hframe ?_ h
    split
    · exact TurnInv_exitCombat _
    · constructor
      · intro h1
        have h2 : (pruneDead w).cm.current_state = w.cm.current_state := rfl
        rw [h2, hs] at h1
        cases h1
      · exact hinv.2
  · injection h with h
    subst h
    exact hinv

theorem TurnInv_step (env : Env) (hsort : StdSortSpec env.stdSort)
    (hframe : EntityLogicFrame env.entityLogic) {w w1 : World} (c : Call)
    (hinv : TurnInv w.cm) (h : step env w c = some w1) : TurnInv w1.cm := by
  cases c with
  | enterCombat initiator target =>
    injection h with h
    subst h
    exact TurnInv_enterCombat env w initiator target hinv
  | logic =>
    exact TurnInv_logicActive env hframe (TurnInv_logicTransition env hsort w hinv) h
  | addCombatant entity =>
    injection h with h
    subst h
    exact TurnInv_addCombatant env hsort w entity hinv
  | nextTurn => exact TurnInv_nextTurn hinv h
  | spendAction => exact TurnInv_spendAction hinv h
  | endPlayerTurn => exact TurnInv_endPlayerTurn hinv h
  | exitCombat =>
    injection h with h
    subst h
    exact TurnInv_exitCombat w
  | world stats entities =>
    injection h with h
    subst h
    exact hinv

theorem TurnInv_run (env : Env) (hsort : StdSortSpec env.stdSort)
    (hframe : EntityLogicFrame env.entityLogic) (calls : List Call) {w w1 : World}
    (hinv : TurnInv w.cm) (h : run env calls w = some w1) : TurnInv w1.cm := by
  induction calls generalizing w with
  | nil =>
    injection h with h
    subst h
    exact hinv
  | cons c cs ih =>
    simp only [run] at h
    cases hc : step env w c with
    | none => simp [hc] at h
    | some v =>
      rw [hc] at h
      exact ih (TurnInv_step env hsort hframe c hinv hc) h

theorem stableSort_spec : StdSortSpec stableSort := by
  intro l
  refine ⟨List.perm_insertionSort _ l, ?_⟩
  have hs : List.Sorted (fun a b : CombatEntity => b.initiative ≤ a.initiative)
      (stableSort l) := by
    haveI : IsTotal CombatEntity (fun a b => b.initiative ≤ a.initiative) :=
      ⟨fun a b => le_total b.initiative a.initiative⟩
    haveI : IsTrans CombatEntity (fun a b => b.initiative ≤ a.initiative) :=
      ⟨fun a b c hab hbc => le_trans hbc hab⟩
    exact List.sorted_insertionSort _ l
  refine List.Pairwise.imp ?_ hs
  intro a b hab
  simp [CombatEntity.lt, hab]

theorem reverseTieSort_spec : StdSortSpec reverseTieSort := by
  intro l
  obtain ⟨hp, hs⟩ := stableSort_spec l.reverse
  exact ⟨hp.trans (List.reverse_perm l), hs⟩

theorem forfeitLogic_frame : EntityLogicFrame forfeitLogic := fun _ _ => rfl

/-- C1: in every state reached from a freshly constructed coordinator by a
sequence of enterCombat, logic, addCombatant, nextTurn, spendAction,
endPlayerTurn and exitCombat calls (interleaved with arbitrary updates of the
entity stats), if the state is COMBAT_ACTIVE then the initiative order is
non-empty and the turn index is below its length. -/
theorem turn_index_invariant (env : Env) (hsort : StdSortSpec env.stdSort)
    (hframe : EntityLogicFrame env.entityLogic) (w0 w : World)
    (hfresh : w0.cm = CombatManager.new env.max_frames_per_sec)
    (calls : List Call) (hrun : run env calls w0 = some w)
    (hactive : w.cm.current_state = CombatState.COMBAT_ACTIVE) :
    w.cm.initiative_order ≠ [] ∧ w.cm.current_turn_index < w.cm.initiative_order.length := by
  have h0 : TurnInv w0.cm := by
    apply TurnInv_of_inactive
    rw [hfresh]
    rfl
  have hlt := (TurnInv_run env hsort hframe calls h0 hrun).2 hactive
  refine ⟨?_, hlt⟩
  intro hnil
  rw [hnil] at hlt
  exact Nat.not_lt_zero _ hlt

/-- Witness of C1: the hero (0) attacks an enemy (1), the transition lasts two
ticks, a third combatant joins, and the enemy that rolled highest forfeits. -/
theorem turn_index_invariant_witness :
    ∃ w, run exampleEnv
        [Call.enterCombat 0 1, Call.logic, Call.logic, Call.addCombatant (some 2),
          Call.spendAction, Call.logic] exampleWorld = some w ∧
      w.cm.current_state = CombatState.COMBAT_ACTIVE ∧
      w.cm.initiative_order ≠ [] ∧
      w.cm.current_turn_index < w.cm.initiative_order.length := by
  have hsome : (run exampleEnv
      [Call.enterCombat 0 1, Call.logic, Call.logic, Call.addCombatant (some 2),
        Call.spendAction, Call.logic] exampleWorld).isSome = true := by decide
  obtain ⟨w, hw⟩ := Option.isSome_iff_exists.mp hsome
  have hstate : (run exampleEnv
      [Call.enterCombat 0 1, Call.logic, Call.logic, Call.addCombatant (some 2),
        Call.spendAction, Call.logic] exampleWorld).map (fun v => v.cm.current_state)
      = some CombatState.COMBAT_ACTIVE := by decide
  have hactive : w.cm.current_state = CombatState.COMBAT_ACTIVE := by
    rw [hw] at hstate
    exact Option.some.inj hstate
  exact ⟨w, hw, hactive,
    turn_index_invariant exampleEnv stableSort_spec forfeitLogic_frame exampleWorld w rfl
      _ hw hactive⟩

/-! ## Action economy and turn advance -/

theorem logTurnEnds_turn_state (w : World) (t : TurnState) :
    logTurnEnds { w with cm := { w.cm with turn_state := t } }
      = { logTurnEnds w with cm := { (logTurnEnds w).cm with turn_state := t } } := by
  unfold logTurnEnds
  have h : getCurrentTurnEntity ({ w with cm := { w.cm with turn_state := t } } : World).cm
      = getCurrentTurnEntity w.cm := rfl
  rw [h]
  cases getCurrentTurnEntity w.cm <;> rfl

theorem advanceTurnIndex_turn_state (w : World) (t : TurnState) :
    advanceTurnIndex { w with cm := { w.cm with turn_state := t } }
      = { advanceTurnIndex w with cm := { (advanceTurnIndex w).cm with turn_state := t } } := by
  unfold advanceTurnIndex
  dsimp only
  split <;> rfl

theorem resetTurnState_turn_state (w : World) (t : TurnState) :
    resetTurnState { w with cm := { w.cm with turn_state := t } } = resetTurnState w := by
  unfold resetTurnState
  dsimp only [TurnState.reset]

theorem nextTurn_turn_state (w : World) (t : TurnState) :
    nextTurn { w with cm := { w.cm with turn_state := t } } = nextTurn w := by
  rw [nextTurn_eq, nextTurn_eq, logTurnEnds_turn_state, advanceTurnIndex_turn_state,
    resetTurnState_turn_state]

/-- C2: in an ACTIVE state with a non-empty order of length n, a valid index i
and k actions remaining, spendAction with k >= 2 only lowers actions_remaining
to k-1 (index and round are unchanged), and with k = 1 it is exactly one
nextTurn: the index becomes (i+1) mod n and the new turn starts with 2 actions. -/
theorem spendAction_action_economy (w : World) (k : Int)
    (hactive : w.cm.current_state = CombatState.COMBAT_ACTIVE)
    (hne : w.cm.initiative_order ≠ [])
    (hidx : w.cm.current_turn_index < w.cm.initiative_order.length)
    (hk : w.cm.turn_state.actions_remaining = k) :
    (2 ≤ k → spendAction w = some { w with cm := { w.cm with turn_state :=
        { w.cm.turn_state with actions_remaining := k - 1 } } }) ∧
    (k = 1 → spendAction w = nextTurn w ∧
      ∃ w1, spendAction w = some w1 ∧
        w1.cm.current_turn_index
          = (w.cm.current_turn_index + 1) % w.cm.initiative_order.length ∧
        w1.cm.current_round
          = (if (w.cm.current_turn_index + 1) % w.cm.initiative_order.length = 0
              then w.cm.current_round + 1 else w.cm.current_round) ∧
        w1.cm.turn_state.actions_remaining = 2) := by
  constructor
  · intro h2
    unfold spendAction
    dsimp only
    rw [hk, if_neg (by omega)]
  · intro h1
    have heq : spendAction w = nextTurn w := by
      unfold spendAction
      dsimp only
      rw [hk, if_pos (by omega)]
      exact nextTurn_turn_state w _
    refine ⟨heq, ?_⟩
    obtain ⟨w1, hw1⟩ := nextTurn_isSome w hne
    obtain ⟨_, hcm, _⟩ := nextTurn_cm hw1
    refine ⟨w1, heq.trans hw1, ?_, ?_, ?_⟩
    · rw [hcm]
    · rw [hcm]
    · rw [nextTurn_eq] at hw1
      have hl : w.cm.initiative_order.length ≠ 0 := by omega
      rw [if_neg hl] at hw1
      injection hw1 with hw1
      subst hw1
      have hlt := Nat.mod_lt (w.cm.current_turn_index + 1) (Nat.pos_of_ne_zero hl)
      have hcur := getCurrentTurnEntity_of_lt (advanceTurnIndex (logTurnEnds w)).cm
        (by simpa [advanceTurnIndex_cm] using hlt)
      simp [resetTurnState_cm, freshTurnState, hcur]

/-- Witness of C2: with two actions left the hero only loses one; with one action
left the call is one turn advance. -/
theorem spendAction_action_economy_witness :
    spendAction (activeWorld 1 2) = some (activeWorld 1 1) ∧
    spendAction (activeWorld 1 1) = nextTurn (activeWorld 1 1) :=
  ⟨(spendAction_action_economy (activeWorld 1 2) 2 rfl (by decide) (by decide) rfl).1
      (by decide),
    ((spendAction_action_economy (activeWorld 1 1) 1 rfl (by decide) (by decide) rfl).2
      rfl).1⟩

theorem nextTurnTimes_spec (w : World) (hne : w.cm.initiative_order ≠ [])
    (hidx : w.cm.current_turn_index < w.cm.initiative_order.length) (k : Nat) :
    ∃ wk, nextTurnTimes k w = some wk ∧
      wk.cm.initiative_order = w.cm.initiative_order ∧
      wk.cm.current_turn_index
        = (w.cm.current_turn_index + k) % w.cm.initiative_order.length ∧
      wk.cm.current_round
        = w.cm.current_round
          + (((w.cm.current_turn_index + k) / w.cm.initiative_order.length : Nat) : Int) := by
  induction k with
  | zero =>
    refine ⟨w, rfl, rfl, ?_, ?_⟩
    · simp [Nat.mod_eq_of_lt hidx]
    · simp [Nat.div_eq_of_lt hidx]
  | succ k ih =>
    obtain ⟨wk, hk, ho, hi, hr⟩ := ih
    have hne1 : wk.cm.initiative_order ≠ [] := by
      rw [ho]
      exact hne
    obtain ⟨w1, hw1⟩ := nextTurn_isSome wk hne1
    obtain ⟨_, hcm, _⟩ := nextTurn_cm hw1
    have hstep : (wk.cm.current_turn_index + 1) % wk.cm.initiative_order.length
        = (w.cm.current_turn_index + (k + 1)) % w.cm.initiative_order.length := by
      rw [hi, ho, Nat.mod_add_mod, Nat.add_assoc]
    refine ⟨w1, ?_, ?_, ?_, ?_⟩
    · simp only [nextTurnTimes, hk, Option.some_bind, hw1]
    · rw [hcm]
      exact ho
    · rw [hcm]
      exact hstep
    · rw [hcm]
      simp only
      rw [hstep, hr]
      have hdiv := Nat.succ_div (w.cm.current_turn_index + k) w.cm.initiative_order.length
      have hs : w.cm.current_turn_index + (k + 1) = (w.cm.current_turn_index + k) + 1 := by
        omega
      rw [hs, hdiv]
      by_cases hz : (w.cm.current_turn_index + k + 1) % w.cm.initiative_order.length = 0
      · rw [if_pos hz, if_pos (Nat.dvd_of_mod_eq_zero hz)]
        push_cast
        ring
      · rw [if_neg hz, if_neg (fun hd => hz (Nat.mod_eq_zero_of_dvd hd))]
        simp

/-- C3: for an order of length n >= 1, an index i < n and a round r, one nextTurn
gives the index (i+1) mod n and the round r+1 if the new index is 0, else r;
after k consecutive nextTurn calls the index is (i+k) mod n and the round is
r + (i+k) div n. -/
theorem nextTurn_advance (w : World) (hne : w.cm.initiative_order ≠ [])
    (hidx : w.cm.current_turn_index < w.cm.initiative_order.length) :
    (∃ w1, nextTurn w = some w1 ∧
      w1.cm.current_turn_index
        = (w.cm.current_turn_index + 1) % w.cm.initiative_order.length ∧
      w1.cm.current_round
        = (if w1.cm.current_turn_index = 0 then w.cm.current_round + 1
            else w.cm.current_round)) ∧
    ∀ k : Nat, ∃ wk, nextTurnTimes k w = some wk ∧
      wk.cm.current_turn_index
        = (w.cm.current_turn_index + k) % w.cm.initiative_order.length ∧
      wk.cm.current_round
        = w.cm.current_round
          + (((w.cm.current_turn_index + k) / w.cm.initiative_order.length : Nat) : Int) := by
  constructor
  · obtain ⟨w1, hw1⟩ := nextTurn_isSome w hne
    obtain ⟨_, hcm, _⟩ := nextTurn_cm hw1
    refine ⟨w1, hw1, ?_, ?_⟩
    · rw [hcm]
    · rw [hcm]
  · intro k
    obtain ⟨wk, hk, _, hi, hr⟩ := nextTurnTimes_spec w hne hidx k
    exact ⟨wk, hk, hi, hr⟩

/-- Witness of C3: from the first of two entries in round 1, five turn advances
lead to the second entry in round 3. -/
theorem nextTurn_advance_witness :
    ∃ wk, nextTurnTimes 5 (activeWorld 0 2) = some wk ∧
      wk.cm.current_turn_index = 1 ∧ wk.cm.current_round = 3 := by
  obtain ⟨wk, hk, hi, hr⟩ :=
    (nextTurn_advance (activeWorld 0 2) (by decide) (by decide)).2 5
  exact ⟨wk, hk, hi, hr⟩

/-! ## Turn reset -/

theorem foldl_setInCombat (b : Bool) (l : List Nat) (stats : Nat → StatBlock) (i : Nat) :
    (l.foldl (fun st e => setInCombat st e b) stats) i
      = if i ∈ l then { stats i with in_combat := b } else stats i := by
  induction l generalizing stats with
  | nil => simp
  | cons e rest ih =>
    rw [List.foldl_cons, ih]
    by_cases hr : i ∈ rest
    · by_cases he : i = e
      · simp [hr, he, setInCombat]
      · simp [hr, he, setInCombat]
    · by_cases he : i = e
      · simp [hr, he, setInCombat]
      · simp [hr, he, setInCombat]

theorem exitCombat_stats (w : World) (i : Nat) :
    (exitCombat w).stats i
      = if w.cm.current_state ≠ CombatState.COMBAT_INACTIVE ∧ i ∈ w.cm.combat_entities
        then { w.stats i with in_combat := false } else w.stats i := by
  unfold exitCombat
  by_cases hs : w.cm.current_state = CombatState.COMBAT_INACTIVE
  · simp [hs]
  · rw [if_neg hs]
    simp only [hudlogAdd_stats, foldl_setInCombat]
    simp [hs]

theorem exitCombat_pos (w : World) (i : Nat) : ((exitCombat w).stats i).pos = (w.stats i).pos := by
  rw [exitCombat_stats]
  split <;> rfl

theorem exitCombat_turn_state (w : World) :
    (exitCombat w).cm.turn_state = w.cm.turn_state := by
  rw [exitCombat_cm]
  split <;> rfl

theorem getCurrentTurnEntity_exitCombat (w : World)
    (h : w.cm.current_state ≠ CombatState.COMBAT_INACTIVE) :
    getCurrentTurnEntity (exitCombat w).cm = none := by
  rw [exitCombat_cm, if_neg h]
  rfl

theorem autoTurn_of_none (env : Env) (w : World) (h : getCurrentTurnEntity w.cm = none) :
    autoTurn env w = some w := by
  unfold autoTurn isPlayerTurn
  simp [h]

theorem autoTurn_of_player (env : Env) (w : World) (h : isPlayerTurn w = true) :
    autoTurn env w = some w := by
  unfold autoTurn
  simp [h]

theorem logicTransition_promote (env : Env) (w : World)
    (hs : w.cm.current_state = CombatState.COMBAT_TRANSITION)
    (hend : w.cm.transition_timer.tick.isEnd = true) :
    (logicTransition env w).cm =
      { w.cm with
        transition_timer := w.cm.transition_timer.tick
        current_state := CombatState.COMBAT_ACTIVE
        initiative_order :=
          env.stdSort (rolledEntries env w.stats w.rand_calls w.cm.combat_entities)
        turn_state := (logicTransition env w).cm.turn_state } ∧
    (logicTransition env w).stats = w.stats ∧
    (logicTransition env w).cm.turn_state = freshTurnState (rollInitiative env
      { w with cm := { w.cm with
          transition_timer := w.cm.transition_timer.tick
          current_state := CombatState.COMBAT_ACTIVE } }) := by
  unfold logicTransition
  rw [if_pos hs]
  dsimp only
  rw [if_pos hend]
  simp only [logTurnBegins_cm, logTurnBegins_stats, hudlogAdd_cm, hudlogAdd_stats,
    resetTurnState_cm, resetTurnState_stats, rollInitiative_cm, rollInitiative_stats]
  exact ⟨trivial, trivial, trivial⟩

@[simp] theorem getCurrentTurnEntity_turn_state (cm : CombatManager) (t : TurnState) :
    getCurrentTurnEntity { cm with turn_state := t } = getCurrentTurnEntity cm := rfl

theorem isPlayerTurn_pruneDead (w : World) : isPlayerTurn (pruneDead w) = isPlayerTurn w := rfl

theorem logicActive_of_player (env : Env) (w : World)
    (hs : w.cm.current_state = CombatState.COMBAT_ACTIVE) (hp : isPlayerTurn w = true) :
    ∃ w2, logicActive env w = some w2 ∧ w2.cm.turn_state = w.cm.turn_state ∧
      ∀ i, (w2.stats i).pos = (w.stats i).pos := by
  unfold logicActive
  rw [if_pos hs]
  dsimp only
  split
  · refine ⟨exitCombat (pruneDead w), ?_, ?_, ?_⟩
    · apply autoTurn_of_none
      apply getCurrentTurnEntity_exitCombat
      show w.cm.current_state ≠ CombatState.COMBAT_INACTIVE
      rw [hs]
      decide
    · rw [exitCombat_turn_state]
      rfl
    · intro i
      rw [exitCombat_pos]
      rfl
  · exact ⟨pruneDead w, autoTurn_of_player env _ hp, rfl, fun _ => rfl⟩

/-- C4: after nextTurn on a non-empty order, and when logic() promotes TRANSITION
to ACTIVE, the turn-state record has 2 actions, last action ACTION_NONE and the
movement start at the position of the entity whose turn has begun; when that
entity is the hero the record still reads so when the promoting logic() returns. -/
theorem turn_reset (env : Env) (hsort : StdSortSpec env.stdSort) (w : World) :
    (w.cm.initiative_order ≠ [] →
      ∃ w1 e, nextTurn w = some w1 ∧ getCurrentTurnEntity w1.cm = some e ∧
        w1.cm.turn_state =
          { last_action := ActionType.ACTION_NONE
            movement_start := (w1.stats e).pos
            actions_remaining := 2 }) ∧
    (w.cm.current_state = CombatState.COMBAT_TRANSITION →
      w.cm.transition_timer.tick.isEnd = true →
      w.cm.current_turn_index < w.cm.combat_entities.length →
      ∃ e, (logicTransition env w).cm.current_state = CombatState.COMBAT_ACTIVE ∧
        getCurrentTurnEntity (logicTransition env w).cm = some e ∧
        (logicTransition env w).cm.turn_state =
          { last_action := ActionType.ACTION_NONE
            movement_start := ((logicTransition env w).stats e).pos
            actions_remaining := 2 } ∧
        (isPlayerTurn (logicTransition env w) = true →
          ∃ w2, logic env w = some w2 ∧
            w2.cm.turn_state =
              { last_action := ActionType.ACTION_NONE
                movement_start := (w2.stats e).pos
                actions_remaining := 2 })) := by
  constructor
  · intro hne
    have hl : w.cm.initiative_order.length ≠ 0 := fun h0 => hne (List.length_eq_zero.mp h0)
    have hlt := Nat.mod_lt (w.cm.current_turn_index + 1) (Nat.pos_of_ne_zero hl)
    obtain ⟨e, hcur⟩ : ∃ e, getCurrentTurnEntity (advanceTurnIndex (logTurnEnds w)).cm
        = some e :=
      ⟨_, getCurrentTurnEntity_of_lt (advanceTurnIndex (logTurnEnds w)).cm
        (by simpa [advanceTurnIndex_cm] using hlt)⟩
    refine ⟨logTurnBegins (resetTurnState (advanceTurnIndex (logTurnEnds w))), e, ?_, ?_, ?_⟩
    · rw [nextTurn_eq, if_neg hl]
    · rw [logTurnBegins_cm, resetTurnState_cm, getCurrentTurnEntity_turn_state]
      exact hcur
    · simp [resetTurnState_cm, freshTurnState, hcur]
  · intro hs hend hidx
    obtain ⟨hcm, hstats, hts⟩ := logicTransition_promote env w hs hend
    have hlen : w.cm.current_turn_index
        < (env.stdSort (rolledEntries env w.stats w.rand_calls
            w.cm.combat_entities)).length := by
      rw [(hsort _).1.length_eq, rolledEntries_length]
      exact hidx
    obtain ⟨e, hcur⟩ : ∃ e, getCurrentTurnEntity
        (rollInitiative env { w with cm := { w.cm with
          transition_timer := w.cm.transition_timer.tick
          current_state := CombatState.COMBAT_ACTIVE } }).cm = some e :=
      ⟨_, getCurrentTurnEntity_of_lt _ (by simpa [rollInitiative_cm] using hlen)⟩
    have hcur1 : getCurrentTurnEntity (logicTransition env w).cm = some e := by
      rw [hcm]
      rw [rollInitiative_cm] at hcur
      exact hcur
    have hact : (logicTransition env w).cm.current_state = CombatState.COMBAT_ACTIVE := by
      rw [hcm]
    have hrec : (logicTransition env w).cm.turn_state =
        { last_action := ActionType.ACTION_NONE
          movement_start := ((logicTransition env w).stats e).pos
          actions_remaining := 2 } := by
      rw [hts, freshTurnState, hcur, rollInitiative_stats, hstats]
    refine ⟨e, hact, hcur1, hrec, ?_⟩
    intro hp
    obtain ⟨w2, hw2, ht2, hpos⟩ := logicActive_of_player env (logicTransition env w) hact hp
    refine ⟨w2, hw2, ?_⟩
    rw [ht2, hrec, hpos, hstats]

/-- Witness of C4: the hero ends a turn and the enemy (at position 5, 6) begins;
the promotion of the example transition gives the first turn to that enemy. -/
theorem turn_reset_witness :
    (∃ w1 e, nextTurn (activeWorld 1 1) = some w1 ∧ getCurrentTurnEntity w1.cm = some e ∧
      w1.cm.turn_state =
        { last_action := ActionType.ACTION_NONE
          movement_start := (w1.stats e).pos
          actions_remaining := 2 }) ∧
    (logicTransition exampleEnv transitionWorld).cm.turn_state =
      { last_action := ActionType.ACTION_NONE, movement_start := ⟨5, 6⟩
        actions_remaining := 2 } := by
  refine ⟨(turn_reset exampleEnv stableSort_spec (activeWorld 1 1)).1 (by decide), ?_⟩
  obtain ⟨e, _, hcur, hrec, _⟩ :=
    (turn_reset exampleEnv stableSort_spec transitionWorld).2 rfl (by decide) (by decide)
  have h1 : getCurrentTurnEntity (logicTransition exampleEnv transitionWorld).cm = some 1 := by
    decide
  have he : e = 1 := Option.some.inj (hcur.symm.trans h1)
  rw [hrec, he]
  rfl

/-! ## Initiative order -/

theorem sorted_of_spec {srt : List CombatEntity → List CombatEntity} (hsort : StdSortSpec srt)
    (l : List CombatEntity) : (srt l).Pairwise (fun a b => b.initiative ≤ a.initiative) := by
  refine List.Pairwise.imp ?_ (hsort l).2
  intro a b hab
  simpa [CombatEntity.lt] using hab

theorem addCombatant_adds (env : Env) (w : World) (e : Nat)
    (hs : w.cm.current_state ≠ CombatState.COMBAT_INACTIVE) (he : e ∉ w.cm.combat_entities) :
    (addCombatant env w (some e)).cm = { w.cm with
      combat_entities := w.cm.combat_entities ++ [e]
      initiative_order := env.stdSort (w.cm.initiative_order ++
        [⟨e, randBetween 1 20 (env.randRaw w.rand_calls) + (w.stats e).speed⟩]) } ∧
    ∀ i, (addCombatant env w (some e)).stats i
      = if i = e then { w.stats i with in_combat := true } else w.stats i := by
  unfold addCombatant
  simp only [if_neg hs, if_neg he, hudlogAdd_cm, hudlogAdd_stats, rollInitiativeForEntity,
    setInCombat]
  refine ⟨?_, fun _ => trivial⟩
  simp

/-- C5: after rollInitiative, and after every addCombatant that adds an entity,
the initiative order is sorted by non-increasing initiative; right after
rollInitiative it is a rearrangement of the participants, in the order of the
participant list, each paired with its roll plus speed. -/
theorem initiative_order_sorted (env : Env) (hsort : StdSortSpec env.stdSort) (w : World) :
    ((rollInitiative env w).cm.initiative_order.Pairwise
        (fun a b => b.initiative ≤ a.initiative) ∧
      (rollInitiative env w).cm.initiative_order.Perm
        (rolledEntries env w.stats w.rand_calls w.cm.combat_entities) ∧
      (rolledEntries env w.stats w.rand_calls w.cm.combat_entities).map (fun ce => ce.entity)
        = w.cm.combat_entities ∧
      (rollInitiative env w).cm.combat_entities = w.cm.combat_entities) ∧
    (∀ e, w.cm.current_state ≠ CombatState.COMBAT_INACTIVE → e ∉ w.cm.combat_entities →
      (addCombatant env w (some e)).cm.combat_entities = w.cm.combat_entities ++ [e] ∧
      (addCombatant env w (some e)).cm.initiative_order.Pairwise
        (fun a b => b.initiative ≤ a.initiative)) := by
  constructor
  · rw [rollInitiative_cm]
    exact ⟨sorted_of_spec hsort _, (hsort _).1, rolledEntries_map_entity _ _ _ _, rfl⟩
  · intro e hs he
    rw [(addCombatant_adds env w e hs he).1]
    exact ⟨rfl, sorted_of_spec hsort _⟩

/-- Witness of C5: the roll of the example transition and the arrival of a third
combatant in the example combat. -/
theorem initiative_order_sorted_witness :
    (rollInitiative exampleEnv transitionWorld).cm.initiative_order.Pairwise
        (fun a b => b.initiative ≤ a.initiative) ∧
    (addCombatant exampleEnv (activeWorld 0 2) (some 2)).cm.initiative_order.Pairwise
        (fun a b => b.initiative ≤ a.initiative) :=
  ⟨(initiative_order_sorted exampleEnv stableSort_spec transitionWorld).1.1,
    ((initiative_order_sorted exampleEnv stableSort_spec (activeWorld 0 2)).2 2
      (by decide) (by decide)).2⟩

theorem sort_pair_7_15 {srt : List CombatEntity → List CombatEntity} (hsort : StdSortSpec srt)
    (a b : Nat) : srt [⟨a, 7⟩, ⟨b, 15⟩] = [⟨b, 15⟩, ⟨a, 7⟩] := by
  have hp := (hsort [⟨a, 7⟩, ⟨b, 15⟩]).1
  have hs := sorted_of_spec hsort [⟨a, 7⟩, ⟨b, 15⟩]
  obtain ⟨x, y, hxy⟩ := List.length_eq_two.mp hp.length_eq
  rw [hxy] at hp hs ⊢
  have hx : x ∈ [(⟨a, 7⟩ : CombatEntity), ⟨b, 15⟩] := hp.subset (by simp)
  have hy : y ∈ [(⟨a, 7⟩ : CombatEntity), ⟨b, 15⟩] := hp.subset (by simp)
  have hb : (⟨b, 15⟩ : CombatEntity) ∈ [x, y] := hp.symm.subset (by simp)
  have ha : (⟨a, 7⟩ : CombatEntity) ∈ [x, y] := hp.symm.subset (by simp)
  have hle : y.initiative ≤ x.initiative := by
    simpa using hs
  simp only [List.mem_cons, List.mem_singleton, List.not_mem_nil, or_false] at hx hy ha hb
  rcases hx with hx | hx <;> rcases hy with hy | hy <;> subst hx <;> subst hy
  · simp at hb
  · simp at hle
  · rfl
  · simp at ha

/-- C6: when logic() promotes a combat started by enterCombat (turn index 0, a
non-empty participant list) from TRANSITION to ACTIVE, the current turn entity is
a participant whose rolled initiative is maximal; for two combatants of speed 0
that roll 7 and 15 the order is the 15-entity then the 7-entity and the first
turn belongs to the 15-entity. -/
theorem first_turn_highest_roll (env : Env) (hsort : StdSortSpec env.stdSort) (w : World)
    (hs : w.cm.current_state = CombatState.COMBAT_TRANSITION)
    (hend : w.cm.transition_timer.tick.isEnd = true)
    (hidx : w.cm.current_turn_index = 0) :
    (w.cm.combat_entities ≠ [] →
      ∃ ce, ce ∈ rolledEntries env w.stats w.rand_calls w.cm.combat_entities ∧
        ce ∈ (logicTransition env w).cm.initiative_order ∧
        getCurrentTurnEntity (logicTransition env w).cm = some ce.entity ∧
        ce.entity ∈ (logicTransition env w).cm.combat_entities ∧
        ∀ other ∈ rolledEntries env w.stats w.rand_calls w.cm.combat_entities,
          other.initiative ≤ ce.initiative) ∧
    (∀ a b, w.cm.combat_entities = [a, b] →
      (w.stats a).speed = 0 → (w.stats b).speed = 0 →
      randBetween 1 20 (env.randRaw w.rand_calls) = 7 →
      randBetween 1 20 (env.randRaw (w.rand_calls + 1)) = 15 →
      (logicTransition env w).cm.initiative_order = [⟨b, 15⟩, ⟨a, 7⟩] ∧
      getCurrentTurnEntity (logicTransition env w).cm = some b) := by
  obtain ⟨hcm, _, _⟩ := logicTransition_promote env w hs hend
  constructor
  · intro hne
    have hp := (hsort (rolledEntries env w.stats w.rand_calls w.cm.combat_entities)).1
    have hsd := sorted_of_spec hsort
      (rolledEntries env w.stats w.rand_calls w.cm.combat_entities)
    have hlen : 0 < (env.stdSort (rolledEntries env w.stats w.rand_calls
        w.cm.combat_entities)).length := by
      rw [hp.length_eq, rolledEntries_length]
      exact List.length_pos.mpr hne
    obtain ⟨ce, rest, hcons⟩ := List.exists_cons_of_length_pos hlen
    have hmem : ce ∈ rolledEntries env w.stats w.rand_calls w.cm.combat_entities :=
      hp.subset (by rw [hcons]; simp)
    refine ⟨ce, hmem, ?_, ?_, ?_, ?_⟩
    · rw [hcm]
      simp [hcons]
    · rw [hcm]
      simp [getCurrentTurnEntity, hcons, hidx]
    · rw [hcm]
      have h2 := List.mem_map_of_mem (fun ce => ce.entity) hmem
      rw [rolledEntries_map_entity] at h2
      exact h2
    · intro other ho
      have ho2 : other ∈ ce :: rest := by
        rw [← hcons]
        exact hp.symm.subset ho
      rw [hcons] at hsd
      rcases List.mem_cons.mp ho2 with h1 | h1
      · rw [h1]
      · exact List.rel_of_pairwise_cons hsd h1
  · intro a b hab hsa hsb h7 h15
    have hroll : rolledEntries env w.stats w.rand_calls w.cm.combat_entities
        = [⟨a, 7⟩, ⟨b, 15⟩] := by
      rw [hab]
      simp [rolledEntries, hsa, hsb, h7, h15]
    rw [hcm, hroll, sort_pair_7_15 hsort]
    simp [getCurrentTurnEntity, hidx]

/-- Witness of C6 (Scenario A): the hero (0) rolls 7, the enemy (1) rolls 15, and
the promotion puts the enemy first. -/
theorem first_turn_highest_roll_witness :
    (logicTransition exampleEnv transitionWorld).cm.initiative_order = [⟨1, 15⟩, ⟨0, 7⟩] ∧
    getCurrentTurnEntity (logicTransition exampleEnv transitionWorld).cm = some 1 :=
  (first_turn_highest_roll exampleEnv stableSort_spec transitionWorld rfl (by decide) rfl).2
    0 1 rfl rfl rfl (by decide) (by decide)

/-- C7 fails as stated: with a conforming library sort that reverses ties, two
participants added in the order 0, 1 that both roll 7 end up in the order 1, 0. -/
theorem initiative_ties_counterexample :
    StdSortSpec tieEnv.stdSort ∧
    transitionWorld.cm.combat_entities = [0, 1] ∧
    rolledEntries tieEnv transitionWorld.stats transitionWorld.rand_calls
      transitionWorld.cm.combat_entities = [⟨0, 7⟩, ⟨1, 7⟩] ∧
    (rollInitiative tieEnv transitionWorld).cm.initiative_order = [⟨1, 7⟩, ⟨0, 7⟩] :=
  ⟨reverseTieSort_spec, rfl, by decide, by decide⟩

/-- C7 as amended: after rollInitiative an entry never follows an entry of
strictly lower initiative, whatever conforming sort is used; entries of equal
initiative keep the order of the participant list when the library sort is the
stable one. -/
theorem initiative_ties_amended (env : Env) (w : World) :
    (StdSortSpec env.stdSort →
      (rollInitiative env w).cm.initiative_order.Pairwise
        (fun a b => ¬ a.initiative < b.initiative)) ∧
    (env.stdSort = stableSort →
      ∀ a b, List.Sublist [a, b]
          (rolledEntries env w.stats w.rand_calls w.cm.combat_entities) →
        a.initiative = b.initiative →
        List.Sublist [a, b] (rollInitiative env w).cm.initiative_order) := by
  constructor
  · intro hsort
    rw [rollInitiative_cm]
    exact List.Pairwise.imp (fun h => not_lt.mpr h) (sorted_of_spec hsort _)
  · intro hst a b hsub hab
    rw [rollInitiative_cm, hst]
    exact List.pair_sublist_insertionSort (le_of_eq hab.symm) hsub

/-- Witness of C7 as amended: in the example transition, with the stable sort and
equal rolls, the hero (added first) stays before the enemy. -/
theorem initiative_ties_amended_witness :
    (rollInitiative tieEnv transitionWorld).cm.initiative_order.Pairwise
      (fun a b => ¬ a.initiative < b.initiative) ∧
    List.Sublist [(⟨0, 7⟩ : CombatEntity), ⟨1, 7⟩]
      (rollInitiative { tieEnv with stdSort := stableSort }
        transitionWorld).cm.initiative_order :=
  ⟨(initiative_ties_amended tieEnv transitionWorld).1 reverseTieSort_spec,
    (initiative_ties_amended { tieEnv with stdSort := stableSort } transitionWorld).2 rfl
      ⟨0, 7⟩ ⟨1, 7⟩ (List.Sublist.refl _) rfl⟩

/-! ## Leaving combat -/

/-- C8: on a coordinator that is already COMBAT_INACTIVE, exitCombat changes
nothing (no coordinator field, no entity flag, no log message); hence applying
exitCombat twice equals applying it once, in every state. -/
theorem exitCombat_idempotent (w : World) :
    (w.cm.current_state = CombatState.COMBAT_INACTIVE → exitCombat w = w) ∧
    exitCombat (exitCombat w) = exitCombat w := by
  have h1 : ∀ v : World, v.cm.current_state = CombatState.COMBAT_INACTIVE →
      exitCombat v = v := by
    intro v hv
    unfold exitCombat
    rw [if_pos hv]
  exact ⟨h1 w, h1 _ (exitCombat_inactive w)⟩

/-- Witness of C8: exitCombat on the freshly constructed example coordinator. -/
theorem exitCombat_idempotent_witness : exitCombat exampleWorld = exampleWorld :=
  (exitCombat_idempotent exampleWorld).1 rfl

/-- C9 at a failing input: the only enemy (1) has died; the tick prunes it, ends
the combat and clears the flag of the hero (0), but the flag of the pruned enemy
is still set when logic() returns. -/
theorem exit_keeps_flag_of_pruned :
    (logic exampleEnv (deadEnemyWorld 1)).map
        (fun v => (v.cm.current_state, v.cm.combat_entities, v.cm.initiative_order,
          (v.stats 0).in_combat, (v.stats 1).in_combat))
      = some (CombatState.COMBAT_INACTIVE, [], [], false, true) := by
  decide

theorem logicTransition_of_active (env : Env) (w : World)
    (hs : w.cm.current_state = CombatState.COMBAT_ACTIVE) : logicTransition env w = w := by
  unfold logicTransition
  rw [if_neg]
  rw [hs]
  decide

theorem hasEnemies_pruneDead_false (w : World)
    (hdead : ∀ e ∈ w.cm.combat_entities,
      (w.stats e).hero = false → (w.stats e).hero_ally = false → (w.stats e).alive = false) :
    hasEnemies (pruneDead w) = false := by
  unfold hasEnemies pruneDead
  simp only [List.any_eq_false, List.mem_filter]
  intro e he
  obtain ⟨hmem, halive⟩ := he
  intro hen
  simp only [Bool.and_eq_true, Bool.not_eq_true'] at hen
  have := hdead e hmem hen.1 hen.2
  rw [this] at halive
  cases halive

/-- C10: in an ACTIVE state where every participant that is neither the hero nor
a hero ally is not alive, the same logic() call returns with the state
COMBAT_INACTIVE, round 0 and turn index 0; the result is exactly exitCombat after
pruning, so no turn is advanced and the turn-state record is untouched. -/
theorem same_tick_combat_end (env : Env) (w : World)
    (hs : w.cm.current_state = CombatState.COMBAT_ACTIVE)
    (hdead : ∀ e ∈ w.cm.combat_entities,
      (w.stats e).hero = false → (w.stats e).hero_ally = false → (w.stats e).alive = false) :
    ∃ w1, logic env w = some w1 ∧
      w1.cm.current_state = CombatState.COMBAT_INACTIVE ∧
      w1.cm.current_round = 0 ∧
      w1.cm.current_turn_index = 0 ∧
      w1 = exitCombat (pruneDead w) ∧
      w1.cm.turn_state = w.cm.turn_state := by
  have hne : (pruneDead w).cm.current_state ≠ CombatState.COMBAT_INACTIVE := by
    show w.cm.current_state ≠ CombatState.COMBAT_INACTIVE
    rw [hs]
    decide
  have hcm := exitCombat_cm (pruneDead w)
  rw [if_neg hne] at hcm
  refine ⟨exitCombat (pruneDead w), ?_, ?_, ?_, ?_, rfl, ?_⟩
  · unfold logic
    rw [logicTransition_of_active env w hs]
    unfold logicActive
    rw [if_pos hs]
    dsimp only
    rw [hasEnemies_pruneDead_false w hdead]
    exact autoTurn_of_none env _ (getCurrentTurnEntity_exitCombat _ hne)
  · rw [hcm]
  · rw [hcm]
  · rw [hcm]
  · rw [hcm]
    rfl

/-- Witness of C10 (Scenario E): the only enemy of the example combat has died
during its own turn; the tick ends the combat. -/
theorem same_tick_combat_end_witness :
    ∃ w1, logic exampleEnv (deadEnemyWorld 0) = some w1 ∧
      w1.cm.current_state = CombatState.COMBAT_INACTIVE ∧
      w1.cm.current_round = 0 ∧
      w1.cm.current_turn_index = 0 ∧
      w1 = exitCombat (pruneDead (deadEnemyWorld 0)) ∧
      w1.cm.turn_state = (deadEnemyWorld 0).cm.turn_state :=
  same_tick_combat_end exampleEnv (deadEnemyWorld 0) rfl (by decide)

/-! ## The transition timer -/

theorem run_append (env : Env) (l1 l2 : List Call) (w : World) :
    run env (l1 ++ l2) w = (run env l1 w).bind (run env l2) := by
  induction l1 generalizing w with
  | nil => rfl
  | cons c cs ih =>
    simp only [List.cons_append, run]
    cases step env w c with
    | none => rfl
    | some v => exact ih v

theorem joinLoop_rand_calls (env : Env) (initiator target : Nat) (es : List Nat) (w : World) :
    (joinLoop env initiator target es w).rand_calls = w.rand_calls := by
  induction es generalizing w with
  | nil => rfl
  | cons e rest ih =>
    unfold joinLoop
    split
    · exact ih w
    · split
      · exact ih w
      · split
        · rw [ih]
        · exact ih w

theorem enterCombat_of_inactive (env : Env) (w : World) (initiator target : Nat)
    (hs : w.cm.current_state = CombatState.COMBAT_INACTIVE) :
    (∃ l, (enterCombat env w initiator target).cm =
      { w.cm with
        current_state := CombatState.COMBAT_TRANSITION
        transition_timer := w.cm.transition_timer.resetBegin
        current_round := 1
        current_turn_index := 0
        combat_entities := [initiator, target] ++ l
        initiative_order := [] }) ∧
    (enterCombat env w initiator target).rand_calls = w.rand_calls := by
  unfold enterCombat
  rw [if_neg (by rw [hs]; exact fun h => h rfl)]
  obtain ⟨l, hl⟩ := joinLoop_cm env initiator target w.entities
    { w with cm := { w.cm with
        current_round := 1
        current_turn_index := 0
        combat_entities := [initiator, target]
        initiative_order := [] } }
  refine ⟨⟨l, ?_⟩, ?_⟩
  · simp only [hudlogAdd_cm, startTransition, hl]
  · show (joinLoop env initiator target w.entities _).rand_calls = w.rand_calls
    rw [joinLoop_rand_calls]

theorem logicActive_of_not_active (env : Env) (w : World)
    (hs : w.cm.current_state ≠ CombatState.COMBAT_ACTIVE) : logicActive env w = some w := by
  unfold logicActive
  rw [if_neg hs]

theorem logic_waiting (env : Env) (w : World)
    (hs : w.cm.current_state = CombatState.COMBAT_TRANSITION)
    (hc : 2 ≤ w.cm.transition_timer.current) :
    logic env w = some { w with cm := { w.cm with transition_timer :=
      { w.cm.transition_timer with current := w.cm.transition_timer.current - 1 } } } := by
  have htick : w.cm.transition_timer.tick =
      { w.cm.transition_timer with current := w.cm.transition_timer.current - 1 } := by
    unfold Timer.tick
    rw [if_pos (by omega)]
  have hend : w.cm.transition_timer.tick.isEnd = false := by
    rw [htick]
    simp only [Timer.isEnd, beq_eq_false_iff_ne, ne_eq]
    omega
  have hlt : logicTransition env w = { w with cm := { w.cm with transition_timer :=
      { w.cm.transition_timer with current := w.cm.transition_timer.current - 1 } } } := by
    unfold logicTransition
    rw [if_pos hs]
    dsimp only
    rw [hend, htick]
    rfl
  unfold logic
  rw [hlt]
  apply logicActive_of_not_active
  show w.cm.current_state ≠ CombatState.COMBAT_ACTIVE
  rw [hs]
  decide

theorem run_logic_waiting (env : Env) (k : Nat) (w : World)
    (hs : w.cm.current_state = CombatState.COMBAT_TRANSITION)
    (hk : k < w.cm.transition_timer.current) :
    run env (List.replicate k Call.logic) w = some { w with cm := { w.cm with
      transition_timer :=
        { w.cm.transition_timer with current := w.cm.transition_timer.current - k } } } := by
  induction k generalizing w with
  | zero => rfl
  | succ k ih =>
    simp only [List.replicate_succ, run, step]
    rw [logic_waiting env w hs (by omega)]
    simp only [Option.some_bind]
    have key := ih { w with cm := { w.cm with transition_timer := { w.cm.transition_timer with current := w.cm.transition_timer.current - 1 } } } hs (by show k < w.cm.transition_timer.current - 1; omega)
    refine key.trans ?_
    simp only [Nat.sub_sub, Nat.add_comm 1 k]

theorem nextTurn_state {w w1 : World} (h : nextTurn w = some w1) :
    w1.cm.current_state = w.cm.current_state := by
  obtain ⟨_, hcm, _⟩ := nextTurn_cm h
  rw [hcm]

theorem autoTurn_total (env : Env) (hframe : EntityLogicFrame env.entityLogic) (w : World) :
    ∃ w1, autoTurn env w = some w1 ∧ w1.cm.current_state = w.cm.current_state := by
  unfold autoTurn
  split
  · split
    · exact ⟨w, rfl, rfl⟩
    · rename_i current hcur
      dsimp only
      have hne : w.cm.initiative_order ≠ [] := by
        intro h0
        unfold getCurrentTurnEntity at hcur
        simp [h0] at hcur
      have hx : ∀ x : World, x.cm = { w.cm with turn_state := x.cm.turn_state } →
          ∃ w1, (if x.cm.turn_state.actions_remaining = 0 then nextTurn x else some x)
            = some w1 ∧ w1.cm.current_state = w.cm.current_state := by
        intro x hxcm
        have hst : x.cm.current_state = w.cm.current_state := by rw [hxcm]
        split
        · have hne2 : x.cm.initiative_order ≠ [] := by
            rw [hxcm]
            exact hne
          obtain ⟨w1, hw1⟩ := nextTurn_isSome x hne2
          exact ⟨w1, hw1, (nextTurn_state hw1).trans hst⟩
        · exact ⟨x, rfl, hst⟩
      split
      · exact hx _ (hframe current w)
      · exact hx w rfl
  · exact ⟨w, rfl, rfl⟩

theorem logic_total (env : Env) (hframe : EntityLogicFrame env.entityLogic) (w : World) :
    ∃ w1, logic env w = some w1 := by
  unfold logic logicActive
  split
  · obtain ⟨w1, h1, _⟩ := autoTurn_total env hframe
      (if (!hasEnemies (pruneDead (logicTransition env w))) = true
        then exitCombat (pruneDead (logicTransition env w))
        else pruneDead (logicTransition env w))
    exact ⟨w1, h1⟩
  · exact ⟨_, rfl⟩

theorem logicTransition_state (env : Env) (w : World) :
    (logicTransition env w).cm.current_state =
      if w.cm.current_state = CombatState.COMBAT_TRANSITION ∧
          w.cm.transition_timer.tick.isEnd = true
      then CombatState.COMBAT_ACTIVE else w.cm.current_state := by
  unfold logicTransition
  by_cases hs : w.cm.current_state = CombatState.COMBAT_TRANSITION
  · rw [if_pos hs]
    dsimp only
    by_cases hend : w.cm.transition_timer.tick.isEnd = true
    · rw [if_pos hend, if_pos ⟨hs, hend⟩]
      simp only [logTurnBegins_cm, hudlogAdd_cm, resetTurnState_cm, rollInitiative_cm]
    · rw [if_neg hend, if_neg (fun h => hend h.2)]
  · rw [if_neg hs, if_neg (fun h => hs h.1)]

theorem step_reaches_active (env : Env) (c : Call) (v v1 : World)
    (h : step env v c = some v1)
    (hv : v.cm.current_state ≠ CombatState.COMBAT_ACTIVE)
    (hv1 : v1.cm.current_state = CombatState.COMBAT_ACTIVE) :
    c = Call.logic ∧ v.cm.current_state = CombatState.COMBAT_TRANSITION ∧
      v.cm.transition_timer.tick.isEnd = true := by
  cases c with
  | enterCombat initiator target =>
    exfalso
    injection h with h
    subst h
    unfold enterCombat at hv1
    split at hv1
    · exact hv hv1
    · simp [startTransition] at hv1
  | logic =>
    refine ⟨rfl, ?_⟩
    by_contra hcon
    have hst := logicTransition_state env v
    rw [if_neg hcon] at hst
    have hna : (logicTransition env v).cm.current_state ≠ CombatState.COMBAT_ACTIVE := by
      rw [hst]
      exact hv
    have h2 : logic env v = some (logicTransition env v) :=
      logicActive_of_not_active env _ hna
    change logic env v = some v1 at h
    rw [h2] at h
    injection h with h
    subst h
    exact hna hv1
  | addCombatant entity =>
    exfalso
    injection h with h
    subst h
    unfold addCombatant at hv1
    split at hv1
    · exact hv hv1
    · split at hv1
      · exact hv hv1
      · split at hv1
        · exact hv hv1
        · exact hv hv1
  | nextTurn =>
    exfalso
    exact hv ((nextTurn_state h).symm.trans hv1)
  | spendAction =>
    exfalso
    change spendAction v = some v1 at h
    unfold spendAction at h
    dsimp only at h
    split at h
    · exact hv ((nextTurn_state h).symm.trans hv1)
    · injection h with h
      subst h
      exact hv hv1
  | endPlayerTurn =>
    exfalso
    change endPlayerTurn v = some v1 at h
    unfold endPlayerTurn at h
    split at h
    · injection h with h
      subst h
      exact hv hv1
    · exact hv ((nextTurn_state h).symm.trans hv1)
  | exitCombat =>
    exfalso
    injection h with h
    subst h
    rw [exitCombat_inactive] at hv1
    cases hv1
  | world stats entities =>
    exfalso
    injection h with h
    subst h
    exact hv hv1

/-- C11: after enterCombat on an INACTIVE coordinator whose transition timer has
the duration F >= 1 (max_frames_per_sec), the state is COMBAT_TRANSITION with an
empty initiative order; it stays so, with no initiative rolled, through the first
F-1 logic() calls; the F-th call promotes to COMBAT_ACTIVE with the initiative
rolled; and no call reaches COMBAT_ACTIVE from another state in any other way. -/
theorem transition_lasts_one_second (env : Env) (hframe : EntityLogicFrame env.entityLogic)
    (w : World) (initiator target : Nat) (F : Nat)
    (hs : w.cm.current_state = CombatState.COMBAT_INACTIVE) (hF : 1 ≤ F)
    (hdur : w.cm.transition_timer.duration = F) :
    ((enterCombat env w initiator target).cm.current_state = CombatState.COMBAT_TRANSITION ∧
      (enterCombat env w initiator target).cm.initiative_order = []) ∧
    (∀ k, k < F → ∃ wk,
      run env (List.replicate k Call.logic) (enterCombat env w initiator target) = some wk ∧
      wk.cm.current_state = CombatState.COMBAT_TRANSITION ∧
      wk.cm.initiative_order = [] ∧ wk.rand_calls = w.rand_calls) ∧
    (∃ wp,
      run env (List.replicate (F - 1) Call.logic) (enterCombat env w initiator target)
        = some wp ∧
      (logicTransition env wp).cm.current_state = CombatState.COMBAT_ACTIVE ∧
      (logicTransition env wp).cm.initiative_order =
        env.stdSort (rolledEntries env wp.stats wp.rand_calls wp.cm.combat_entities) ∧
      ∃ wF,
        run env (List.replicate F Call.logic) (enterCombat env w initiator target)
          = some wF ∧
        logic env wp = some wF ∧
        (hasEnemies (pruneDead (logicTransition env wp)) = true →
          wF.cm.current_state = CombatState.COMBAT_ACTIVE)) ∧
    (∀ c v v1, step env v c = some v1 →
      v.cm.current_state ≠ CombatState.COMBAT_ACTIVE →
      v1.cm.current_state = CombatState.COMBAT_ACTIVE →
      c = Call.logic ∧ v.cm.current_state = CombatState.COMBAT_TRANSITION ∧
        v.cm.transition_timer.tick.isEnd = true) := by
  obtain ⟨⟨l, hcm⟩, hrand⟩ := enterCombat_of_inactive env w initiator target hs
  have hst : (enterCombat env w initiator target).cm.current_state
      = CombatState.COMBAT_TRANSITION := by rw [hcm]
  have hord : (enterCombat env w initiator target).cm.initiative_order = [] := by rw [hcm]
  have hcur : (enterCombat env w initiator target).cm.transition_timer.current = F := by
    rw [hcm]
    exact hdur
  refine ⟨⟨hst, hord⟩, ?_, ?_, step_reaches_active env⟩
  · intro k hk
    exact ⟨_, run_logic_waiting env k _ hst (by rw [hcur]; exact hk), hst, hord, hrand⟩
  · have hrun := run_logic_waiting env (F - 1) _ hst (by rw [hcur]; omega)
    refine ⟨_, hrun, ?_⟩
    generalize hwp : ({ enterCombat env w initiator target with cm :=
      { (enterCombat env w initiator target).cm with transition_timer :=
        { (enterCombat env w initiator target).cm.transition_timer with
          current := (enterCombat env w initiator target).cm.transition_timer.current
            - (F - 1) } } } : World) = wp at hrun
    have hwst : wp.cm.current_state = CombatState.COMBAT_TRANSITION := by
      rw [← hwp]
      exact hst
    have hwend : wp.cm.transition_timer.tick.isEnd = true := by
      rw [← hwp]
      simp only [Timer.tick, Timer.isEnd, hcur]
      have h1 : F - (F - 1) = 1 := by omega
      rw [h1]
      rfl
    obtain ⟨hpcm, _, _⟩ := logicTransition_promote env wp hwst hwend
    have hact : (logicTransition env wp).cm.current_state = CombatState.COMBAT_ACTIVE := by
      rw [hpcm]
    refine ⟨hact, by rw [hpcm], ?_⟩
    obtain ⟨wF, hwF⟩ := logic_total env hframe wp
    refine ⟨wF, ?_, hwF, ?_⟩
    · have hrep : List.replicate F Call.logic
          = List.replicate (F - 1) Call.logic ++ [Call.logic] := by
        have hF1 : F = (F - 1) + 1 := by omega
        conv_lhs => rw [hF1]
        exact List.replicate_succ' _ _
      rw [hrep, run_append, hrun]
      simp only [Option.some_bind, run, step, hwF]
    · intro hen
      unfold logic logicActive at hwF
      rw [if_pos hact] at hwF
      dsimp only at hwF
      rw [hen] at hwF
      obtain ⟨w1, h1, h2⟩ := autoTurn_total env hframe (pruneDead (logicTransition env wp))
      have h3 : autoTurn env (pruneDead (logicTransition env wp)) = some wF := hwF
      rw [h1] at h3
      injection h3 with h3
      rw [← h3, h2]
      exact hact

/-- Witness of C11: the hero attacks the enemy with two frames per second; after
one tick the coordinator still waits, the second tick promotes it. -/
theorem transition_lasts_one_second_witness :
    (∃ wk, run exampleEnv (List.replicate 1 Call.logic) (enterCombat exampleEnv exampleWorld 0 1)
        = some wk ∧
      wk.cm.current_state = CombatState.COMBAT_TRANSITION ∧
      wk.cm.initiative_order = [] ∧ wk.rand_calls = exampleWorld.rand_calls) ∧
    (∃ wF, run exampleEnv (List.replicate 2 Call.logic) (enterCombat exampleEnv exampleWorld 0 1)
        = some wF) := by
  obtain ⟨_, h2, ⟨wp, _, _, _, wF, hF, _⟩, _⟩ :=
    transition_lasts_one_second exampleEnv forfeitLogic_frame exampleWorld 0 1 2 rfl
      (by decide) rfl
  exact ⟨h2 1 (by decide), wF, hF⟩

/-! ## Movement legality -/

/-- C12 at a failing input: the hero began its turn at (0, 0) and stands at (5, 0);
the destination (9, 0) is 9 tiles from the movement start, beyond the range 6,
yet isValidMovement accepts it because the distance is taken from the current
position (4 tiles). -/
theorem isValidMovement_measures_from_current_pos :
    (movedHeroWorld 1).cm.turn_state.movement_start = ⟨0, 0⟩ ∧
    distExceeds (movedHeroWorld 1).cm.turn_state.movement_start ⟨9, 0⟩
      (getMovementRange (movedHeroWorld 1)) = true ∧
    isValidMovement openCollider (movedHeroWorld 1) ⟨9, 0⟩ = true := by
  decide

theorem isValidMovement_from_start (col : MapCollision) (w : World) (dest : FPoint)
    (current : Nat) (hcur : getCurrentTurnEntity w.cm = some current)
    (hpos : (w.stats current).pos = w.cm.turn_state.movement_start)
    (hfar : distExceeds w.cm.turn_state.movement_start dest 6 = true) :
    isValidMovement col w dest = false := by
  unfold isValidMovement
  split
  · rfl
  · simp only [hcur, getMovementRange, hpos, hfar, if_true]

/-! ## The avatar and the turn gate -/

/-- C13 at a failing input: in the middle of a drag movement (key held and locked,
drag_walking set) each further handleMouseMoveDirection call spends an action
again: with two actions left one is taken, with one left the turn passes on,
and the same happens through a whole handleMoveState frame. -/
theorem drag_walking_spends_again :
    (handleMouseMoveDirection exampleAvatarEnv (dragGame 2)).map
        (fun g => (g.w.cm.turn_state.actions_remaining, g.w.cm.current_turn_index))
      = some (1, 1) ∧
    (handleMouseMoveDirection exampleAvatarEnv (dragGame 1)).map
        (fun g => (g.w.cm.turn_state.actions_remaining, g.w.cm.current_turn_index,
          g.w.cm.current_round))
      = some (2, 0, 2) ∧
    (handleMoveState exampleAvatarEnv (dragGame 2)).map
        (fun g => (g.w.cm.turn_state.actions_remaining, g.pc.stats.cur_state))
      = some (1, EntityState.ENTITY_MOVE) := by
  decide

/-! ## Frame properties of the avatar operations -/

theorem MoveFrame_refl (g : Game) : MoveFrame g g :=
  ⟨rfl, ⟨rfl, rfl, rfl⟩, ⟨rfl, rfl, rfl, rfl⟩, rfl, rfl⟩

theorem MoveFrame_trans {g g1 g2 : Game} (h1 : MoveFrame g g1) (h2 : MoveFrame g1 g2) :
    MoveFrame g g2 := by
  obtain ⟨a1, ⟨b1, b2, b3⟩, ⟨c1, c2, c3, c7⟩, d1, e1⟩ := h1
  obtain ⟨a2, ⟨b4, b5, b6⟩, ⟨c4, c5, c6, c8⟩, d2, e2⟩ := h2
  exact ⟨a2.trans a1, ⟨b4.trans b1, b5.trans b2, b6.trans b3⟩,
    ⟨c4.trans c1, c5.trans c2, c6.trans c3, c8.trans c7⟩, d2.trans d1, e2.trans e1⟩

theorem shouldRecalculatePath_frame (aenv : AvatarEnv) (g : Game) :
    MoveFrame g (shouldRecalculatePath aenv g).2 := by
  unfold shouldRecalculatePath
  dsimp only
  repeat' (first | split | dsimp only)
  all_goals exact ⟨rfl, ⟨rfl, rfl, rfl⟩, ⟨rfl, rfl, rfl, rfl⟩, rfl, rfl⟩

theorem recalculatePath_frame (aenv : AvatarEnv) (g : Game) :
    MoveFrame g (recalculatePath aenv g) := by
  unfold recalculatePath
  dsimp only
  repeat' (first | split | dsimp only)
  all_goals exact ⟨rfl, ⟨rfl, rfl, rfl⟩, ⟨rfl, rfl, rfl, rfl⟩, rfl, rfl⟩

theorem updatePathTarget_frame (g : Game) : MoveFrame g (updatePathTarget g) := by
  unfold updatePathTarget
  repeat' (first | split | dsimp only)
  all_goals exact ⟨rfl, ⟨rfl, rfl, rfl⟩, ⟨rfl, rfl, rfl, rfl⟩, rfl, rfl⟩

theorem handlePathfinding_frame (aenv : AvatarEnv) (g : Game) :
    MoveFrame g (handlePathfinding aenv g) := by
  unfold handlePathfinding
  dsimp only
  refine MoveFrame_trans ?_ (updatePathTarget_frame _)
  have h1 := shouldRecalculatePath_frame aenv g
  cases hend : (shouldRecalculatePath aenv g).2.pc.path_found_fail_timer.isEnd <;>
    cases hr : (shouldRecalculatePath aenv g).1 <;>
    simp only [Bool.not_true, Bool.not_false, if_true, if_false, Bool.false_eq_true]
  · exact h1
  · exact h1
  · exact h1
  · exact MoveFrame_trans h1 (recalculatePath_frame aenv _)

theorem handleMouseClick_frame (aenv : AvatarEnv) (g : Game) (r : Game × Bool)
    (h : handleMouseClick aenv g = some r) : MoveFrame g r.1 := by
  unfold handleMouseClick at h
  split at h
  · dsimp only at h
    have hc : ∀ c : Game × Bool,
        (if g.pc.stats.in_combat = true then
          if (!g.combat_manager) = true then none
          else if (!isValidMovement aenv.collider g.w g.inpt.mouse_target) = true
            then some (g, true)
          else Option.map (fun w1 => ({ g with w := w1 }, false)) (spendAction g.w)
        else some (g, false)) = some c → MoveFrame g c.1 := by
      intro c hcq
      split at hcq
      · split at hcq
        · cases hcq
        · split at hcq
          · injection hcq with hcq
            subst hcq
            exact MoveFrame_refl g
          · cases hsp : spendAction g.w with
            | none => simp [hsp] at hcq
            | some w1 =>
              simp only [hsp, Option.map_some'] at hcq
              injection hcq with hcq
              subst hcq
              exact MoveFrame_refl g
      · injection hcq with hcq
        subst hcq
        exact MoveFrame_refl g
    generalize (if g.pc.stats.in_combat = true then
          if (!g.combat_manager) = true then none
          else if (!isValidMovement aenv.collider g.w g.inpt.mouse_target) = true
            then some (g, true)
          else Option.map (fun w1 => ({ g with w := w1 }, false)) (spendAction g.w)
        else some (g, false)) = oc at h hc
    cases oc with
    | none => simp at h
    | some c =>
      simp only [Option.map_some'] at h
      injection h with h
      have hcf := hc c rfl
      subst h
      repeat' split
      all_goals exact hcf
  · injection h with h
    subst h
    exact MoveFrame_refl g

theorem handleMouseMoveDirection_frame (aenv : AvatarEnv) (g g1 : Game)
    (h : handleMouseMoveDirection aenv g = some g1) : MoveFrame g g1 := by
  unfold handleMouseMoveDirection at h
  split at h
  · injection h with h
    subst h
    exact MoveFrame_refl g
  · cases hc : handleMouseClick aenv g with
    | none => simp [hc] at h
    | some r =>
      have hf := handleMouseClick_frame aenv g r hc
      simp only [hc, Option.map_some'] at h
      injection h with h
      subst h
      split
      · exact hf
      · split
        · exact MoveFrame_trans hf (handlePathfinding_frame aenv _)
        · exact hf

theorem handleKeyboardDirection_frame (aenv : AvatarEnv) (g : Game) :
    MoveFrame g (handleKeyboardDirection aenv g) :=
  ⟨rfl, ⟨rfl, rfl, rfl⟩, ⟨rfl, rfl, rfl, rfl⟩, rfl, rfl⟩

theorem updateDirectionTimer_frame (aenv : AvatarEnv) (old_dir : Nat) (g : Game) :
    MoveFrame g (updateDirectionTimer aenv old_dir g) := by
  unfold updateDirectionTimer
  repeat' (first | split | dsimp only)
  all_goals exact ⟨rfl, ⟨rfl, rfl, rfl⟩, ⟨rfl, rfl, rfl, rfl⟩, rfl, rfl⟩

theorem set_direction_frame (aenv : AvatarEnv) (g g1 : Game)
    (h : set_direction aenv g = some g1) : MoveFrame g g1 := by
  unfold set_direction at h
  split at h
  · injection h with h
    subst h
    exact MoveFrame_refl g
  · dsimp only at h
    split at h
    · cases hm : handleMouseMoveDirection aenv g with
      | none => simp [hm] at h
      | some g2 =>
        simp only [hm, Option.map_some'] at h
        injection h with h
        subst h
        exact MoveFrame_trans (handleMouseMoveDirection_frame aenv g g2 hm)
          (updateDirectionTimer_frame aenv _ _)
    · simp only [Option.map_some'] at h
      injection h with h
      subst h
      exact MoveFrame_trans (handleKeyboardDirection_frame aenv g)
        (updateDirectionTimer_frame aenv _ _)

theorem Avatar_move_frame (aenv : AvatarEnv) (g : Game) :
    MoveFrame g (Avatar.move aenv g).2 := by
  unfold Avatar.move
  repeat' (first | split | dsimp only)
  all_goals exact ⟨rfl, ⟨rfl, rfl, rfl⟩, ⟨rfl, rfl, rfl, rfl⟩, rfl, rfl⟩

theorem stanceTurn_frame (aenv : AvatarEnv) (g g1 : Game)
    (h : stanceTurn aenv g = some g1) : MoveFrame g g1 := by
  unfold stanceTurn at h
  dsimp only at h
  have hlock : MoveFrame g
      (if (aenv.mouse_move && (setAnim aenv "stance" g).inpt.pressing
            (setAnim aenv "stance" g).pc.mm_key
          && (setAnim aenv "stance" g).inpt.pressing Key.SHIFT) = true then
        { setAnim aenv "stance" g with inpt := { (setAnim aenv "stance" g).inpt with
            lock := fun k => if k = (setAnim aenv "stance" g).pc.mm_key then false
              else (setAnim aenv "stance" g).inpt.lock k } }
      else setAnim aenv "stance" g) := by
    split
    · exact ⟨rfl, ⟨rfl, rfl, rfl⟩, ⟨rfl, rfl, rfl, rfl⟩, rfl, rfl⟩
    · exact ⟨rfl, ⟨rfl, rfl, rfl⟩, ⟨rfl, rfl, rfl, rfl⟩, rfl, rfl⟩
  split at h
  · exact MoveFrame_trans hlock (set_direction_frame aenv _ g1 h)
  · injection h with h
    subst h
    exact hlock

theorem Avatar_move_gate (aenv : AvatarEnv) (g : Game)
    (hc : g.pc.stats.in_combat = true)
    (hoff : g.combat_manager = false ∨ isPlayerTurn g.w = false) :
    Avatar.move aenv g = (false, g) := by
  unfold Avatar.move
  rcases hoff with h | h
  · simp [hc, h]
  · simp [hc, h]

/-- C14: with stats.in_combat set and the combat manager absent or isPlayerTurn()
false, Avatar::move returns false and changes nothing (Entity::move is not run),
and the transition block of handleStanceState leaves the state as it is; in every
other state Avatar::move returns what Entity::move returns, with its position. -/
theorem move_rejected_off_turn (aenv : AvatarEnv) (g : Game) :
    (g.pc.stats.in_combat = true →
      (g.combat_manager = false ∨ isPlayerTurn g.w = false) →
      Avatar.move aenv g = (false, g) ∧
      ∀ allowed_to_move, stanceMoveBlock aenv allowed_to_move g = g) ∧
    (¬ (g.pc.stats.in_combat = true ∧
        (g.combat_manager = false ∨ isPlayerTurn g.w = false)) →
      Avatar.move aenv g
        = ((aenv.entityMove g.pc.stats).1, setPos (aenv.entityMove g.pc.stats).2 g)) ∧
    (∀ g1 g2, stanceTurn aenv g = some g1 → handleStanceState aenv g = some g2 →
      g1.pc.stats.in_combat = true →
      (g1.combat_manager = false ∨ isPlayerTurn g1.w = false) →
      g2 = g1 ∧ g2.pc.stats.cur_state = g.pc.stats.cur_state) := by
  refine ⟨?_, ?_, ?_⟩
  · intro hc hoff
    have hm := Avatar_move_gate aenv g hc hoff
    refine ⟨hm, ?_⟩
    intro allowed
    unfold stanceMoveBlock
    rw [hm]
    simp
  · intro hn
    unfold Avatar.move
    by_cases hc : g.pc.stats.in_combat = true
    · have h1 : g.combat_manager = true := by
        cases hcm : g.combat_manager
        · exact absurd ⟨hc, Or.inl hcm⟩ hn
        · rfl
      have h2 : isPlayerTurn g.w = true := by
        cases hpt : isPlayerTurn g.w
        · exact absurd ⟨hc, Or.inr hpt⟩ hn
        · rfl
      simp [hc, h1, h2, setPos]
    · simp [hc, setPos]
  · intro g1 g2 h1 h2 hc hoff
    unfold handleStanceState at h2
    rw [h1] at h2
    simp only [Option.map_some'] at h2
    injection h2 with h2
    have hm := Avatar_move_gate aenv g1 hc hoff
    have hblock : stanceMoveBlock aenv (stanceAllowedToMove aenv (setAnim aenv "stance" g)) g1
        = g1 := by
      unfold stanceMoveBlock
      rw [hm]
      simp
    rw [hblock] at h2
    subst h2
    exact ⟨rfl, (stanceTurn_frame aenv g _ h1).2.2.1.1⟩

/-- Witness of C14: at the enemy's turn move() answers false and changes
nothing; in the hero's turn it answers what Entity::move answers. -/
theorem move_rejected_off_turn_witness :
    Avatar.move exampleAvatarEnv offTurnGame = (false, offTurnGame) ∧
    Avatar.move exampleAvatarEnv (exampleGame 2)
      = (true, setPos ⟨5, 0⟩ (exampleGame 2)) :=
  ⟨((move_rejected_off_turn exampleAvatarEnv offTurnGame).1 rfl (Or.inr (by decide))).1,
    (move_rejected_off_turn exampleAvatarEnv (exampleGame 2)).2.1 (by decide)⟩

/-! ## Power timers -/

theorem timerAt_set_self (timers : List (Option Timer)) (i : Nat) (t : Timer)
    (h : i < timers.length) : timerAt (timers.set i (some t)) i = some t := by
  unfold timerAt
  simp [List.getElem?_set, h]

theorem timerAt_set_other (timers : List (Option Timer)) (i j : Nat) (t : Timer)
    (h : i ≠ j) : timerAt (timers.set i (some t)) j = timerAt timers j := by
  unfold timerAt
  simp [List.getElem?_set, h]

theorem timerAt_lt {timers : List (Option Timer)} {i : Nat} {t : Timer}
    (h : timerAt timers i = some t) : i < timers.length := by
  unfold timerAt at h
  by_contra hn
  have : timers.get? i = none := List.get?_eq_none.mpr (Nat.le_of_not_lt hn)
  rw [this] at h
  cases h

theorem timerShape_set {timers : List (Option Timer)} {i : Nat} {t : Timer} (t1 : Timer)
    (h : timerAt timers i = some t) :
    timerShape (timers.set i (some t1)) = timerShape timers := by
  unfold timerShape
  apply List.ext_getElem?
  intro n
  have hlt := timerAt_lt h
  simp only [List.getElem?_map, List.getElem?_set]
  by_cases hn : i = n
  · subst hn
    unfold timerAt at h
    simp only [hlt, if_true]
    cases hg : timers[i]? with
    | none => simp [hg] at h
    | some o =>
      cases o with
      | none => simp [hg] at h
      | some t2 => rfl
  · simp [hn]

theorem timerSetDuration_spec {timers timers1 : List (Option Timer)} {i d : Nat}
    (h : timerSetDuration timers i d = some timers1) :
    timerShape timers1 = timerShape timers ∧
    timerAt timers1 i = some { current := d, duration := d } ∧
    ∀ j, i ≠ j → timerAt timers1 j = timerAt timers j := by
  unfold timerSetDuration at h
  split at h
  · cases h
  · rename_i t ht
    injection h with h
    subst h
    exact ⟨timerShape_set _ ht, timerAt_set_self _ _ _ (timerAt_lt ht),
      fun j hj => timerAt_set_other _ _ _ _ hj⟩

theorem timerSetDuration_isSome {timers : List (Option Timer)} {i : Nat} {t : Timer}
    (d : Nat) (h : timerAt timers i = some t) :
    ∃ timers1, timerSetDuration timers i d = some timers1 := by
  unfold timerSetDuration
  rw [h]
  exact ⟨_, rfl⟩

theorem timerTick_shape {timers timers1 : List (Option Timer)} {i : Nat}
    (h : timerTick timers i = some timers1) : timerShape timers1 = timerShape timers := by
  unfold timerTick at h
  split at h
  · cases h
  · rename_i t ht
    injection h with h
    subst h
    exact timerShape_set _ ht

theorem timerRenew_shape (timers : List (Option Timer)) (i : Nat) :
    timerShape (timerRenew timers i) = timerShape timers := by
  unfold timerRenew
  split
  · rfl
  · rename_i t ht
    exact timerShape_set _ ht

theorem resetTimersEnd_shape (timers : List (Option Timer)) :
    timerShape (resetTimersEnd timers) = timerShape timers := by
  unfold timerShape resetTimersEnd
  rw [List.map_map]
  apply List.map_congr_left
  intro t _
  cases t <;> rfl

theorem commitCooldown_spec {first second cd : Nat} {g g1 : Game}
    (h : commitCooldown first second cd g = some g1) :
    timerAt g1.pc.power_cooldown_timers first = some { current := cd, duration := cd } ∧
    timerAt g1.pc.power_cooldown_timers second = some { current := cd, duration := cd } ∧
    timerShape g1.pc.power_cooldown_timers = timerShape g.pc.power_cooldown_timers ∧
    g1 = { g with pc := { g.pc with power_cooldown_timers := g1.pc.power_cooldown_timers } } := by
  unfold commitCooldown at h
  cases h1 : timerSetDuration g.pc.power_cooldown_timers first cd with
  | none => simp [h1] at h
  | some t1 =>
    simp only [h1, Option.some_bind] at h
    cases h2 : timerSetDuration t1 second cd with
    | none => simp [h2] at h
    | some t2 =>
      simp only [h2, Option.map_some'] at h
      injection h with h
      subst h
      obtain ⟨s1, a1, _⟩ := timerSetDuration_spec h1
      obtain ⟨s2, a2, o2⟩ := timerSetDuration_spec h2
      refine ⟨?_, a2, s2.trans s1, rfl⟩
      by_cases hfs : second = first
      · rw [← hfs]
        exact a2
      · rw [o2 first hfs]
        exact a1

theorem commitCooldown_isSome {first second : Nat} {g : Game} {t1 t2 : Timer} (cd : Nat)
    (h1 : timerAt g.pc.power_cooldown_timers first = some t1)
    (h2 : timerAt g.pc.power_cooldown_timers second = some t2) :
    ∃ g1, commitCooldown first second cd g = some g1 := by
  unfold commitCooldown
  obtain ⟨ts1, hts1⟩ := timerSetDuration_isSome cd h1
  rw [hts1]
  simp only [Option.some_bind]
  obtain ⟨_, a1, o1⟩ := timerSetDuration_spec hts1
  have h3 : ∃ t3, timerAt ts1 second = some t3 := by
    by_cases hfs : first = second
    · rw [← hfs]
      exact ⟨_, a1⟩
    · rw [o1 second hfs]
      exact ⟨_, h2⟩
  obtain ⟨t3, ht3⟩ := h3
  obtain ⟨ts2, hts2⟩ := timerSetDuration_isSome cd ht3
  rw [hts2]
  exact ⟨_, rfl⟩

/-! ## Frame properties of the power pipeline -/

theorem ActFrame_refl (g : Game) : ActFrame g g := ⟨rfl, rfl, ⟨rfl, rfl, rfl⟩⟩

theorem ActFrame_trans {g g1 g2 : Game} (h1 : ActFrame g g1) (h2 : ActFrame g1 g2) :
    ActFrame g g2 := by
  obtain ⟨a1, b1, ⟨c1, c2, c3⟩⟩ := h1
  obtain ⟨a2, b2, ⟨c4, c5, c6⟩⟩ := h2
  exact ⟨a2.trans a1, b2.trans b1, ⟨c4.trans c1, c5.trans c2, c6.trans c3⟩⟩

theorem KeepsCT_trans {g g1 g2 : Game} (h1 : KeepsCT g g1) (h2 : KeepsCT g1 g2) :
    KeepsCT g g2 := ⟨h2.1.trans h1.1, h2.2.trans h1.2⟩

theorem KeepsCT_dead {g g1 : Game} (h : KeepsCT g g1) : DeadFrame g g1 := by
  intro hd
  exact ⟨h.1.trans hd.1, h.2.trans hd.2⟩

theorem DeadFrame_trans {g g1 g2 : Game} (h1 : DeadFrame g g1) (h2 : DeadFrame g1 g2) :
    DeadFrame g g2 := fun hd => h2 (h1 hd)

theorem powersActivate_frame (aenv : AvatarEnv) (id : Nat) (target : FPoint) (g : Game) :
    ActFrame g (powersActivate aenv id target g) ∧
    g.handled = (powersActivate aenv id target g).handled ∧
    (StatsKeepDead aenv → KeepsCT g (powersActivate aenv id target g)) :=
  ⟨⟨rfl, rfl, ⟨rfl, rfl, rfl⟩⟩, rfl, fun hk => hk.2.2 id g.pc.stats target⟩

theorem chainLoop_frame (aenv : AvatarEnv) (target : FPoint) (l : List ChainPower) (g : Game) :
    ActFrame g (chainLoop aenv target l g) ∧
    g.handled = (chainLoop aenv target l g).handled ∧
    (StatsKeepDead aenv → KeepsCT g (chainLoop aenv target l g)) := by
  induction l generalizing g with
  | nil => exact ⟨ActFrame_refl g, rfl, fun _ => ⟨rfl, rfl⟩⟩
  | cons cp rest ih =>
    unfold chainLoop
    split
    · dsimp only
      split
      · obtain ⟨a1, b1, c1⟩ := ih (powersActivate aenv cp.id target
          { g with w := { g.w with rand_calls := g.w.rand_calls + 1 } })
        obtain ⟨a2, b2, c2⟩ := powersActivate_frame aenv cp.id target
          { g with w := { g.w with rand_calls := g.w.rand_calls + 1 } }
        exact ⟨ActFrame_trans a2 a1, b2.trans b1, fun hk => KeepsCT_trans (c2 hk) (c1 hk)⟩
      · exact ih _
    · exact ih g

theorem beginPower_frame (aenv : AvatarEnv) (replaced_id : Nat) (target : FPoint) (g : Game) :
    ActFrame g (beginPower aenv replaced_id target g).1 ∧
    g.handled = (beginPower aenv replaced_id target g).1.handled ∧
    (StatsKeepDead aenv → KeepsCT g (beginPower aenv replaced_id target g).1) := by
  have key : ∀ (t : FPoint) (l : List ChainPower) (x : Game),
      (ActFrame g x ∧ g.handled = x.handled ∧ KeepsCT g x) →
      ActFrame g (chainLoop aenv t l x) ∧ g.handled = (chainLoop aenv t l x).handled ∧
      (StatsKeepDead aenv → KeepsCT g (chainLoop aenv t l x)) := by
    intro t l x hx
    obtain ⟨a1, b1, c1⟩ := chainLoop_frame aenv t l x
    exact ⟨ActFrame_trans hx.1 a1, hx.2.1.trans b1, fun hk => KeepsCT_trans hx.2.2 (c1 hk)⟩
  unfold beginPower
  dsimp only
  apply key
  repeat' (first | split | dsimp only)
  all_goals exact ⟨⟨rfl, rfl, ⟨rfl, rfl, rfl⟩⟩, rfl, ⟨rfl, rfl⟩⟩

theorem commitCooldown_frame {first second cd : Nat} {g g1 : Game}
    (h : commitCooldown first second cd g = some g1) :
    ActFrame g g1 ∧ g.handled = g1.handled ∧ KeepsCT g g1 ∧ g1.activated = g.activated := by
  obtain ⟨_, _, hs, heq⟩ := commitCooldown_spec h
  refine ⟨⟨?_, ?_, ⟨hs, ?_, ?_⟩⟩, ?_, ⟨?_, ?_⟩, ?_⟩ <;> (rw [heq] <;> exact rfl)

theorem handleInstantPower_spec (aenv : AvatarEnv) (replaced_id : Nat) (action : ActionData)
    (g g1 : Game) (h : handleInstantPower aenv replaced_id action g = some g1) :
    ActFrame g g1 ∧ g.handled = g1.handled ∧ (StatsKeepDead aenv → KeepsCT g g1) ∧
    timerAt g1.pc.power_cooldown_timers action.power
      = some { current := (aenv.power replaced_id).cooldown
               duration := (aenv.power replaced_id).cooldown } ∧
    timerAt g1.pc.power_cooldown_timers replaced_id
      = some { current := (aenv.power replaced_id).cooldown
               duration := (aenv.power replaced_id).cooldown } ∧
    g1.activated = (beginPower aenv replaced_id action.target g).1.activated
      ++ [(replaced_id, (beginPower aenv replaced_id action.target g).2)] := by
  unfold handleInstantPower at h
  dsimp only at h
  obtain ⟨a1, b1, c1⟩ := beginPower_frame aenv replaced_id action.target g
  obtain ⟨a2, b2, c2⟩ := powersActivate_frame aenv replaced_id
    (beginPower aenv replaced_id action.target g).2
    (beginPower aenv replaced_id action.target g).1
  obtain ⟨t1, t2, _, _⟩ := commitCooldown_spec h
  obtain ⟨a3, b3, c3, d3⟩ := commitCooldown_frame h
  exact ⟨ActFrame_trans (ActFrame_trans a1 a2) a3, (b1.trans b2).trans b3,
    fun hk => KeepsCT_trans (KeepsCT_trans (c1 hk) (c2 hk)) c3, t1, t2, d3⟩

theorem startBlock_frame (aenv : AvatarEnv) (replaced_id : Nat) (g : Game) :
    ActFrame g (startBlock aenv replaced_id g) ∧
    g.handled = (startBlock aenv replaced_id g).handled := by
  unfold startBlock
  dsimp only
  obtain ⟨a1, b1, _⟩ := beginPower_frame aenv replaced_id
    (setCurState EntityState.ENTITY_BLOCK g).pc.act_target
    (setCurState EntityState.ENTITY_BLOCK g)
  exact ⟨ActFrame_trans (ActFrame_trans ⟨rfl, rfl, ⟨rfl, rfl, rfl⟩⟩ a1)
    ⟨rfl, rfl, ⟨rfl, rfl, rfl⟩⟩, b1⟩

theorem handleBlockingPower_frame (aenv : AvatarEnv) (replaced_id : Nat) (action : ActionData)
    (g : Game) :
    ActFrame g (handleBlockingPower aenv replaced_id action g) ∧
    g.handled = (handleBlockingPower aenv replaced_id action g).handled := by
  unfold handleBlockingPower
  split
  · obtain ⟨a1, b1⟩ := startBlock_frame aenv replaced_id
      { g with pc := { g.pc with
          current_power := replaced_id
          current_power_original := action.power
          act_target := action.target
          attack_anim := (aenv.power replaced_id).attack_anim } }
    exact ⟨ActFrame_trans ⟨rfl, rfl, ⟨rfl, rfl, rfl⟩⟩ a1, b1⟩
  · exact ⟨ActFrame_refl g, rfl⟩

theorem handleStanceMovePower_frame (aenv : AvatarEnv) (replaced_id : Nat)
    (action : ActionData) (g : Game) :
    ActFrame g (handleStanceMovePower aenv replaced_id action g) ∧
    g.handled = (handleStanceMovePower aenv replaced_id action g).handled := by
  unfold handleStanceMovePower
  dsimp only
  split
  · exact ⟨⟨rfl, rfl, ⟨rfl, rfl, rfl⟩⟩, rfl⟩
  · split
    · obtain ⟨a1, b1⟩ := startBlock_frame aenv replaced_id
        { g with pc := { g.pc with
            current_power := replaced_id
            current_power_original := action.power
            act_target := action.target
            attack_anim := (aenv.power replaced_id).attack_anim
            anim := aenv.resetActiveAnimation g.pc.anim } }
      exact ⟨ActFrame_trans ⟨rfl, rfl, ⟨rfl, rfl, rfl⟩⟩ a1, b1⟩
    · exact ⟨⟨rfl, rfl, ⟨rfl, rfl, rfl⟩⟩, rfl⟩

theorem handleReplacedPower_frame (aenv : AvatarEnv) (replaced_id : Nat) (action : ActionData)
    (g g1 : Game) (h : handleReplacedPower aenv replaced_id action g = some g1) :
    ActFrame g g1 ∧ g1.handled = g.handled ++ [action] ∧
    (StatsKeepDead aenv → DeadFrame g g1) := by
  unfold handleReplacedPower at h
  dsimp only at h
  split at h
  · obtain ⟨a1, b1, c1, _⟩ := handleInstantPower_spec aenv replaced_id action _ g1 h
    exact ⟨ActFrame_trans ⟨rfl, rfl, ⟨rfl, rfl, rfl⟩⟩ a1, b1.symm,
      fun hk => KeepsCT_dead (KeepsCT_trans ⟨rfl, rfl⟩ (c1 hk))⟩
  · split at h
    · rename_i hb
      injection h with h
      subst h
      obtain ⟨a1, b1⟩ := handleBlockingPower_frame aenv replaced_id action
        { g with handled := g.handled ++ [action] }
      refine ⟨ActFrame_trans ⟨rfl, rfl, ⟨rfl, rfl, rfl⟩⟩ a1, b1.symm, ?_⟩
      intro _ hd
      rw [hd.1] at hb
      cases hb
    · split at h
      · rename_i hsm
        injection h with h
        subst h
        obtain ⟨a1, b1⟩ := handleStanceMovePower_frame aenv replaced_id action
          { g with handled := g.handled ++ [action] }
        refine ⟨ActFrame_trans ⟨rfl, rfl, ⟨rfl, rfl, rfl⟩⟩ a1, b1.symm, ?_⟩
        intro _ hd
        rw [hd.1] at hsm
        rcases hsm with hsm | hsm <;> cases hsm
      · injection h with h
        subst h
        exact ⟨⟨rfl, rfl, ⟨rfl, rfl, rfl⟩⟩, rfl, fun _ hd => hd⟩

theorem actionLoop_frame (aenv : AvatarEnv) (queue : List ActionData) (g g1 : Game)
    (h : actionLoop aenv queue g = some g1) :
    ActFrame g g1 ∧ (∃ l, g1.handled = g.handled ++ l ∧ List.Sublist l queue) ∧
    (StatsKeepDead aenv → DeadFrame g g1) := by
  induction queue generalizing g with
  | nil =>
    injection h with h
    subst h
    exact ⟨ActFrame_refl g, ⟨[], by simp, List.Sublist.refl _⟩, fun _ hd => hd⟩
  | cons action rest ih =>
    unfold actionLoop at h
    dsimp only at h
    split at h
    · obtain ⟨a1, ⟨l, hl, hsub⟩, c1⟩ := ih g h
      exact ⟨a1, ⟨l, hl, hsub.cons _⟩, c1⟩
    · cases hr : handleReplacedPower aenv (aenv.checkReplaceByEffect action.power g.pc.stats)
          action g with
      | none => simp [hr] at h
      | some g2 =>
        simp only [hr, Option.some_bind] at h
        obtain ⟨a2, b2, c2⟩ := handleReplacedPower_frame aenv _ action g g2 hr
        obtain ⟨a1, ⟨l, hl, hsub⟩, c1⟩ := ih g2 h
        refine ⟨ActFrame_trans a2 a1, ⟨action :: l, ?_, hsub.cons₂ _⟩,
          fun hk => DeadFrame_trans (c2 hk) (c1 hk)⟩
        rw [hl, b2]
        simp

theorem handleActionQueue_spec (aenv : AvatarEnv) (g g1 : Game)
    (h : handleActionQueue aenv g = some g1) :
    g1.w.cm = g.w.cm ∧ g1.pc.action_queue = [] ∧ KeepsTimers g g1 ∧
    (∃ l, g1.handled = g.handled ++ l ∧ List.Sublist l g.pc.action_queue) ∧
    (StatsKeepDead aenv → DeadFrame g g1) := by
  unfold handleActionQueue at h
  cases hl : actionLoop aenv g.pc.action_queue g with
  | none => simp [hl] at h
  | some g2 =>
    simp only [hl, Option.map_some'] at h
    injection h with h
    subst h
    obtain ⟨⟨a1, _, a3⟩, b1, c1⟩ := actionLoop_frame aenv _ g g2 hl
    exact ⟨a1, rfl, a3, b1, c1⟩

/-! ## The state handlers keep the queue, the timers and the record of handled entries -/

theorem PipeFrame_refl (g : Game) : PipeFrame g g := ⟨rfl, ⟨rfl, rfl, rfl⟩, rfl⟩

theorem PipeFrame_trans {g g1 g2 : Game} (h1 : PipeFrame g g1) (h2 : PipeFrame g1 g2) :
    PipeFrame g g2 := by
  obtain ⟨a1, ⟨b1, b2, b3⟩, d1⟩ := h1
  obtain ⟨a2, ⟨b4, b5, b6⟩, d2⟩ := h2
  exact ⟨a2.trans a1, ⟨b4.trans b1, b5.trans b2, b6.trans b3⟩, d2.trans d1⟩

theorem MoveFrame_pipe {g g1 : Game} (h : MoveFrame g g1) : PipeFrame g g1 :=
  ⟨h.1, h.2.1, h.2.2.2.1⟩

theorem ActFrame_pipe {g g1 : Game} (h : ActFrame g g1) (hh : g.handled = g1.handled) :
    PipeFrame g g1 := ⟨h.2.1, h.2.2, hh.symm⟩

theorem stanceMoveBlock_frame (aenv : AvatarEnv) (allowed_to_move : Bool) (g : Game) :
    PipeFrame g (stanceMoveBlock aenv allowed_to_move g) := by
  unfold stanceMoveBlock
  split
  · have hm := MoveFrame_pipe (Avatar_move_frame aenv g)
    dsimp only
    split
    · refine PipeFrame_trans hm ?_
      unfold setCurState
      split <;> exact ⟨rfl, ⟨rfl, rfl, rfl⟩, rfl⟩
    · exact hm
  · exact PipeFrame_refl g

theorem handleStanceState_frame (aenv : AvatarEnv) (g g1 : Game)
    (h : handleStanceState aenv g = some g1) : PipeFrame g g1 := by
  unfold handleStanceState at h
  cases ht : stanceTurn aenv g with
  | none => simp [ht] at h
  | some g2 =>
    simp only [ht, Option.map_some'] at h
    injection h with h
    subst h
    exact PipeFrame_trans (MoveFrame_pipe (stanceTurn_frame aenv g g2 ht)) (stanceMoveBlock_frame aenv _ g2)

theorem moveTransitions_frame (aenv : AvatarEnv) (g : Game) :
    PipeFrame g (moveTransitions aenv g) := by
  have hm := MoveFrame_pipe (Avatar_move_frame aenv g)
  unfold moveTransitions
  dsimp only
  repeat' (first | split | dsimp only)
  all_goals first
    | exact ⟨rfl, ⟨rfl, rfl, rfl⟩, rfl⟩
    | exact PipeFrame_trans hm ⟨rfl, ⟨rfl, rfl, rfl⟩, rfl⟩

theorem handleMoveState_frame (aenv : AvatarEnv) (g g1 : Game)
    (h : handleMoveState aenv g = some g1) : PipeFrame g g1 := by
  unfold handleMoveState at h
  dsimp only at h
  obtain ⟨g2, hs, rfl⟩ := Option.map_eq_some'.mp h
  refine PipeFrame_trans (PipeFrame_trans ?_ (MoveFrame_pipe (set_direction_frame aenv _ g2 hs)))
    (moveTransitions_frame aenv g2)
  split <;> exact ⟨rfl, ⟨rfl, rfl, rfl⟩, rfl⟩

theorem powerFirstFrame_frame (aenv : AvatarEnv) (g g1 : Game)
    (h : powerFirstFrame aenv g = some g1) : PipeFrame g g1 := by
  unfold powerFirstFrame at h
  split at h
  · dsimp only at h
    obtain ⟨a1, b1, _⟩ := beginPower_frame aenv g.pc.current_power g.pc.act_target g
    obtain ⟨t1, ht1, h⟩ := Option.bind_eq_some.mp h
    obtain ⟨t2, ht2, h⟩ := Option.bind_eq_some.mp h
    have hs1 := (timerSetDuration_spec ht1).1
    have hs2 := (timerSetDuration_spec ht2).1
    have hp : PipeFrame g
        { (beginPower aenv g.pc.current_power g.pc.act_target g).1 with
          pc := { (beginPower aenv g.pc.current_power g.pc.act_target g).1.pc with
            act_target := (beginPower aenv g.pc.current_power g.pc.act_target g).2
            power_cast_timers := t2 } } :=
      ⟨a1.2.1, ⟨a1.2.2.1, (hs2.trans hs1).trans a1.2.2.2.1, a1.2.2.2.2⟩, b1.symm⟩
    split at h
    · obtain ⟨w1, _, rfl⟩ := Option.map_eq_some'.mp h
      exact PipeFrame_trans hp ⟨rfl, ⟨rfl, rfl, rfl⟩, rfl⟩
    · injection h with h
      subst h
      exact hp
  · injection h with h
    subst h
    exact PipeFrame_refl g

theorem powerDoPower_frame (aenv : AvatarEnv) (g g1 : Game)
    (h : powerDoPower aenv g = some g1) : PipeFrame g g1 := by
  unfold powerDoPower at h
  split at h
  · dsimp only at h
    obtain ⟨g2, hc, rfl⟩ := Option.map_eq_some'.mp h
    obtain ⟨a1, b1, _⟩ := commitCooldown_frame hc
    obtain ⟨a0, b0, _⟩ := powersActivate_frame aenv g.pc.current_power g.pc.act_target g
    refine PipeFrame_trans (ActFrame_pipe (ActFrame_trans a0 a1) (b0.trans b1)) ?_
    split <;> exact ⟨rfl, ⟨rfl, rfl, rfl⟩, rfl⟩
  · injection h with h
    subst h
    exact PipeFrame_refl g

theorem powerFinish_frame (g : Game) : PipeFrame g (powerFinish g) := by
  unfold powerFinish
  split <;> exact ⟨rfl, ⟨rfl, rfl, rfl⟩, rfl⟩

theorem handlePowerState_frame (aenv : AvatarEnv) (g g1 : Game)
    (h : handlePowerState aenv g = some g1) : PipeFrame g g1 := by
  unfold handlePowerState at h
  dsimp only at h
  obtain ⟨g2, hb, rfl⟩ := Option.map_eq_some'.mp h
  refine PipeFrame_trans ?_ (powerFinish_frame g2)
  split at hb
  · obtain ⟨g3, h3, h4⟩ := Option.bind_eq_some.mp hb
    have e0 : PipeFrame g (setAnim aenv g.pc.attack_anim g) := ⟨rfl, ⟨rfl, rfl, rfl⟩, rfl⟩
    exact PipeFrame_trans e0
      (PipeFrame_trans (powerFirstFrame_frame aenv _ g3 h3) (powerDoPower_frame aenv g3 g2 h4))
  · injection hb with hb
    subst hb
    exact ⟨rfl, ⟨rfl, rfl, rfl⟩, rfl⟩

theorem handleHitState_frame (aenv : AvatarEnv) (g g1 : Game)
    (h : handleHitState aenv g = some g1) : PipeFrame g g1 := by
  unfold handleHitState at h
  dsimp only at h
  obtain ⟨g2, hb, rfl⟩ := Option.map_eq_some'.mp h
  have h2 : PipeFrame g g2 := by
    split at hb
    · split at hb
      · obtain ⟨t, ht, rfl⟩ := Option.map_eq_some'.mp hb
        exact ⟨rfl, ⟨(timerSetDuration_spec ht).1, rfl, rfl⟩, rfl⟩
      · injection hb with hb
        subst hb
        exact ⟨rfl, ⟨rfl, rfl, rfl⟩, rfl⟩
    · injection hb with hb
      subst hb
      exact ⟨rfl, ⟨rfl, rfl, rfl⟩, rfl⟩
  refine PipeFrame_trans h2 ?_
  split <;> exact ⟨rfl, ⟨rfl, rfl, rfl⟩, rfl⟩

theorem deadFirstFrame_frame (aenv : AvatarEnv) (g : Game) :
    PipeFrame g (deadFirstFrame aenv g) ∧ KeepsCT g (deadFirstFrame aenv g) := by
  unfold deadFirstFrame
  split
  · exact ⟨⟨rfl, ⟨resetTimersEnd_shape _, resetTimersEnd_shape _, rfl⟩, rfl⟩, ⟨rfl, rfl⟩⟩
  · exact ⟨PipeFrame_refl g, ⟨rfl, rfl⟩⟩

theorem handleDeadState_frame (aenv : AvatarEnv) (g : Game) :
    PipeFrame g (handleDeadState aenv g) ∧
    (g.pc.stats.transformed = false → KeepsCT g (handleDeadState aenv g)) := by
  have hpk : ∀ x : Game, PipeFrame x (deadFirstFrame aenv (setAnim aenv "die" x)) ∧
      KeepsCT x (deadFirstFrame aenv (setAnim aenv "die" x)) := by
    intro x
    obtain ⟨a, b⟩ := deadFirstFrame_frame aenv (setAnim aenv "die" x)
    exact ⟨PipeFrame_trans ⟨rfl, ⟨rfl, rfl, rfl⟩, rfl⟩ a, KeepsCT_trans ⟨rfl, rfl⟩ b⟩
  have hu : PipeFrame g (untransform aenv
      { g with pc := { g.pc with stats := { g.pc.stats with transform_duration := 0 } } }) :=
    ⟨rfl, ⟨rfl, rfl, rfl⟩, rfl⟩
  constructor
  · unfold handleDeadState
    dsimp only
    repeat' (first | split | dsimp only)
    all_goals first
      | exact PipeFrame_trans (hpk g).1 ⟨rfl, ⟨rfl, rfl, rfl⟩, rfl⟩
      | exact PipeFrame_trans (PipeFrame_trans hu (hpk _).1) ⟨rfl, ⟨rfl, rfl, rfl⟩, rfl⟩
  · intro ht
    unfold handleDeadState
    simp only [ht, Bool.false_eq_true, if_false]
    repeat' (first | split | dsimp only)
    all_goals exact KeepsCT_trans (hpk g).2 ⟨rfl, rfl⟩

theorem handleCurrentState_frame (aenv : AvatarEnv) (g g1 : Game)
    (h : handleCurrentState aenv g = some g1) :
    PipeFrame g g1 ∧ DeadFrame g g1 := by
  unfold handleCurrentState at h
  split at h
  · rename_i hs
    exact ⟨handleStanceState_frame aenv g g1 h, fun hd => by rw [hs] at hd; cases hd.1⟩
  · rename_i hs
    exact ⟨handleMoveState_frame aenv g g1 h, fun hd => by rw [hs] at hd; cases hd.1⟩
  · rename_i hs
    exact ⟨handlePowerState_frame aenv g g1 h, fun hd => by rw [hs] at hd; cases hd.1⟩
  · rename_i hs
    injection h with h
    subst h
    exact ⟨⟨rfl, ⟨rfl, rfl, rfl⟩, rfl⟩, fun hd => by rw [hs] at hd; cases hd.1⟩
  · rename_i hs
    exact ⟨handleHitState_frame aenv g g1 h, fun hd => by rw [hs] at hd; cases hd.1⟩
  · injection h with h
    subst h
    exact ⟨(handleDeadState_frame aenv g).1,
      fun hd => KeepsCT_dead ((handleDeadState_frame aenv g).2 hd.2) hd⟩

theorem handlePowerRestrictions_frame (aenv : AvatarEnv) (g : Game) :
    PipeFrame g (handlePowerRestrictions aenv g) ∧
    (handlePowerRestrictions aenv g).pc.stats = g.pc.stats ∧
    (handlePowerRestrictions aenv g).pc.respawn = g.pc.respawn ∧
    (handlePowerRestrictions aenv g).pc.transform_triggered = g.pc.transform_triggered := by
  unfold handlePowerRestrictions
  split <;> exact ⟨⟨rfl, ⟨rfl, rfl, rfl⟩, rfl⟩, rfl, rfl, rfl⟩

theorem handleBasicState_frame (aenv : AvatarEnv) (g : Game) :
    PipeFrame g (handleBasicState aenv g) := by
  unfold handleBasicState resetBlockState
  dsimp only
  repeat' (first | split | dsimp only)
  all_goals exact ⟨rfl, ⟨rfl, rfl, rfl⟩, rfl⟩

theorem handleLevelUp_frame (aenv : AvatarEnv) (g : Game) :
    PipeFrame g (handleLevelUp aenv g) := by
  unfold handleLevelUp performLevelUp
  dsimp only
  repeat' (first | split | dsimp only)
  all_goals exact ⟨rfl, ⟨rfl, rfl, rfl⟩, rfl⟩

theorem handleMouseLock_frame (aenv : AvatarEnv) (g : Game) :
    MoveFrame g (handleMouseLock aenv g) ∧ (handleMouseLock aenv g).pc.stats = g.pc.stats := by
  unfold handleMouseLock
  repeat' (first | split | dsimp only)
  all_goals exact ⟨⟨rfl, ⟨rfl, rfl, rfl⟩, ⟨rfl, rfl, rfl, rfl⟩, rfl, rfl⟩, rfl⟩

theorem updateLockedEnemy_frame (g : Game) :
    MoveFrame g (updateLockedEnemy g) ∧ (updateLockedEnemy g).pc.stats = g.pc.stats := by
  unfold updateLockedEnemy
  split
  · exact ⟨MoveFrame_refl g, rfl⟩
  · split <;> exact ⟨⟨rfl, ⟨rfl, rfl, rfl⟩, ⟨rfl, rfl, rfl, rfl⟩, rfl, rfl⟩, rfl⟩

theorem handleMouseTargeting_frame (aenv : AvatarEnv) (g : Game) :
    MoveFrame g (handleMouseTargeting aenv g) ∧
    (handleMouseTargeting aenv g).pc.stats = g.pc.stats := by
  have h1 : MoveFrame g
        (if g.inpt.pressing g.pc.mm_key = true then
          handleMouseLock aenv (updateMouseDistance aenv g) else g) ∧
      (if g.inpt.pressing g.pc.mm_key = true then
          handleMouseLock aenv (updateMouseDistance aenv g) else g).pc.stats = g.pc.stats := by
    split
    · obtain ⟨a, b⟩ := handleMouseLock_frame aenv (updateMouseDistance aenv g)
      have a0 : MoveFrame g (updateMouseDistance aenv g) :=
        ⟨rfl, ⟨rfl, rfl, rfl⟩, ⟨rfl, rfl, rfl, rfl⟩, rfl, rfl⟩
      exact ⟨MoveFrame_trans a0 a, b⟩
    · exact ⟨MoveFrame_refl g, rfl⟩
  have key : ∀ x : Game, MoveFrame g x → x.pc.stats = g.pc.stats →
      MoveFrame g
        (if ((updateLockedEnemy x).pc.teleport_camera_lock
            && aenv.cameraNear (updateLockedEnemy x).pc.stats.pos) = true then
          { updateLockedEnemy x with
            pc := { (updateLockedEnemy x).pc with teleport_camera_lock := false } }
        else updateLockedEnemy x) ∧
      (if ((updateLockedEnemy x).pc.teleport_camera_lock
            && aenv.cameraNear (updateLockedEnemy x).pc.stats.pos) = true then
          { updateLockedEnemy x with
            pc := { (updateLockedEnemy x).pc with teleport_camera_lock := false } }
        else updateLockedEnemy x).pc.stats = g.pc.stats := by
    intro x hx hs
    obtain ⟨a2, b2⟩ := updateLockedEnemy_frame x
    split
    · exact ⟨MoveFrame_trans (MoveFrame_trans hx a2)
        ⟨rfl, ⟨rfl, rfl, rfl⟩, ⟨rfl, rfl, rfl, rfl⟩, rfl, rfl⟩, b2.trans hs⟩
    · exact ⟨MoveFrame_trans hx a2, b2.trans hs⟩
  unfold handleMouseTargeting
  exact key _ h1.1 h1.2

theorem handleMouseMovement_frame (aenv : AvatarEnv) (g : Game) :
    MoveFrame g (handleMouseMovement aenv g) ∧
    (handleMouseMovement aenv g).pc.stats = g.pc.stats := by
  have key : ∀ x : Game, MoveFrame g x → x.pc.stats = g.pc.stats →
      MoveFrame g (if aenv.mouse_move = true then handleMouseTargeting aenv x else x) ∧
      (if aenv.mouse_move = true then handleMouseTargeting aenv x else x).pc.stats
        = g.pc.stats := by
    intro x hx hs
    obtain ⟨a, b⟩ := handleMouseTargeting_frame aenv x
    split
    · exact ⟨MoveFrame_trans hx a, b.trans hs⟩
    · exact ⟨hx, hs⟩
  unfold handleMouseMovement
  dsimp only
  refine key _ ?_ ?_
  · repeat' (first | split | dsimp only)
    all_goals exact ⟨rfl, ⟨rfl, rfl, rfl⟩, ⟨rfl, rfl, rfl, rfl⟩, rfl, rfl⟩
  · repeat' (first | split | dsimp only)

theorem handleAnimations_frame (aenv : AvatarEnv) (g : Game) :
    MoveFrame g (handleAnimations aenv g) ∧
    (handleAnimations aenv g).pc.stats = g.pc.stats := by
  unfold handleAnimations
  split <;> exact ⟨⟨rfl, ⟨rfl, rfl, rfl⟩, ⟨rfl, rfl, rfl, rfl⟩, rfl, rfl⟩, rfl⟩

/-- The stats after the handlers that precede `handleStateChanges` are those
after `handleLevelUp`. -/
theorem logicPrelude_stats (aenv : AvatarEnv) (g : Game) :
    (logicPrelude aenv g).pc.stats
      = (handleLevelUp aenv (handleBasicState aenv (handlePowerRestrictions aenv g))).pc.stats := by
  unfold logicPrelude handleTransformState handleLowHealthEffects
  rw [(handleAnimations_frame aenv _).2, (handleMouseMovement_frame aenv _).2]

theorem logicPrelude_frame (aenv : AvatarEnv) (g : Game) :
    PipeFrame g (logicPrelude aenv g) := by
  unfold logicPrelude handleTransformState handleLowHealthEffects
  exact PipeFrame_trans (handlePowerRestrictions_frame aenv g).1
    (PipeFrame_trans (handleBasicState_frame aenv _)
      (PipeFrame_trans (handleLevelUp_frame aenv _)
        (PipeFrame_trans (MoveFrame_pipe (handleMouseMovement_frame aenv _).1)
          (MoveFrame_pipe (handleAnimations_frame aenv _).1))))

theorem tickLoop_frame (ids : List Nat) (g g1 : Game) (h : tickLoop ids g = some g1) :
    PipeFrame g g1 ∧ g1.pc.stats = g.pc.stats := by
  induction ids generalizing g with
  | nil =>
    injection h with h
    subst h
    exact ⟨PipeFrame_refl g, rfl⟩
  | cons i rest ih =>
    unfold tickLoop at h
    obtain ⟨t1, ht1, h⟩ := Option.bind_eq_some.mp h
    obtain ⟨t2, ht2, h⟩ := Option.bind_eq_some.mp h
    obtain ⟨a, b⟩ := ih _ h
    have a0 : PipeFrame g
        { g with pc := { g.pc with power_cooldown_timers := t1, power_cast_timers := t2 } } :=
      ⟨rfl, ⟨timerTick_shape ht1, timerTick_shape ht2, rfl⟩, rfl⟩
    exact ⟨PipeFrame_trans a0 a, b⟩

theorem handleCameraAndCooldowns_frame (g g1 : Game)
    (h : handleCameraAndCooldowns g = some g1) :
    PipeFrame g g1 ∧ KeepsCT g g1 := by
  unfold handleCameraAndCooldowns at h
  obtain ⟨g2, ht, rfl⟩ := Option.map_eq_some'.mp h
  obtain ⟨a, b⟩ := tickLoop_frame _ g g2 ht
  have hk : KeepsCT g g2 := by
    unfold KeepsCT
    rw [b]
    exact ⟨rfl, rfl⟩
  dsimp only
  repeat' (first | split | dsimp only)
  all_goals exact ⟨PipeFrame_trans a ⟨rfl, ⟨rfl, rfl, rfl⟩, rfl⟩, KeepsCT_trans hk ⟨rfl, rfl⟩⟩

theorem handleStateChanges_spec (aenv : AvatarEnv) (g g1 : Game)
    (h : handleStateChanges aenv g = some g1) :
    KeepsTimers g g1 ∧
    (g.pc.stats.effects.stun = false → g1.pc.action_queue = []) ∧
    (g.pc.stats.effects.stun = true →
      g1.pc.action_queue = g.pc.action_queue ∧ g1.handled = g.handled) ∧
    (∃ l, g1.handled = g.handled ++ l ∧ List.Sublist l g.pc.action_queue) ∧
    (StatsKeepDead aenv → DeadFrame g g1) := by
  have key : ∀ x : Game, PipeFrame g x → KeepsCT g x →
      x.pc.stats.effects.stun = g.pc.stats.effects.stun →
      (if (!x.pc.stats.effects.stun) = true then
        (handleActionQueue aenv x).bind (handleCurrentState aenv) else some x) = some g1 →
      KeepsTimers g g1 ∧
      (g.pc.stats.effects.stun = false → g1.pc.action_queue = []) ∧
      (g.pc.stats.effects.stun = true →
        g1.pc.action_queue = g.pc.action_queue ∧ g1.handled = g.handled) ∧
      (∃ l, g1.handled = g.handled ++ l ∧ List.Sublist l g.pc.action_queue) ∧
      (StatsKeepDead aenv → DeadFrame g g1) := by
    intro x hx hct hstun hx1
    obtain ⟨q0, t0, d0⟩ := hx
    split at hx1
    · rename_i hns
      obtain ⟨g2, hq, hc⟩ := Option.bind_eq_some.mp hx1
      obtain ⟨_, hempty, t1, ⟨l, hl, hsub⟩, dd1⟩ := handleActionQueue_spec aenv x g2 hq
      obtain ⟨⟨q2, t2, d2⟩, dd2⟩ := handleCurrentState_frame aenv g2 g1 hc
      refine ⟨⟨(t2.1.trans t1.1).trans t0.1, (t2.2.1.trans t1.2.1).trans t0.2.1,
        (t2.2.2.trans t1.2.2).trans t0.2.2⟩, fun _ => q2.trans hempty, ?_, ?_, ?_⟩
      · intro hst
        rw [hstun, hst] at hns
        cases hns
      · refine ⟨l, ?_, ?_⟩
        · rw [d2, hl, d0]
        · have hq0 : x.pc.action_queue = g.pc.action_queue := q0
          rw [← hq0]
          exact hsub
      · intro hk
        exact DeadFrame_trans (KeepsCT_dead hct) (DeadFrame_trans (dd1 hk) dd2)
    · rename_i hns
      injection hx1 with hx1
      subst hx1
      exact ⟨t0, fun hst => absurd (by rw [hstun, hst]; rfl) hns, fun _ => ⟨q0, d0⟩,
        ⟨[], by simp [d0], List.nil_sublist _⟩, fun _ => KeepsCT_dead hct⟩
  unfold handleStateChanges at h
  dsimp only at h
  refine key _ ?_ ?_ ?_ h
  · split <;> exact ⟨rfl, ⟨rfl, rfl, rfl⟩, rfl⟩
  · split <;> exact ⟨rfl, rfl⟩
  · split <;> rfl

/-! ## When `Avatar::logic` is defined -/

theorem timerAt_of_shape {ts ts1 : List (Option Timer)}
    (h : timerShape ts1 = timerShape ts) (i : Nat) :
    (∃ t, timerAt ts i = some t) → ∃ t, timerAt ts1 i = some t := by
  intro ⟨t, ht⟩
  have hi := congrArg (fun l => l[i]?) h
  unfold timerShape at hi
  simp only [List.getElem?_map] at hi
  unfold timerAt at ht ⊢
  rw [List.get?_eq_getElem?] at ht ⊢
  cases h1 : ts[i]? with
  | none => rw [h1] at ht; cases ht
  | some o =>
    rw [h1] at ht hi
    cases o with
    | none => cases ht
    | some t0 =>
      cases h2 : ts1[i]? with
      | none => rw [h2] at hi; cases hi
      | some o1 =>
        rw [h2] at hi
        cases o1 with
        | none => simp at hi
        | some t1 => exact ⟨t1, rfl⟩

theorem TimersReady_of_keeps {aenv : AvatarEnv} {g g1 : Game} (hk : KeepsTimers g g1)
    (h : TimersReady aenv g) : TimersReady aenv g1 := fun i hi =>
  ⟨timerAt_of_shape hk.1 i (h i hi).1, timerAt_of_shape hk.2.1 i (h i hi).2⟩

theorem CoordFrame_refl (g : Game) : CoordFrame g g := ⟨rfl, rfl, rfl, rfl⟩

theorem CoordFrame_trans {g g1 g2 : Game} (h1 : CoordFrame g g1) (h2 : CoordFrame g1 g2) :
    CoordFrame g g2 :=
  ⟨h2.1.trans h1.1, h2.2.1.trans h1.2.1, h2.2.2.1.trans h1.2.2.1, h2.2.2.2.trans h1.2.2.2⟩

theorem handleMouseLock_coord (aenv : AvatarEnv) (g : Game) :
    CoordFrame g (handleMouseLock aenv g) := by
  unfold handleMouseLock
  repeat' (first | split | dsimp only)
  all_goals exact ⟨rfl, rfl, rfl, rfl⟩

theorem updateLockedEnemy_coord (g : Game) : CoordFrame g (updateLockedEnemy g) := by
  unfold updateLockedEnemy
  split
  · exact CoordFrame_refl g
  · split <;> exact ⟨rfl, rfl, rfl, rfl⟩

theorem handleMouseTargeting_coord (aenv : AvatarEnv) (g : Game) :
    CoordFrame g (handleMouseTargeting aenv g) := by
  have h1 : CoordFrame g
        (if g.inpt.pressing g.pc.mm_key = true then
          handleMouseLock aenv (updateMouseDistance aenv g) else g) := by
    split
    · have a0 : CoordFrame g (updateMouseDistance aenv g) := ⟨rfl, rfl, rfl, rfl⟩
      exact CoordFrame_trans a0 (handleMouseLock_coord aenv _)
    · exact CoordFrame_refl g
  have key : ∀ x : Game, CoordFrame g x →
      CoordFrame g
        (if ((updateLockedEnemy x).pc.teleport_camera_lock
            && aenv.cameraNear (updateLockedEnemy x).pc.stats.pos) = true then
          { updateLockedEnemy x with
            pc := { (updateLockedEnemy x).pc with teleport_camera_lock := false } }
        else updateLockedEnemy x) := by
    intro x hx
    have a2 := updateLockedEnemy_coord x
    split
    · exact CoordFrame_trans (CoordFrame_trans hx a2) ⟨rfl, rfl, rfl, rfl⟩
    · exact CoordFrame_trans hx a2
  unfold handleMouseTargeting
  exact key _ h1

theorem handleMouseMovement_coord (aenv : AvatarEnv) (g : Game) :
    CoordFrame g (handleMouseMovement aenv g) := by
  have key : ∀ x : Game, CoordFrame g x →
      CoordFrame g (if aenv.mouse_move = true then handleMouseTargeting aenv x else x) := by
    intro x hx
    split
    · exact CoordFrame_trans hx (handleMouseTargeting_coord aenv x)
    · exact hx
  unfold handleMouseMovement
  dsimp only
  refine key _ ?_
  repeat' (first | split | dsimp only)
  all_goals exact ⟨rfl, rfl, rfl, rfl⟩

theorem logicPrelude_coord (aenv : AvatarEnv) (g : Game) :
    CoordFrame g (logicPrelude aenv g) := by
  have h1 : CoordFrame g (handlePowerRestrictions aenv g) := by
    unfold handlePowerRestrictions
    split <;> exact ⟨rfl, rfl, rfl, rfl⟩
  have h2 : ∀ x, CoordFrame x (handleBasicState aenv x) := by
    intro x
    unfold handleBasicState resetBlockState
    dsimp only
    repeat' (first | split | dsimp only)
    all_goals exact ⟨rfl, rfl, rfl, rfl⟩
  have h3 : ∀ x, CoordFrame x (handleLevelUp aenv x) := by
    intro x
    unfold handleLevelUp performLevelUp
    dsimp only
    repeat' (first | split | dsimp only)
    all_goals exact ⟨rfl, rfl, rfl, rfl⟩
  have h4 : ∀ x, CoordFrame x (handleAnimations aenv x) := by
    intro x
    unfold handleAnimations
    split <;> exact ⟨rfl, rfl, rfl, rfl⟩
  unfold logicPrelude handleTransformState handleLowHealthEffects
  exact CoordFrame_trans h1 (CoordFrame_trans (h2 _) (CoordFrame_trans (h3 _)
    (CoordFrame_trans (handleMouseMovement_coord aenv _) (h4 _))))

theorem PowerPairValid_of_coord {aenv : AvatarEnv} {g g1 : Game} (hc : CoordFrame g g1)
    (h : PowerPairValid aenv g) : PowerPairValid aenv g1 := by
  unfold PowerPairValid at h ⊢
  rw [hc.2.2.1, hc.2.2.2]
  exact h

theorem chainLoop_coord (aenv : AvatarEnv) (target : FPoint) (l : List ChainPower) (g : Game) :
    CoordFrame g (chainLoop aenv target l g) := by
  induction l generalizing g with
  | nil => exact CoordFrame_refl g
  | cons cp rest ih =>
    unfold chainLoop
    split
    · dsimp only
      split
      · exact CoordFrame_trans ⟨rfl, rfl, rfl, rfl⟩ (ih _)
      · exact CoordFrame_trans ⟨rfl, rfl, rfl, rfl⟩ (ih _)
    · exact ih g

theorem beginPower_coord (aenv : AvatarEnv) (replaced_id : Nat) (target : FPoint) (g : Game) :
    CoordFrame g (beginPower aenv replaced_id target g).1 := by
  have key : ∀ (t : FPoint) (l : List ChainPower) (x : Game),
      CoordFrame g x → CoordFrame g (chainLoop aenv t l x) := fun t l x hx =>
    CoordFrame_trans hx (chainLoop_coord aenv t l x)
  unfold beginPower
  dsimp only
  apply key
  repeat' (first | split | dsimp only)
  all_goals exact ⟨rfl, rfl, rfl, rfl⟩

theorem commitCooldown_coord {first second cd : Nat} {g g1 : Game}
    (h : commitCooldown first second cd g = some g1) : CoordFrame g g1 := by
  obtain ⟨_, _, _, heq⟩ := commitCooldown_spec h
  refine ⟨?_, ?_, ?_, ?_⟩ <;> rw [heq]

theorem startBlock_coord (aenv : AvatarEnv) (replaced_id : Nat) (g : Game) :
    CoordFrame g (startBlock aenv replaced_id g) := by
  unfold startBlock
  dsimp only
  have a1 := beginPower_coord aenv replaced_id
    (setCurState EntityState.ENTITY_BLOCK g).pc.act_target
    (setCurState EntityState.ENTITY_BLOCK g)
  have a0 : CoordFrame g (setCurState EntityState.ENTITY_BLOCK g) := ⟨rfl, rfl, rfl, rfl⟩
  exact CoordFrame_trans (CoordFrame_trans a0 a1) ⟨rfl, rfl, rfl, rfl⟩

theorem handleInstantPower_defined (aenv : AvatarEnv) (replaced_id : Nat)
    (action : ActionData) (g : Game) (hT : TimersReady aenv g)
    (hA : aenv.isValid action.power = true) (hB : aenv.isValid replaced_id = true) :
    ∃ g1, handleInstantPower aenv replaced_id action g = some g1 ∧ CoordFrame g g1 := by
  unfold handleInstantPower
  dsimp only
  obtain ⟨a1, _, _⟩ := beginPower_frame aenv replaced_id action.target g
  obtain ⟨a2, _, _⟩ := powersActivate_frame aenv replaced_id
    (beginPower aenv replaced_id action.target g).2
    (beginPower aenv replaced_id action.target g).1
  have hT1 := TimersReady_of_keeps (ActFrame_trans a1 a2).2.2 hT
  obtain ⟨t1, ht1⟩ := (hT1 _ hA).1
  obtain ⟨t2, ht2⟩ := (hT1 _ hB).1
  obtain ⟨g1, hg1⟩ := commitCooldown_isSome (aenv.power replaced_id).cooldown ht1 ht2
  have c0 : CoordFrame (beginPower aenv replaced_id action.target g).1
      (powersActivate aenv replaced_id (beginPower aenv replaced_id action.target g).2
        (beginPower aenv replaced_id action.target g).1) := ⟨rfl, rfl, rfl, rfl⟩
  exact ⟨g1, hg1, CoordFrame_trans (CoordFrame_trans (beginPower_coord aenv _ _ g) c0)
    (commitCooldown_coord hg1)⟩

theorem handleReplacedPower_defined (aenv : AvatarEnv) (replaced_id : Nat)
    (action : ActionData) (g : Game) (hT : TimersReady aenv g)
    (hA : aenv.isValid action.power = true) (hB : aenv.isValid replaced_id = true)
    (hP : PowerPairValid aenv g) :
    ∃ g1, handleReplacedPower aenv replaced_id action g = some g1 ∧
      g1.combat_manager = g.combat_manager ∧ PowerPairValid aenv g1 := by
  have hpair : ∀ x : Game, x.pc.current_power_original = action.power →
      PowerPairValid aenv x := by
    intro x hx _
    rw [hx]
    exact hA
  unfold handleReplacedPower
  dsimp only
  split
  · obtain ⟨g1, hg1, hc⟩ := handleInstantPower_defined aenv replaced_id action
      { g with handled := g.handled ++ [action] } hT hA hB
    have hP0 : PowerPairValid aenv { g with handled := g.handled ++ [action] } := hP
    exact ⟨g1, hg1, hc.1, PowerPairValid_of_coord hc hP0⟩
  · split
    · refine ⟨_, rfl, ?_, ?_⟩
      · unfold handleBlockingPower
        split
        · exact (startBlock_coord aenv replaced_id _).1
        · rfl
      · unfold handleBlockingPower
        split
        · exact hpair _ (startBlock_coord aenv replaced_id _).2.2.2
        · exact hP
    · split
      · refine ⟨_, rfl, ?_, ?_⟩
        · unfold handleStanceMovePower
          dsimp only
          split
          · rfl
          · split
            · exact (startBlock_coord aenv replaced_id _).1
            · rfl
        · unfold handleStanceMovePower
          dsimp only
          split
          · exact hpair _ rfl
          · split
            · exact hpair _ (startBlock_coord aenv replaced_id _).2.2.2
            · exact hpair _ rfl
      · exact ⟨_, rfl, rfl, hP⟩

theorem actionLoop_defined (aenv : AvatarEnv) (hR : ReplaceValid aenv)
    (queue : List ActionData) (g : Game) (hT : TimersReady aenv g)
    (hQ : ∀ a, a ∈ queue → aenv.isValid a.power = true) (hP : PowerPairValid aenv g) :
    ∃ g1, actionLoop aenv queue g = some g1 ∧
      g1.combat_manager = g.combat_manager ∧ PowerPairValid aenv g1 := by
  induction queue generalizing g with
  | nil => exact ⟨g, rfl, rfl, hP⟩
  | cons action rest ih =>
    have hQ1 : ∀ a, a ∈ rest → aenv.isValid a.power = true := fun a ha =>
      hQ a (List.mem_cons_of_mem _ ha)
    have hA := hQ action (List.mem_cons_self _ _)
    unfold actionLoop
    dsimp only
    split
    · exact ih g hT hQ1 hP
    · rename_i hne
      have hB : aenv.isValid (aenv.checkReplaceByEffect action.power g.pc.stats) = true := by
        rcases hR action.power g.pc.stats hA with h0 | h1
        · exact absurd h0 hne
        · exact h1
      obtain ⟨g2, hg2, hc2, hp2⟩ := handleReplacedPower_defined aenv _ action g hT hA hB hP
      obtain ⟨a2, _, _⟩ := handleReplacedPower_frame aenv _ action g g2 hg2
      obtain ⟨g3, hg3, hc3, hp3⟩ := ih g2 (TimersReady_of_keeps a2.2.2 hT) hQ1 hp2
      refine ⟨g3, ?_, hc3.trans hc2, hp3⟩
      rw [hg2]
      exact hg3

theorem spendAction_defined (w : World) (h : w.cm.initiative_order ≠ []) :
    ∃ w1, spendAction w = some w1 := by
  unfold spendAction
  dsimp only
  split
  · exact nextTurn_isSome _ h
  · exact ⟨_, rfl⟩

theorem handleMouseClick_defined (aenv : AvatarEnv) (g : Game)
    (hcm : g.combat_manager = true) (ho : g.w.cm.initiative_order ≠ []) :
    ∃ r, handleMouseClick aenv g = some r := by
  unfold handleMouseClick
  split
  · dsimp only
    split
    · simp only [hcm, Bool.not_true, Bool.false_eq_true, if_false]
      split
      · exact ⟨_, rfl⟩
      · obtain ⟨w1, hw1⟩ := spendAction_defined g.w ho
        rw [hw1]
        exact ⟨_, rfl⟩
    · exact ⟨_, rfl⟩
  · exact ⟨_, rfl⟩

theorem set_direction_defined (aenv : AvatarEnv) (g : Game)
    (hcm : g.combat_manager = true) (ho : g.w.cm.initiative_order ≠ []) :
    ∃ g1, set_direction aenv g = some g1 := by
  unfold set_direction
  split
  · exact ⟨_, rfl⟩
  · dsimp only
    split
    · unfold handleMouseMoveDirection
      split
      · exact ⟨_, rfl⟩
      · obtain ⟨r, hr⟩ := handleMouseClick_defined aenv g hcm ho
        rw [hr]
        exact ⟨_, rfl⟩
    · exact ⟨_, rfl⟩

theorem stanceTurn_defined (aenv : AvatarEnv) (g : Game)
    (hcm : g.combat_manager = true) (ho : g.w.cm.initiative_order ≠ []) :
    ∃ g1, stanceTurn aenv g = some g1 := by
  unfold stanceTurn
  dsimp only
  split
  · apply set_direction_defined
    · split <;> exact hcm
    · split <;> exact ho
  · exact ⟨_, rfl⟩

theorem handleMoveState_defined (aenv : AvatarEnv) (g : Game)
    (hcm : g.combat_manager = true) (ho : g.w.cm.initiative_order ≠ []) :
    ∃ g1, handleMoveState aenv g = some g1 := by
  unfold handleMoveState
  dsimp only
  have key : ∀ x : Game, x.combat_manager = true → x.w.cm.initiative_order ≠ [] →
      ∃ g1, (set_direction aenv x).map (moveTransitions aenv) = some g1 := by
    intro x h1 h2
    obtain ⟨g2, hg2⟩ := set_direction_defined aenv x h1 h2
    rw [hg2]
    exact ⟨_, rfl⟩
  apply key
  · split <;> exact hcm
  · split <;> exact ho

theorem powerFirstFrame_defined (aenv : AvatarEnv) (g : Game)
    (ho : g.w.cm.initiative_order ≠ []) (hT : TimersReady aenv g)
    (hv : aenv.isValid g.pc.current_power = true)
    (hvo : aenv.isValid g.pc.current_power_original = true) :
    ∃ g1, powerFirstFrame aenv g = some g1 ∧ g1.pc.current_power = g.pc.current_power ∧
      g1.pc.current_power_original = g.pc.current_power_original := by
  unfold powerFirstFrame
  split
  · dsimp only
    obtain ⟨a1, _, _⟩ := beginPower_frame aenv g.pc.current_power g.pc.act_target g
    have c1 := beginPower_coord aenv g.pc.current_power g.pc.act_target g
    have hT1 := TimersReady_of_keeps a1.2.2 hT
    rw [c1.2.2.1, c1.2.2.2]
    obtain ⟨t1, ht1⟩ := (hT1 _ hv).2
    obtain ⟨ts1, hts1⟩ := timerSetDuration_isSome
      (beginPower aenv g.pc.current_power g.pc.act_target g).1.pc.anim.duration ht1
    obtain ⟨t2, ht2⟩ := timerAt_of_shape (timerSetDuration_spec hts1).1 _ (hT1 _ hvo).2
    obtain ⟨ts2, hts2⟩ := timerSetDuration_isSome
      (beginPower aenv g.pc.current_power g.pc.act_target g).1.pc.anim.duration ht2
    rw [hts1]
    simp only [Option.some_bind]
    rw [hts2]
    simp only [Option.some_bind]
    split
    · have ho1 : (beginPower aenv g.pc.current_power g.pc.act_target g).1.w.cm.initiative_order
          ≠ [] := by
        rw [c1.2.1]
        exact ho
      obtain ⟨w1, hw1⟩ := spendAction_defined _ ho1
      rw [hw1]
      exact ⟨_, rfl, rfl, rfl⟩
    · exact ⟨_, rfl, rfl, rfl⟩
  · exact ⟨g, rfl, rfl, rfl⟩

theorem powerDoPower_defined (aenv : AvatarEnv) (g : Game) (hT : TimersReady aenv g)
    (hv : aenv.isValid g.pc.current_power = true)
    (hvo : aenv.isValid g.pc.current_power_original = true) :
    ∃ g1, powerDoPower aenv g = some g1 := by
  unfold powerDoPower
  split
  · dsimp only
    obtain ⟨a1, _, _⟩ := powersActivate_frame aenv g.pc.current_power g.pc.act_target g
    have hT1 := TimersReady_of_keeps a1.2.2 hT
    have hv1 : aenv.isValid
        (powersActivate aenv g.pc.current_power g.pc.act_target g).pc.current_power = true := hv
    have hvo1 : aenv.isValid
        (powersActivate aenv g.pc.current_power g.pc.act_target g).pc.current_power_original
          = true := hvo
    obtain ⟨t1, ht1⟩ := (hT1 _ hv1).1
    obtain ⟨t2, ht2⟩ := (hT1 _ hvo1).1
    obtain ⟨g1, hg1⟩ := commitCooldown_isSome
      (aenv.power (powersActivate aenv g.pc.current_power g.pc.act_target g).pc.current_power).cooldown
      ht1 ht2
    rw [hg1]
    exact ⟨_, rfl⟩
  · exact ⟨g, rfl⟩

theorem handlePowerState_defined (aenv : AvatarEnv) (g : Game)
    (ho : g.w.cm.initiative_order ≠ []) (hT : TimersReady aenv g)
    (hP : PowerPairValid aenv g) :
    ∃ g1, handlePowerState aenv g = some g1 := by
  unfold handlePowerState
  dsimp only
  split
  · rename_i hv
    have hv0 : aenv.isValid g.pc.current_power = true := hv
    have hT0 : TimersReady aenv (setAnim aenv g.pc.attack_anim g) := hT
    obtain ⟨g1, hg1, e1, e2⟩ := powerFirstFrame_defined aenv
      (setAnim aenv g.pc.attack_anim g) ho hT0 hv0 (hP hv0)
    have hT1 := TimersReady_of_keeps (powerFirstFrame_frame aenv _ g1 hg1).2.1 hT0
    obtain ⟨g2, hg2⟩ := powerDoPower_defined aenv g1 hT1 (by rw [e1]; exact hv0)
      (by rw [e2]; exact hP hv0)
    rw [hg1]
    simp only [Option.some_bind]
    rw [hg2]
    exact ⟨_, rfl⟩
  · exact ⟨_, rfl⟩

theorem handleHitState_defined (aenv : AvatarEnv) (g : Game) (hT : TimersReady aenv g) :
    ∃ g1, handleHitState aenv g = some g1 := by
  unfold handleHitState
  dsimp only
  split
  · split
    · rename_i hv
      obtain ⟨t, ht⟩ : ∃ t, timerAt (setAnim aenv "hit" g).pc.power_cooldown_timers
          (setAnim aenv "hit" g).pc.stats.block_power = some t := (hT _ hv).1
      obtain ⟨ts, hts⟩ := timerSetDuration_isSome
        (aenv.power (setAnim aenv "hit" g).pc.stats.block_power).cooldown ht
      rw [hts]
      exact ⟨_, rfl⟩
    · exact ⟨_, rfl⟩
  · exact ⟨_, rfl⟩

theorem handleCurrentState_defined (aenv : AvatarEnv) (g : Game)
    (hcm : g.combat_manager = true) (ho : g.w.cm.initiative_order ≠ [])
    (hT : TimersReady aenv g) (hP : PowerPairValid aenv g) :
    ∃ g1, handleCurrentState aenv g = some g1 := by
  unfold handleCurrentState
  split
  · unfold handleStanceState
    obtain ⟨g1, hg1⟩ := stanceTurn_defined aenv g hcm ho
    rw [hg1]
    exact ⟨_, rfl⟩
  · exact handleMoveState_defined aenv g hcm ho
  · exact handlePowerState_defined aenv g ho hT hP
  · exact ⟨_, rfl⟩
  · exact handleHitState_defined aenv g hT
  · exact ⟨_, rfl⟩

theorem tickLoop_defined (aenv : AvatarEnv) (ids : List Nat) (g : Game)
    (hT : TimersReady aenv g) (hI : ∀ i, i ∈ ids → aenv.isValid i = true) :
    ∃ g1, tickLoop ids g = some g1 := by
  induction ids generalizing g with
  | nil => exact ⟨g, rfl⟩
  | cons i rest ih =>
    unfold tickLoop
    obtain ⟨⟨t1, ht1⟩, ⟨t2, ht2⟩⟩ := hT i (hI i (List.mem_cons_self _ _))
    have e1 : timerTick g.pc.power_cooldown_timers i
        = some (g.pc.power_cooldown_timers.set i (some t1.tick)) := by
      unfold timerTick
      rw [ht1]
    have e2 : timerTick g.pc.power_cast_timers i
        = some (g.pc.power_cast_timers.set i (some t2.tick)) := by
      unfold timerTick
      rw [ht2]
    rw [e1, e2]
    simp only [Option.some_bind]
    apply ih
    · exact TimersReady_of_keeps ⟨timerTick_shape e1, timerTick_shape e2, rfl⟩ hT
    · exact fun j hj => hI j (List.mem_cons_of_mem _ hj)

theorem handleStateChanges_defined (aenv : AvatarEnv) (g : Game)
    (hcm : g.combat_manager = true) (ho : g.w.cm.initiative_order ≠ [])
    (hT : TimersReady aenv g)
    (hQ : ∀ a, a ∈ g.pc.action_queue → aenv.isValid a.power = true)
    (hR : ReplaceValid aenv) (hP : PowerPairValid aenv g) :
    ∃ g1, handleStateChanges aenv g = some g1 := by
  have key : ∀ x : Game, x.combat_manager = true → x.w.cm.initiative_order ≠ [] →
      TimersReady aenv x → (∀ a, a ∈ x.pc.action_queue → aenv.isValid a.power = true) →
      PowerPairValid aenv x →
      ∃ g1, (if (!x.pc.stats.effects.stun) = true then
        (handleActionQueue aenv x).bind (handleCurrentState aenv) else some x) = some g1 := by
    intro x h1 h2 h3 h4 h5
    split
    · obtain ⟨g3, hg3, hc3, hp3⟩ := actionLoop_defined aenv hR x.pc.action_queue x h3 h4 h5
      obtain ⟨a3, _, _⟩ := actionLoop_frame aenv _ x g3 hg3
      have hcm3 : ({ g3 with pc := { g3.pc with action_queue := [] } } : Game).combat_manager
          = true := hc3.trans h1
      have ho3 : ({ g3 with pc := { g3.pc with action_queue := [] } } : Game).w.cm.initiative_order
          ≠ [] := by
        show g3.w.cm.initiative_order ≠ []
        rw [a3.1]
        exact h2
      have hT3 : TimersReady aenv { g3 with pc := { g3.pc with action_queue := [] } } :=
        TimersReady_of_keeps a3.2.2 h3
      obtain ⟨g4, hg4⟩ := handleCurrentState_defined aenv _ hcm3 ho3 hT3 hp3
      unfold handleActionQueue
      rw [hg3]
      exact ⟨g4, hg4⟩
    · exact ⟨x, rfl⟩
  unfold handleStateChanges
  dsimp only
  apply key
  · split <;> exact hcm
  · split <;> exact ho
  · split <;> exact hT
  · split <;> exact hQ
  · split <;> exact hP

theorem handleCameraAndCooldowns_defined (aenv : AvatarEnv) (g : Game)
    (hT : TimersReady aenv g) (hI : ∀ i, i ∈ g.pc.power_cooldown_ids → aenv.isValid i = true) :
    ∃ g1, handleCameraAndCooldowns g = some g1 := by
  unfold handleCameraAndCooldowns
  obtain ⟨g1, hg1⟩ := tickLoop_defined aenv _ g hT hI
  rw [hg1]
  exact ⟨_, rfl⟩

theorem Avatar_logic_defined (aenv : AvatarEnv) (g : Game) (h : LogicReady aenv g) :
    ∃ g1, Avatar.logic aenv g = some g1 := by
  obtain ⟨hcm, ho, hT, hI, hQ, hR, hP⟩ := h
  obtain ⟨pq, pt, _⟩ := logicPrelude_frame aenv g
  have pc := logicPrelude_coord aenv g
  have hq : (logicPrelude aenv g).pc.action_queue = g.pc.action_queue := pq
  obtain ⟨g1, hg1⟩ := handleStateChanges_defined aenv (logicPrelude aenv g)
    (pc.1.trans hcm) (by rw [pc.2.1]; exact ho) (TimersReady_of_keeps pt hT)
    (by rw [hq]; exact hQ) hR (PowerPairValid_of_coord pc hP)
  obtain ⟨st, _, _, _, _⟩ := handleStateChanges_spec aenv _ g1 hg1
  have hk : KeepsTimers g g1 :=
    ⟨st.1.trans pt.1, st.2.1.trans pt.2.1, st.2.2.trans pt.2.2⟩
  obtain ⟨g2, hg2⟩ := handleCameraAndCooldowns_defined aenv g1 (TimersReady_of_keeps hk hT)
    (by rw [hk.2.2]; exact hI)
  unfold Avatar.logic
  rw [hg1]
  exact ⟨g2, hg2⟩

theorem Avatar_logic_spec (aenv : AvatarEnv) (g g1 : Game)
    (h : Avatar.logic aenv g = some g1) :
    KeepsTimers g g1 ∧
    ((logicPrelude aenv g).pc.stats.effects.stun = false → g1.pc.action_queue = []) ∧
    ((logicPrelude aenv g).pc.stats.effects.stun = true →
      g1.pc.action_queue = g.pc.action_queue ∧ g1.handled = g.handled) ∧
    (∃ l, g1.handled = g.handled ++ l ∧ List.Sublist l g.pc.action_queue) ∧
    (StatsKeepDead aenv → DeadFrame (logicPrelude aenv g) g1) := by
  unfold Avatar.logic at h
  obtain ⟨g2, h2, h3⟩ := Option.bind_eq_some.mp h
  obtain ⟨pq, pt, pd⟩ := logicPrelude_frame aenv g
  have hq : (logicPrelude aenv g).pc.action_queue = g.pc.action_queue := pq
  obtain ⟨st, s1, s2, ⟨l, hl, hsub⟩, s4⟩ := handleStateChanges_spec aenv _ g2 h2
  obtain ⟨⟨cq, ct, cd⟩, ck⟩ := handleCameraAndCooldowns_frame g2 g1 h3
  have cq1 : g1.pc.action_queue = g2.pc.action_queue := cq
  refine ⟨⟨(ct.1.trans st.1).trans pt.1, (ct.2.1.trans st.2.1).trans pt.2.1,
    (ct.2.2.trans st.2.2).trans pt.2.2⟩, ?_, ?_, ?_, ?_⟩
  · intro hs
    rw [cq1]
    exact s1 hs
  · intro hs
    obtain ⟨a, b⟩ := s2 hs
    exact ⟨(cq1.trans a).trans hq, (cd.trans b).trans pd⟩
  · refine ⟨l, ?_, ?_⟩
    · rw [cd, hl, pd]
    · rw [← hq]
      exact hsub
  · intro hk
    exact DeadFrame_trans (s4 hk) (KeepsCT_dead ck)

/-! ## The action queue and the turn -/

theorem handleInstantPower_isSome (aenv : AvatarEnv) (B : Nat) (action : ActionData) (g : Game)
    (hA : (timerAt g.pc.power_cooldown_timers action.power).isSome = true)
    (hB : (timerAt g.pc.power_cooldown_timers B).isSome = true) :
    ∃ g1, handleInstantPower aenv B action g = some g1 := by
  unfold handleInstantPower
  dsimp only
  obtain ⟨a1, _, _⟩ := beginPower_frame aenv B action.target g
  obtain ⟨a2, _, _⟩ := powersActivate_frame aenv B
    (beginPower aenv B action.target g).2 (beginPower aenv B action.target g).1
  have hk := (ActFrame_trans a1 a2).2.2.1
  obtain ⟨t1, ht1⟩ := timerAt_of_shape hk _ (Option.isSome_iff_exists.mp hA)
  obtain ⟨t2, ht2⟩ := timerAt_of_shape hk _ (Option.isSome_iff_exists.mp hB)
  exact commitCooldown_isSome (aenv.power B).cooldown ht1 ht2

/-- C15 (counterexample): in combat, at the enemy's turn, a queued instant power
is activated and a queued attack power puts the avatar into the POWER state with
`current_power` set. -/
theorem queue_consumed_off_turn :
    (offTurnQueueGame 1).pc.stats.in_combat = true ∧
    isPlayerTurn (offTurnQueueGame 1).w = false ∧
    (offTurnQueueGame 1).activated = [] ∧
    (handleActionQueue exampleAvatarEnv (offTurnQueueGame 1)).map (fun g => g.activated)
      = some [(2, ⟨6, 0⟩)] ∧
    (offTurnQueueGame 3).pc.stats.cur_state = EntityState.ENTITY_STANCE ∧
    (offTurnQueueGame 3).pc.current_power = 0 ∧
    (handleActionQueue exampleAvatarEnv (offTurnQueueGame 3)).map
        (fun g => (g.pc.stats.cur_state, g.pc.current_power))
      = some (EntityState.ENTITY_POWER, 3) := by
  decide

/-- C15 (amended): `handleActionQueue` consults the coordinator nowhere. Whatever
the turn, it leaves the coordinator (and so `actions_remaining`) as it was; an
entry whose resolved power B is non-zero is handed to `handleReplacedPower`; there
an instant B is activated when the cooldown timers of A and B exist, and an attack
B met in STANCE or MOVE sets `cur_state` to POWER, `current_power` to B and
`current_power_original` to A. -/
theorem queue_processed_without_turn_check (aenv : AvatarEnv) (g : Game)
    (action : ActionData) (B : Nat) :
    (∀ g1, handleActionQueue aenv g = some g1 → g1.w.cm = g.w.cm) ∧
    (∀ rest, aenv.checkReplaceByEffect action.power g.pc.stats = B → B ≠ 0 →
      actionLoop aenv (action :: rest) g
        = (handleReplacedPower aenv B action g).bind (actionLoop aenv rest)) ∧
    ((aenv.power B).new_state = PowerNewState.STATE_INSTANT →
      (timerAt g.pc.power_cooldown_timers action.power).isSome = true →
      (timerAt g.pc.power_cooldown_timers B).isSome = true →
      ∃ g1 t, handleReplacedPower aenv B action g = some g1 ∧ (B, t) ∈ g1.activated) ∧
    ((aenv.power B).new_state = PowerNewState.STATE_ATTACK →
      (g.pc.stats.cur_state = EntityState.ENTITY_STANCE
        ∨ g.pc.stats.cur_state = EntityState.ENTITY_MOVE) →
      ∃ g1, handleReplacedPower aenv B action g = some g1 ∧
        g1.pc.stats.cur_state = EntityState.ENTITY_POWER ∧ g1.pc.current_power = B ∧
        g1.pc.current_power_original = action.power) := by
  refine ⟨fun g1 h => (handleActionQueue_spec aenv g g1 h).1, ?_, ?_, ?_⟩
  · intro rest hB hne
    subst hB
    rw [actionLoop, if_neg hne]
  · intro hi hA hB
    obtain ⟨g1, hg1⟩ := handleInstantPower_isSome aenv B action
      { g with handled := g.handled ++ [action] } hA hB
    obtain ⟨_, _, _, _, _, hact⟩ := handleInstantPower_spec aenv B action _ g1 hg1
    refine ⟨g1, (beginPower aenv B action.target
      { g with handled := g.handled ++ [action] }).2, ?_, ?_⟩
    · unfold handleReplacedPower
      dsimp only
      rw [if_pos hi]
      exact hg1
    · rw [hact]
      exact List.mem_append_right _ (List.mem_singleton.mpr rfl)
  · intro ha hs
    have hni : ¬ (aenv.power B).new_state = PowerNewState.STATE_INSTANT := by
      rw [ha]
      decide
    have hnb : ¬ g.pc.stats.cur_state = EntityState.ENTITY_BLOCK := by
      rcases hs with h | h <;> rw [h] <;> decide
    refine ⟨handleStanceMovePower aenv B action { g with handled := g.handled ++ [action] },
      ?_, ?_, ?_, ?_⟩
    · unfold handleReplacedPower
      dsimp only
      rw [if_neg hni, if_neg hnb, if_pos hs]
    · unfold handleStanceMovePower
      dsimp only
      rw [if_pos ha]
    · unfold handleStanceMovePower
      dsimp only
      rw [if_pos ha]
    · unfold handleStanceMovePower
      dsimp only
      rw [if_pos ha]

/-- Witness of C15 as amended: at the enemy's turn the queued instant power 1,
replaced by power 2, is activated, and the queued attack power 3 puts the avatar
into the POWER state. -/
theorem queue_processed_without_turn_check_witness :
    isPlayerTurn (offTurnQueueGame 1).w = false ∧
    (∃ g1 t, handleReplacedPower exampleAvatarEnv 2 (exampleAction 1) (offTurnQueueGame 1)
        = some g1 ∧ (2, t) ∈ g1.activated) ∧
    (∃ g1, handleReplacedPower exampleAvatarEnv 3 (exampleAction 3) (offTurnQueueGame 3)
        = some g1 ∧
      g1.pc.stats.cur_state = EntityState.ENTITY_POWER ∧ g1.pc.current_power = 3 ∧
      g1.pc.current_power_original = (exampleAction 3).power) :=
  ⟨by decide,
    (queue_processed_without_turn_check exampleAvatarEnv (offTurnQueueGame 1)
      (exampleAction 1) 2).2.2.1 (by decide) (by decide) (by decide),
    (queue_processed_without_turn_check exampleAvatarEnv (offTurnQueueGame 3)
      (exampleAction 3) 3).2.2.2 (by decide) (Or.inl (by decide))⟩

/-! ## Cooldown under replacement -/

/-- C17: when the cooldown timers of the requested power A and of the power B
that replaces it exist, `handleInstantPower` activates B and leaves both timers
set to the cooldown of B, and so does the activation block of the POWER state
(`current_power` = B, `current_power_original` = A) on the active frame; the
cooldown timers after `handlePowerState` are those left by that block. -/
theorem cooldown_committed_to_both (aenv : AvatarEnv) (g : Game) (A B : Nat)
    (hA : (timerAt g.pc.power_cooldown_timers A).isSome = true)
    (hB : (timerAt g.pc.power_cooldown_timers B).isSome = true) :
    (∀ action : ActionData, action.power = A →
      ∃ g1 t, handleInstantPower aenv B action g = some g1 ∧ (B, t) ∈ g1.activated ∧
        timerAt g1.pc.power_cooldown_timers A
          = some { current := (aenv.power B).cooldown, duration := (aenv.power B).cooldown } ∧
        timerAt g1.pc.power_cooldown_timers B
          = some { current := (aenv.power B).cooldown, duration := (aenv.power B).cooldown }) ∧
    (g.pc.current_power = B → g.pc.current_power_original = A →
      g.pc.anim.active_frame = true → g.pc.stats.hold_state = false →
      ∃ g1, powerDoPower aenv g = some g1 ∧ (B, g.pc.act_target) ∈ g1.activated ∧
        timerAt g1.pc.power_cooldown_timers A
          = some { current := (aenv.power B).cooldown, duration := (aenv.power B).cooldown } ∧
        timerAt g1.pc.power_cooldown_timers B
          = some { current := (aenv.power B).cooldown, duration := (aenv.power B).cooldown }) ∧
    (∀ g1, handlePowerState aenv g = some g1 → aenv.isValid g.pc.current_power = true →
      ∃ g2 g3, powerFirstFrame aenv (setAnim aenv g.pc.attack_anim g) = some g2 ∧
        powerDoPower aenv g2 = some g3 ∧
        g1.pc.power_cooldown_timers = g3.pc.power_cooldown_timers) := by
  refine ⟨?_, ?_, ?_⟩
  · intro action hp
    subst hp
    obtain ⟨g1, hg1⟩ := handleInstantPower_isSome aenv B action g hA hB
    obtain ⟨_, _, _, t1, t2, hact⟩ := handleInstantPower_spec aenv B action g g1 hg1
    refine ⟨g1, (beginPower aenv B action.target g).2, hg1, ?_, t1, t2⟩
    rw [hact]
    exact List.mem_append_right _ (List.mem_singleton.mpr rfl)
  · intro hcp hcpo haf hhs
    subst hcp
    subst hcpo
    obtain ⟨t1, ht1⟩ := Option.isSome_iff_exists.mp hB
    obtain ⟨t2, ht2⟩ := Option.isSome_iff_exists.mp hA
    have ht1a : timerAt (powersActivate aenv g.pc.current_power g.pc.act_target g).pc.power_cooldown_timers
        (powersActivate aenv g.pc.current_power g.pc.act_target g).pc.current_power = some t1 := ht1
    have ht2a : timerAt (powersActivate aenv g.pc.current_power g.pc.act_target g).pc.power_cooldown_timers
        (powersActivate aenv g.pc.current_power g.pc.act_target g).pc.current_power_original
          = some t2 := ht2
    obtain ⟨g2, hg2⟩ := commitCooldown_isSome
      (aenv.power (powersActivate aenv g.pc.current_power g.pc.act_target g).pc.current_power).cooldown
      ht1a ht2a
    obtain ⟨s1, s2, _, _⟩ := commitCooldown_spec hg2
    obtain ⟨_, _, _, hact⟩ := commitCooldown_frame hg2
    have hmem : (g.pc.current_power, g.pc.act_target) ∈ g2.activated := by
      rw [hact]
      exact List.mem_append_right _ (List.mem_singleton.mpr rfl)
    unfold powerDoPower
    simp only [haf, hhs, Bool.not_false, Bool.and_self, if_true]
    rw [hg2]
    simp only [Option.map_some']
    refine ⟨_, rfl, ?_, ?_, ?_⟩
    · split <;> exact hmem
    · split <;> exact s2
    · split <;> exact s1
  · intro g1 h hv
    unfold handlePowerState at h
    dsimp only at h
    obtain ⟨g3, hb, rfl⟩ := Option.map_eq_some'.mp h
    have hv0 : aenv.isValid (setAnim aenv g.pc.attack_anim g).pc.current_power = true := hv
    rw [if_pos hv0] at hb
    obtain ⟨g2, h2, h3⟩ := Option.bind_eq_some.mp hb
    refine ⟨g2, g3, h2, h3, ?_⟩
    unfold powerFinish
    split <;> rfl

/-- Witness of C17 (Scenario D): power 1 is replaced by power 2, whose cooldown is
30; after the instant activation the timers of 1 and 2 both stand at 30. -/
theorem cooldown_committed_to_both_witness :
    (exampleAvatarEnv.power 2).cooldown = 30 ∧
    exampleAvatarEnv.checkReplaceByEffect 1 (exampleGame 2).pc.stats = 2 ∧
    ∃ g1 t, handleInstantPower exampleAvatarEnv 2 (exampleAction 1) (exampleGame 2) = some g1 ∧
      (2, t) ∈ g1.activated ∧
      timerAt g1.pc.power_cooldown_timers 1
        = some { current := (exampleAvatarEnv.power 2).cooldown
                 duration := (exampleAvatarEnv.power 2).cooldown } ∧
      timerAt g1.pc.power_cooldown_timers 2
        = some { current := (exampleAvatarEnv.power 2).cooldown
                 duration := (exampleAvatarEnv.power 2).cooldown } :=
  ⟨by decide, by decide,
    (cooldown_committed_to_both exampleAvatarEnv (exampleGame 2) 1 2 (by decide) (by decide)).1
      (exampleAction 1) rfl⟩

/-! ## Consumption of the action queue -/

theorem exampleAvatarEnv_valid (i : Nat) (h : exampleAvatarEnv.isValid i = true) :
    i = 1 ∨ i = 2 ∨ i = 3 := by
  have h1 : decide (i = 1 ∨ i = 2 ∨ i = 3) = true := h
  exact of_decide_eq_true h1

theorem exampleAvatarEnv_replace : ReplaceValid exampleAvatarEnv := by
  intro i s hi
  rcases exampleAvatarEnv_valid i hi with h | h | h <;> subst h <;> exact Or.inr rfl

theorem queueGame_ready : LogicReady exampleAvatarEnv (queueGame 1) := by
  refine ⟨rfl, by decide, ?_, ?_, ?_, exampleAvatarEnv_replace, ?_⟩
  · intro i hi
    rcases exampleAvatarEnv_valid i hi with h | h | h <;> subst h <;>
      exact ⟨Option.isSome_iff_exists.mp (by decide), Option.isSome_iff_exists.mp (by decide)⟩
  · intro i hi
    have hids : (queueGame 1).pc.power_cooldown_ids = [1, 2, 3] := by decide
    rw [hids] at hi
    simp only [List.mem_cons, List.mem_singleton, List.not_mem_nil, or_false] at hi
    rcases hi with h | h | h <;> subst h <;> decide
  · intro a ha
    have hq : (queueGame 1).pc.action_queue = [exampleAction 1] := rfl
    rw [hq, List.mem_singleton] at ha
    subst ha
    decide
  · intro h
    exact absurd h (by decide)

/-- C16 (counterexample): a stunned avatar with one queued entry still holds that
entry after `logic()`, and the entry was not handed to the pipeline. -/
theorem stunned_queue_survives :
    stunnedGame.pc.action_queue = [exampleAction 1] ∧
    (Avatar.logic exampleAvatarEnv stunnedGame).map (fun g => g.pc.action_queue)
      = some [exampleAction 1] ∧
    (Avatar.logic exampleAvatarEnv stunnedGame).map (fun g => g.handled) = some [] := by
  decide

/-- C16 (amended): `logic()` returns whenever the pointers it dereferences exist
(`LogicReady`). When the avatar is not stunned at `handleStateChanges`, the action
queue is empty afterwards; when it is stunned, the queue is left as it was and no
entry is handed to the pipeline. In both cases the entries handed to
`handleReplacedPower` during the call form a sublist of the queue, so each entry
is handed on at most once. -/
theorem queue_consumed_unless_stunned (aenv : AvatarEnv) (g : Game) :
    (LogicReady aenv g → ∃ g1, Avatar.logic aenv g = some g1) ∧
    (∀ g1, Avatar.logic aenv g = some g1 →
      ((logicPrelude aenv g).pc.stats.effects.stun = false → g1.pc.action_queue = []) ∧
      ((logicPrelude aenv g).pc.stats.effects.stun = true →
        g1.pc.action_queue = g.pc.action_queue ∧ g1.handled = g.handled) ∧
      ∃ l, g1.handled = g.handled ++ l ∧ List.Sublist l g.pc.action_queue) := by
  refine ⟨Avatar_logic_defined aenv g, ?_⟩
  intro g1 h
  obtain ⟨_, a, b, c, _⟩ := Avatar_logic_spec aenv g g1 h
  exact ⟨a, b, c⟩

/-- Witness of C16 as amended: the example avatar, not stunned, with one queued
entry has an empty queue after `logic()`. -/
theorem queue_consumed_unless_stunned_witness :
    ∃ g1, Avatar.logic exampleAvatarEnv (queueGame 1) = some g1 ∧ g1.pc.action_queue = [] := by
  obtain ⟨g1, h1⟩ := (queue_consumed_unless_stunned exampleAvatarEnv (queueGame 1)).1
    queueGame_ready
  exact ⟨g1, h1,
    ((queue_consumed_unless_stunned exampleAvatarEnv (queueGame 1)).2 g1 h1).1 (by decide)⟩

/-! ## Power timers exist for the valid powers -/

theorem constructTimers_spec (aenv : AvatarEnv) (n i : Nat) :
    (constructTimers aenv n i).1 = (List.range' i n).filter aenv.isValid ∧
    timerShape (constructTimers aenv n i).2.1 = (List.range' i n).map aenv.isValid ∧
    timerShape (constructTimers aenv n i).2.2 = (List.range' i n).map aenv.isValid := by
  induction n generalizing i with
  | zero => exact ⟨rfl, rfl, rfl⟩
  | succ n ih =>
    obtain ⟨a, b, c⟩ := ih (i + 1)
    unfold timerShape at b c ⊢
    unfold constructTimers
    dsimp only
    cases hv : aenv.isValid i
    · simp only [Bool.false_eq_true, if_false, List.range'_succ, List.map_cons, a, b, c,
        Option.isSome_none, hv, List.filter_cons_of_neg, not_false_eq_true]
      exact ⟨trivial, trivial, trivial⟩
    · simp only [if_true, List.range'_succ, List.map_cons, a, b, c,
        Option.isSome_some, hv, List.filter_cons_of_pos]
      exact ⟨trivial, trivial, trivial⟩

theorem initializePowersLoop_shape (aenv : AvatarEnv) (n i : Nat) (a : Avatar) :
    timerShape (initializePowersLoop aenv n i a).power_cooldown_timers
      = timerShape a.power_cooldown_timers ∧
    timerShape (initializePowersLoop aenv n i a).power_cast_timers
      = timerShape a.power_cast_timers ∧
    (initializePowersLoop aenv n i a).power_cooldown_ids = a.power_cooldown_ids := by
  induction n generalizing i a with
  | zero => exact ⟨rfl, rfl, rfl⟩
  | succ n ih =>
    unfold initializePowersLoop
    split
    · exact ih (i + 1) a
    · dsimp only
      obtain ⟨h1, h2, h3⟩ := ih (i + 1)
        { (if (a.untransform_power = 0 && (aenv.power i).required_items_empty
              && (aenv.power i).spawn_type = "untransform") = true then
            { a with untransform_power := i } else a) with
          power_cooldown_timers := timerRenew
            (if (a.untransform_power = 0 && (aenv.power i).required_items_empty
              && (aenv.power i).spawn_type = "untransform") = true then
            { a with untransform_power := i } else a).power_cooldown_timers i
          power_cast_timers := timerRenew
            (if (a.untransform_power = 0 && (aenv.power i).required_items_empty
              && (aenv.power i).spawn_type = "untransform") = true then
            { a with untransform_power := i } else a).power_cast_timers i }
      refine ⟨h1.trans ?_, h2.trans ?_, h3.trans ?_⟩
      · refine (timerRenew_shape _ i).trans ?_
        split <;> rfl
      · refine (timerRenew_shape _ i).trans ?_
        split <;> rfl
      · dsimp only
        split <;> rfl

theorem Avatar_init_shape (aenv : AvatarEnv) (a : Avatar) :
    timerShape (Avatar.init aenv a).power_cooldown_timers = timerShape a.power_cooldown_timers ∧
    timerShape (Avatar.init aenv a).power_cast_timers = timerShape a.power_cast_timers ∧
    (Avatar.init aenv a).power_cooldown_ids = a.power_cooldown_ids := by
  unfold Avatar.init initializePowers
  exact initializePowersLoop_shape aenv _ _ _

theorem Avatar_new_shape (aenv : AvatarEnv) (stats0 : AvatarStats) (anim0 : Animation) :
    (Avatar.new aenv stats0 anim0).power_cooldown_ids
      = (List.range aenv.powers_size).filter aenv.isValid ∧
    timerShape (Avatar.new aenv stats0 anim0).power_cooldown_timers
      = (List.range aenv.powers_size).map aenv.isValid ∧
    timerShape (Avatar.new aenv stats0 anim0).power_cast_timers
      = (List.range aenv.powers_size).map aenv.isValid := by
  obtain ⟨a, b, c⟩ := constructTimers_spec aenv aenv.powers_size 0
  unfold Avatar.new
  dsimp only
  obtain ⟨h1, h2, h3⟩ := Avatar_init_shape aenv
    { stats := stats0
      anim := anim0
      mm_key := if aenv.mouse_move_swap then Key.MAIN2 else Key.MAIN1
      mm_is_distant := false
      set_dir_timer := Timer.default
      path := []
      prev_target := FPoint.zero
      collided := false
      path_found := false
      chance_calc_path := 0
      path_found_fails := 0
      path_found_fail_timer := Timer.default
      restrict_power_use := false
      mm_target := ⟨-1, -1⟩
      mm_target_desired := ⟨-1, -1⟩
      power_cooldown_ids := (constructTimers aenv aenv.powers_size 0).1
      transform_triggered := false
      sound_steps := 0
      attack_anim := ""
      untransform_power := 0
      current_power := 0
      current_power_original := 0
      act_target := FPoint.zero
      drag_walking := false
      respawn := false
      close_menus := false
      allow_movement := true
      power_cooldown_timers := (constructTimers aenv aenv.powers_size 0).2.1
      power_cast_timers := (constructTimers aenv aenv.powers_size 0).2.2
      cursor_enemy := none
      lock_enemy := none
      using_main1 := false
      using_main2 := false
      teleport_camera_lock := false
      mm_target_object := MM_TARGET_NONE
      mm_target_object_pos := FPoint.zero
      action_queue := [] }
  rw [List.range_eq_range']
  exact ⟨h3.trans a, h1.trans b, h2.trans c⟩

theorem timerShape_length (ts : List (Option Timer)) : (timerShape ts).length = ts.length := by
  unfold timerShape
  exact List.length_map _ _

theorem timerAt_isSome_of_shape {ts : List (Option Timer)} {f : Nat → Bool} {n : Nat}
    (h : timerShape ts = (List.range n).map f) (i : Nat) (hi : i < n) :
    (timerAt ts i).isSome = f i := by
  have hlen : ts.length = n := by
    rw [← timerShape_length, h, List.length_map, List.length_range]
  have hi1 : i < ts.length := by omega
  have hget := congrArg (fun l => l[i]?) h
  unfold timerShape at hget
  simp only [List.getElem?_map, List.getElem?_range hi, Option.map_some'] at hget
  unfold timerAt
  rw [List.get?_eq_getElem?]
  cases hx : ts[i]? with
  | none => rw [hx] at hget; cases hget
  | some o =>
    rw [hx] at hget
    simp only [Option.map_some', Option.some.injEq] at hget
    rw [← hget]
    cases o <;> rfl

/-- C19: after construction both timer vectors have `powers.size()` entries, the
entry of an index is non-null exactly when the power is valid, and
`power_cooldown_ids` is the increasing list of the valid identifiers; `init()`,
`logic()` (which returns whenever the pointers it dereferences exist) and the dead
state with its timer reset leave the set of non-null entries and
`power_cooldown_ids` as they were. -/
theorem timer_exists_iff_valid (aenv : AvatarEnv) (stats0 : AvatarStats) (anim0 : Animation) :
    (Avatar.new aenv stats0 anim0).power_cooldown_timers.length = aenv.powers_size ∧
    (Avatar.new aenv stats0 anim0).power_cast_timers.length = aenv.powers_size ∧
    (∀ i, i < aenv.powers_size →
      (timerAt (Avatar.new aenv stats0 anim0).power_cooldown_timers i).isSome = aenv.isValid i ∧
      (timerAt (Avatar.new aenv stats0 anim0).power_cast_timers i).isSome = aenv.isValid i) ∧
    (Avatar.new aenv stats0 anim0).power_cooldown_ids
      = (List.range aenv.powers_size).filter aenv.isValid ∧
    (∀ a : Avatar,
      timerShape (Avatar.init aenv a).power_cooldown_timers
        = timerShape a.power_cooldown_timers ∧
      timerShape (Avatar.init aenv a).power_cast_timers = timerShape a.power_cast_timers ∧
      (Avatar.init aenv a).power_cooldown_ids = a.power_cooldown_ids) ∧
    (∀ g, LogicReady aenv g → ∃ g1, Avatar.logic aenv g = some g1) ∧
    (∀ g g1, Avatar.logic aenv g = some g1 → KeepsTimers g g1) ∧
    (∀ g, KeepsTimers g (handleDeadState aenv g)) := by
  obtain ⟨hids, hcd, hcast⟩ := Avatar_new_shape aenv stats0 anim0
  refine ⟨?_, ?_, ?_, hids, Avatar_init_shape aenv, Avatar_logic_defined aenv,
    fun g g1 h => (Avatar_logic_spec aenv g g1 h).1,
    fun g => (handleDeadState_frame aenv g).1.2.1⟩
  · rw [← timerShape_length, hcd, List.length_map, List.length_range]
  · rw [← timerShape_length, hcast, List.length_map, List.length_range]
  · intro i hi
    exact ⟨timerAt_isSome_of_shape hcd i hi, timerAt_isSome_of_shape hcast i hi⟩

/-- Witness of C19: in the example power table 0 is invalid and 1 is valid; the
constructed avatar has no timer for 0 and one for 1, and `logic()` keeps the
non-null entries. -/
theorem timer_exists_iff_valid_witness :
    exampleAvatarEnv.isValid 0 = false ∧ exampleAvatarEnv.isValid 1 = true ∧
    (timerAt (Avatar.new exampleAvatarEnv exampleAvatarStats
        (exampleAnim "stance")).power_cooldown_timers 0).isSome = exampleAvatarEnv.isValid 0 ∧
    (timerAt (Avatar.new exampleAvatarEnv exampleAvatarStats
        (exampleAnim "stance")).power_cooldown_timers 1).isSome = exampleAvatarEnv.isValid 1 ∧
    ∃ g1, Avatar.logic exampleAvatarEnv (queueGame 1) = some g1 ∧
      KeepsTimers (queueGame 1) g1 := by
  obtain ⟨g1, h1⟩ := (timer_exists_iff_valid exampleAvatarEnv exampleAvatarStats
    (exampleAnim "stance")).2.2.2.2.2.1 (queueGame 1) queueGame_ready
  exact ⟨by decide, by decide,
    ((timer_exists_iff_valid exampleAvatarEnv exampleAvatarStats
      (exampleAnim "stance")).2.2.1 0 (by decide)).1,
    ((timer_exists_iff_valid exampleAvatarEnv exampleAvatarStats
      (exampleAnim "stance")).2.2.1 1 (by decide)).1,
    g1, h1,
    (timer_exists_iff_valid exampleAvatarEnv exampleAvatarStats
      (exampleAnim "stance")).2.2.2.2.2.2.1 (queueGame 1) g1 h1⟩

/-! ## The dead state -/

theorem handleBasicState_keepsCT (aenv : AvatarEnv) (hk : StatsKeepDead aenv) (g : Game)
    (hb : ((statsAfterPassives aenv g).effects.triggered_block
      && !(statsAfterPassives aenv g).blocking) = false) :
    KeepsCT g (handleBasicState aenv g) := by
  have key : ∀ x : Game, KeepsCT g x →
      (x.pc.stats.effects.triggered_block && !x.pc.stats.blocking) = false →
      KeepsCT g
        { (if (x.pc.stats.effects.triggered_block && !x.pc.stats.blocking) = true then
            resetBlockState { x with pc := { x.pc with transform_triggered := false } }
           else { x with pc := { x.pc with transform_triggered := false } }) with
          pc := { (if (x.pc.stats.effects.triggered_block && !x.pc.stats.blocking) = true then
              resetBlockState { x with pc := { x.pc with transform_triggered := false } }
             else { x with pc := { x.pc with transform_triggered := false } }).pc with
            stats := aenv.statsLogic
              (if (x.pc.stats.effects.triggered_block && !x.pc.stats.blocking) = true then
                resetBlockState { x with pc := { x.pc with transform_triggered := false } }
               else { x with pc := { x.pc with transform_triggered := false } }).pc.stats } } := by
    intro x hx hbx
    simp only [hbx, Bool.false_eq_true, if_false]
    exact ⟨(hk.2.1 _).1.trans hx.1, (hk.2.1 _).2.trans hx.2⟩
  unfold statsAfterPassives at hb
  unfold handleBasicState
  dsimp only
  split at hb
  · rename_i hc
    rw [if_pos hc]
    exact key _ (hk.1 g.pc.stats) hb
  · rename_i hc
    rw [if_neg hc]
    exact key _ ⟨rfl, rfl⟩ hb

theorem logicPrelude_keepsCT (aenv : AvatarEnv) (hk : StatsKeepDead aenv) (g : Game)
    (hb : ((statsAfterPassives aenv g).effects.triggered_block
      && !(statsAfterPassives aenv g).blocking) = false)
    (hl : shouldLevelUp aenv (handleBasicState aenv (handlePowerRestrictions aenv g)) = false) :
    KeepsCT g (logicPrelude aenv g) := by
  obtain ⟨_, e1, e2, e3⟩ := handlePowerRestrictions_frame aenv g
  have hb1 : ((statsAfterPassives aenv (handlePowerRestrictions aenv g)).effects.triggered_block
      && !(statsAfterPassives aenv (handlePowerRestrictions aenv g)).blocking) = false := by
    unfold statsAfterPassives at hb ⊢
    rw [e1, e2, e3]
    exact hb
  have h1 := handleBasicState_keepsCT aenv hk _ hb1
  have h0 : KeepsCT g (handlePowerRestrictions aenv g) := by
    unfold KeepsCT
    rw [e1]
    exact ⟨rfl, rfl⟩
  have h2 : handleLevelUp aenv (handleBasicState aenv (handlePowerRestrictions aenv g))
      = handleBasicState aenv (handlePowerRestrictions aenv g) := by
    unfold handleLevelUp
    rw [hl]
    rfl
  unfold KeepsCT
  rw [logicPrelude_stats, h2]
  exact KeepsCT_trans h0 h1

/-- C18 (counterexample): a dead avatar whose experience has passed the next
level threshold stands in STANCE after one `logic()` pass, with no respawn
requested. -/
theorem dead_revived_by_level_up :
    deadLevelGame.pc.stats.cur_state = EntityState.ENTITY_DEAD ∧
    deadLevelGame.pc.respawn = false ∧
    (Avatar.logic exampleAvatarEnv deadLevelGame).map (fun g => g.pc.stats.cur_state)
      = some EntityState.ENTITY_STANCE := by
  decide

/-- C18 (amended): for a dead avatar that is not transformed, with no released
block pending after the passive powers, no level-up due after the stat block
logic, and stat block routines that leave the control state alone, `logic()`
(which returns whenever the pointers it dereferences exist) leaves `cur_state` at
DEAD. `performLevelUp` never leaves the avatar DEAD, and the respawn block of
`GameStatePlay::logic` puts an avatar with `respawn` set into STANCE. -/
theorem dead_until_level_up_or_respawn (aenv : AvatarEnv) (g : Game)
    (hk : StatsKeepDead aenv)
    (hd : g.pc.stats.cur_state = EntityState.ENTITY_DEAD)
    (ht : g.pc.stats.transformed = false)
    (hb : ((statsAfterPassives aenv g).effects.triggered_block
      && !(statsAfterPassives aenv g).blocking) = false)
    (hl : shouldLevelUp aenv (handleBasicState aenv (handlePowerRestrictions aenv g)) = false) :
    (LogicReady aenv g → ∃ g1, Avatar.logic aenv g = some g1) ∧
    (∀ g1, Avatar.logic aenv g = some g1 →
      g1.pc.stats.cur_state = EntityState.ENTITY_DEAD) ∧
    (∀ x : Game, (performLevelUp aenv x).pc.stats.cur_state ≠ EntityState.ENTITY_DEAD) ∧
    (g.pc.respawn = true → (∀ s, (aenv.recalc s).cur_state = s.cur_state) →
      (respawnHero aenv g).pc.stats.cur_state = EntityState.ENTITY_STANCE) := by
  refine ⟨Avatar_logic_defined aenv g, ?_, ?_, ?_⟩
  · intro g1 h
    obtain ⟨_, _, _, _, hdead⟩ := Avatar_logic_spec aenv g g1 h
    have hp := logicPrelude_keepsCT aenv hk g hb hl
    exact (hdead hk ⟨hp.1.trans hd, hp.2.trans ht⟩).1
  · intro x
    unfold performLevelUp
    dsimp only
    split
    · intro hx
      cases hx
    · rename_i hne
      exact hne
  · intro hr hrec
    unfold respawnHero
    rw [if_pos hr]
    dsimp only
    rw [(hk.1 _).1, hrec, (hk.2.1 _).1]

/-- Witness of C18 as amended: the dead example avatar without experience is
still dead after `logic()`. -/
theorem dead_until_level_up_or_respawn_witness :
    deadGame.pc.stats.cur_state = EntityState.ENTITY_DEAD ∧
    ∃ g1, Avatar.logic exampleAvatarEnv deadGame = some g1 ∧
      g1.pc.stats.cur_state = EntityState.ENTITY_DEAD := by
  obtain ⟨g1, h1⟩ := Option.isSome_iff_exists.mp
    (show (Avatar.logic exampleAvatarEnv deadGame).isSome = true by decide)
  exact ⟨rfl, g1, h1,
    (dead_until_level_up_or_respawn exampleAvatarEnv deadGame
      ⟨fun _ => ⟨rfl, rfl⟩, fun _ => ⟨rfl, rfl⟩, fun _ _ _ => ⟨rfl, rfl⟩⟩
      rfl rfl (by decide) (by decide)).2.1 g1 h1⟩

/-! ## Replan back-off -/

/-- C20: the fail timer is default-constructed and nothing gives it a duration,
so `reset(Timer::BEGIN)` leaves it ended. On a map where no path exists, the
first `handlePathfinding` call plans once and reaches the failure threshold, and
the very next call plans again. -/
theorem replan_backoff_never_waits :
    pathGame.pc.path_found_fail_timer = { current := 0, duration := 0 } ∧
    (handlePathfinding blockedEnv pathGame).computePath_calls = 1 ∧
    (handlePathfinding blockedEnv pathGame).pc.path_found_fails = 1 ∧
    (handlePathfinding blockedEnv pathGame).pc.path_found_fail_timer.isEnd = true ∧
    (handlePathfinding blockedEnv (handlePathfinding blockedEnv pathGame)).computePath_calls
      = 2 ∧
    (∀ (aenv : AvatarEnv) (g : Game),
      (recalculatePath aenv
        { g with pc := { g.pc with path_found_fail_timer := Timer.default } }
        ).pc.path_found_fail_timer.isEnd = true) := by
  refine ⟨by decide, by decide, by decide, by decide, by decide, ?_⟩
  intro aenv g
  unfold recalculatePath
  dsimp only
  repeat' (first | split | dsimp only)
  all_goals rfl

/-! ## Path planning: the accumulator and the resolved target -/

theorem updatePathTarget_plan (g : Game) :
    (updatePathTarget g).computePath_calls = g.computePath_calls ∧
    (updatePathTarget g).pc.chance_calc_path = g.pc.chance_calc_path ∧
    (updatePathTarget g).pc.path_found = g.pc.path_found ∧
    (updatePathTarget g).pc.path_found_fails = g.pc.path_found_fails ∧
    (updatePathTarget g).pc.mm_target_desired = g.pc.mm_target_desired ∧
    (updatePathTarget g).pc.stats = g.pc.stats := by
  unfold updatePathTarget
  repeat' (first | split | dsimp only)
  all_goals exact ⟨rfl, rfl, rfl, rfl, rfl, rfl⟩

theorem shouldRecalculatePath_plan (aenv : AvatarEnv) (g : Game) :
    (shouldRecalculatePath aenv g).2.computePath_calls = g.computePath_calls ∧
    (shouldRecalculatePath aenv g).2.pc.chance_calc_path = g.pc.chance_calc_path + 5 ∧
    (shouldRecalculatePath aenv g).2.pc.path_found_fail_timer = g.pc.path_found_fail_timer ∧
    (shouldRecalculatePath aenv g).2.pc.path = g.pc.path ∧
    (shouldRecalculatePath aenv g).2.pc.mm_target = g.pc.mm_target ∧
    (shouldRecalculatePath aenv g).2.pc.mm_target_desired = g.pc.mm_target_desired ∧
    (shouldRecalculatePath aenv g).2.pc.stats = g.pc.stats := by
  unfold shouldRecalculatePath
  dsimp only
  repeat' (first | split | dsimp only)
  all_goals exact ⟨rfl, rfl, rfl, rfl, rfl, rfl, rfl⟩

theorem recalculatePath_plan (aenv : AvatarEnv) (g : Game) :
    (recalculatePath aenv g).computePath_calls = g.computePath_calls + 1 ∧
    (recalculatePath aenv g).pc.chance_calc_path = -100 ∧
    ((recalculatePath aenv g).pc.path_found = true →
      (recalculatePath aenv g).pc.path_found_fails = 0) ∧
    (recalculatePath aenv g).pc.path
      = (aenv.collider.computePath g.pc.stats.pos g.pc.mm_target g.pc.stats.movement_type).1 ∧
    (recalculatePath aenv g).pc.mm_target = g.pc.mm_target ∧
    (recalculatePath aenv g).pc.mm_target_desired = g.pc.mm_target_desired ∧
    (recalculatePath aenv g).pc.stats = g.pc.stats := by
  unfold recalculatePath
  dsimp only
  split
  · rename_i hnf
    have hfail : ∀ (p : Prop), (aenv.collider.computePath g.pc.stats.pos g.pc.mm_target
        g.pc.stats.movement_type).2 = true → p := by
      intro p h
      rw [h] at hnf
      cases hnf
    split
    · exact ⟨rfl, rfl, hfail _, rfl, rfl, rfl, rfl⟩
    · exact ⟨rfl, rfl, hfail _, rfl, rfl, rfl, rfl⟩
  · exact ⟨rfl, rfl, fun _ => rfl, rfl, rfl, rfl, rfl⟩

/-- The three ways through `handlePathfinding`: the state handed to
`updatePathTarget` after a running fail cooldown, after a frame without replan,
and after a replan. -/
theorem handlePathfinding_cases (aenv : AvatarEnv) (g : Game) :
    ∃ x, handlePathfinding aenv g = updatePathTarget x ∧
      x.pc.mm_target = g.pc.mm_target ∧ x.pc.mm_target_desired = g.pc.mm_target_desired ∧
      x.pc.stats = g.pc.stats ∧
      ((g.pc.path_found_fail_timer.isEnd = false ∧
          x.computePath_calls = g.computePath_calls ∧ x.pc.chance_calc_path = -100 ∧
          x.pc.path = g.pc.path) ∨
        (g.pc.path_found_fail_timer.isEnd = true ∧ (shouldRecalculatePath aenv g).1 = false ∧
          x.computePath_calls = g.computePath_calls ∧
          x.pc.chance_calc_path = g.pc.chance_calc_path + 5 ∧ x.pc.path = g.pc.path) ∨
        (g.pc.path_found_fail_timer.isEnd = true ∧ (shouldRecalculatePath aenv g).1 = true ∧
          x.computePath_calls = g.computePath_calls + 1 ∧ x.pc.chance_calc_path = -100 ∧
          (x.pc.path_found = true → x.pc.path_found_fails = 0) ∧
          x.pc.path = (aenv.collider.computePath g.pc.stats.pos g.pc.mm_target
            g.pc.stats.movement_type).1)) := by
  obtain ⟨s1, s2, s3, s4, s5, s6, s7⟩ := shouldRecalculatePath_plan aenv g
  unfold handlePathfinding
  dsimp only
  rw [s3]
  by_cases hT : g.pc.path_found_fail_timer.isEnd = true
  · have hn : ¬ ((!g.pc.path_found_fail_timer.isEnd) = true) := by
      rw [hT]
      decide
    simp only [if_neg hn]
    by_cases hr : (shouldRecalculatePath aenv g).1 = true
    · simp only [if_pos hr]
      obtain ⟨r1, r2, r3, r4, r5, r6, r7⟩ := recalculatePath_plan aenv
        { (shouldRecalculatePath aenv g).2 with
          pc := { (shouldRecalculatePath aenv g).2.pc with
            prev_target := (shouldRecalculatePath aenv g).2.pc.mm_target } }
      refine ⟨_, rfl, r5.trans s5, r6.trans s6, r7.trans s7, Or.inr (Or.inr
        ⟨hT, hr, r1.trans (by rw [← s1]), r2, r3, ?_⟩)⟩
      rw [r4]
      show (aenv.collider.computePath (shouldRecalculatePath aenv g).2.pc.stats.pos
        (shouldRecalculatePath aenv g).2.pc.mm_target
        (shouldRecalculatePath aenv g).2.pc.stats.movement_type).1 = _
      rw [s7, s5]
    · simp only [if_neg hr]
      exact ⟨_, rfl, s5, s6, s7,
        Or.inr (Or.inl ⟨hT, Bool.eq_false_iff.mpr hr, s1, s2, s4⟩)⟩
  · have hp : (!g.pc.path_found_fail_timer.isEnd) = true := by
      rw [Bool.eq_false_iff.mpr hT]
      rfl
    have hft : ¬ (false = true) := by decide
    simp only [if_pos hp, if_neg hft]
    exact ⟨_, rfl, s5, s6, s7, Or.inl ⟨Bool.eq_false_iff.mpr hT, s1, rfl, s4⟩⟩

/-- C23: one `handlePathfinding` call invokes `computePath` at most once; it does
so exactly when the fail cooldown has ended and `shouldRecalculatePath` says
yes. After a call with a replan `chance_calc_path` is -100, and if the plan
succeeded `path_found_fails` is 0; after a call during a running fail cooldown
`chance_calc_path` is -100 and nothing was planned; after any other call
`chance_calc_path` is 5 more than before. -/
theorem replan_accumulator (aenv : AvatarEnv) (g : Game) :
    ((handlePathfinding aenv g).computePath_calls = g.computePath_calls ∨
      (handlePathfinding aenv g).computePath_calls = g.computePath_calls + 1) ∧
    ((handlePathfinding aenv g).computePath_calls = g.computePath_calls + 1 ↔
      (g.pc.path_found_fail_timer.isEnd = true ∧ (shouldRecalculatePath aenv g).1 = true)) ∧
    ((handlePathfinding aenv g).computePath_calls = g.computePath_calls + 1 →
      (handlePathfinding aenv g).pc.chance_calc_path = -100 ∧
      ((handlePathfinding aenv g).pc.path_found = true →
        (handlePathfinding aenv g).pc.path_found_fails = 0)) ∧
    (g.pc.path_found_fail_timer.isEnd = false →
      (handlePathfinding aenv g).pc.chance_calc_path = -100 ∧
      (handlePathfinding aenv g).computePath_calls = g.computePath_calls) ∧
    ((handlePathfinding aenv g).computePath_calls = g.computePath_calls →
      g.pc.path_found_fail_timer.isEnd = true →
      (handlePathfinding aenv g).pc.chance_calc_path = g.pc.chance_calc_path + 5) := by
  obtain ⟨x, hx, _, _, _, hc⟩ := handlePathfinding_cases aenv g
  obtain ⟨u1, u2, u3, u4, _, _⟩ := updatePathTarget_plan x
  rw [hx, u1, u2, u3, u4]
  rcases hc with ⟨he, c1, c2, _⟩ | ⟨he, hr, c1, c2, _⟩ | ⟨he, hr, c1, c2, c3, _⟩
  · rw [c1, c2, he]
    exact ⟨Or.inl rfl, ⟨fun h => absurd h (by omega), fun h => Bool.noConfusion h.1⟩,
      fun h => absurd h (by omega), fun _ => ⟨rfl, rfl⟩, fun _ h => Bool.noConfusion h⟩
  · rw [c1, c2, he, hr]
    exact ⟨Or.inl rfl, ⟨fun h => absurd h (by omega), fun h => Bool.noConfusion h.2⟩,
      fun h => absurd h (by omega), fun h => Bool.noConfusion h, fun _ _ => rfl⟩
  · rw [c1, c2, he, hr]
    exact ⟨Or.inr rfl, ⟨fun _ => ⟨rfl, rfl⟩, fun _ => rfl⟩, fun _ => ⟨rfl, c3⟩,
      fun h => Bool.noConfusion h, fun h => absurd h (by omega)⟩

/-- Witness of C23: on the map without paths the first call from the freshly
constructed avatar plans once and leaves the accumulator at -100. -/
theorem replan_accumulator_witness :
    (handlePathfinding blockedEnv pathGame).computePath_calls = pathGame.computePath_calls + 1 ∧
    (handlePathfinding blockedEnv pathGame).pc.chance_calc_path = -100 :=
  ⟨by decide, ((replan_accumulator blockedEnv pathGame).2.2.1 (by decide)).1⟩

/-! ## Keyboard direction -/

/-- C24: the priority chain gives up+left 1, up+right 3, down+right 5, down+left 7,
left 0, up 2, right 4, down 6, a value below 8 exactly when some flag is set.
`handleKeyboardDirection` applies it to the pressed and unlocked movement keys,
or to the aim keys when none of the four movement keys counts, adds one modulo 8
for an orthogonal tileset, and leaves the direction as it was when no key counts. -/
theorem keyboard_direction_mapping (aenv : AvatarEnv) (g : Game) :
    (∀ d r, keyboardDirection true d true r = some 1) ∧
    (∀ d, keyboardDirection true d false true = some 3) ∧
    (∀ l, keyboardDirection false true l true = some 5) ∧
    keyboardDirection false true true false = some 7 ∧
    (∀ r, keyboardDirection false false true r = some 0) ∧
    (∀ d, keyboardDirection true d false false = some 2) ∧
    keyboardDirection false false false true = some 4 ∧
    keyboardDirection false true false false = some 6 ∧
    keyboardDirection false false false false = none ∧
    (∀ u d l r, (keyboardDirection u d l r).isSome = (u || d || l || r)) ∧
    (∀ u d l r, (keyboardDirection u d l r).getD 0 < 8) ∧
    (let up0 := g.inpt.pressing Key.UP && !g.inpt.lock Key.UP
     let down0 := g.inpt.pressing Key.DOWN && !g.inpt.lock Key.DOWN
     let left0 := g.inpt.pressing Key.LEFT && !g.inpt.lock Key.LEFT
     let right0 := g.inpt.pressing Key.RIGHT && !g.inpt.lock Key.RIGHT
     let moving := up0 || down0 || left0 || right0
     let u := if moving then up0 else g.inpt.pressing Key.AIM_UP && !g.inpt.lock Key.AIM_UP
     let d := if moving then down0
       else g.inpt.pressing Key.AIM_DOWN && !g.inpt.lock Key.AIM_DOWN
     let l := if moving then left0
       else g.inpt.pressing Key.AIM_LEFT && !g.inpt.lock Key.AIM_LEFT
     let r := if moving then right0
       else g.inpt.pressing Key.AIM_RIGHT && !g.inpt.lock Key.AIM_RIGHT
     (handleKeyboardDirection aenv g).pc.stats.direction =
       match keyboardDirection u d l r with
       | some v => if aenv.tileset_orthogonal then (v + 1) % 8 else v
       | none => g.pc.stats.direction) := by
  refine ⟨by decide, by decide, by decide, by decide, by decide, by decide, by decide,
    by decide, by decide, by decide, by decide, ?_⟩
  unfold handleKeyboardDirection
  dsimp only
  generalize (g.inpt.pressing Key.UP && !g.inpt.lock Key.UP) = up0
  generalize (g.inpt.pressing Key.DOWN && !g.inpt.lock Key.DOWN) = down0
  generalize (g.inpt.pressing Key.LEFT && !g.inpt.lock Key.LEFT) = left0
  generalize (g.inpt.pressing Key.RIGHT && !g.inpt.lock Key.RIGHT) = right0
  generalize (g.inpt.pressing Key.AIM_UP && !g.inpt.lock Key.AIM_UP) = au
  generalize (g.inpt.pressing Key.AIM_DOWN && !g.inpt.lock Key.AIM_DOWN) = ad
  generalize (g.inpt.pressing Key.AIM_LEFT && !g.inpt.lock Key.AIM_LEFT) = al
  generalize (g.inpt.pressing Key.AIM_RIGHT && !g.inpt.lock Key.AIM_RIGHT) = ar
  generalize aenv.tileset_orthogonal = orth
  cases up0 <;> cases down0 <;> cases left0 <;> cases right0 <;> cases orth <;>
    first
      | rfl
      | (cases au <;> cases ad <;> cases al <;> cases ar <;>
          first
            | rfl
            | simp [keyboardDirection])

theorem updatePathTarget_cases (g : Game) :
    (g.pc.path = [] ∧ updatePathTarget g = g) ∨
    (∃ P l, g.pc.path = P ++ [l] ∧ (updatePathTarget g).pc.mm_target = l ∧
      ((distExceeds g.pc.stats.pos l 1 = true ∧ (updatePathTarget g).pc.path = P ++ [l]) ∨
        (distExceeds g.pc.stats.pos l 1 = false ∧ (updatePathTarget g).pc.path = P))) := by
  unfold updatePathTarget
  cases hl : g.pc.path.getLast? with
  | none =>
    left
    exact ⟨List.getLast?_eq_none_iff.mp hl, rfl⟩
  | some l =>
    right
    have hne : g.pc.path ≠ [] := by
      intro h0
      rw [h0] at hl
      cases hl
    have hlast : g.pc.path.getLast hne = l := by
      have := List.getLast?_eq_getLast _ hne
      rw [hl] at this
      exact (Option.some.inj this).symm
    have hP : g.pc.path = g.pc.path.dropLast ++ [l] := by
      rw [← hlast]
      exact (List.dropLast_append_getLast hne).symm
    refine ⟨g.pc.path.dropLast, l, hP, ?_⟩
    dsimp only
    by_cases hfar : distExceeds g.pc.stats.pos l 1 = true
    · have hn : ¬ ((!distExceeds g.pc.stats.pos l 1) = true) := by
        rw [hfar]
        decide
      rw [if_neg hn]
      exact ⟨rfl, Or.inl ⟨hfar, hP⟩⟩
    · have hp : (!distExceeds g.pc.stats.pos l 1) = true := by
        rw [Bool.eq_false_iff.mpr hfar]
        rfl
      rw [if_pos hp]
      exact ⟨rfl, Or.inr ⟨Bool.eq_false_iff.mpr hfar, rfl⟩⟩

/-- C21 (counterexample): on a map where the plan towards (9, 0) is the
destination preceded by a waypoint one tile from the avatar, the call leaves the
path non-empty with `path.back()` = (9, 0) while `mm_target` is the removed
waypoint (6, 0); towards (7, 0) the single waypoint is removed, the path is empty
and `mm_target` is (6, 0), not the desired (7, 0). -/
theorem mm_target_after_waypoint_removed :
    (handleMouseMoveDirection detourEnv (detourGame 9)).map
        (fun g => (g.pc.path, g.pc.mm_target, g.pc.mm_target_desired))
      = some ([⟨9, 0⟩], ⟨6, 0⟩, ⟨9, 0⟩) ∧
    (handleMouseMoveDirection detourEnv (detourGame 7)).map
        (fun g => (g.pc.path, g.pc.mm_target, g.pc.mm_target_desired))
      = some ([], ⟨6, 0⟩, ⟨7, 0⟩) := by
  decide

/-- C21 (amended): after a `handleMouseMoveDirection` call that resolves a target
(the mouse is distant and the click block did not reject the destination) one of
three cases holds: the path is empty and `mm_target` is `mm_target_desired`; the
path is non-empty, `mm_target` is its last element and the avatar is farther than
one tile from it; or the avatar is within one tile of `mm_target`, which is the
waypoint this call has just removed from the end of the path (the old path or the
freshly computed one). -/
theorem mm_target_after_resolution (aenv : AvatarEnv) (g g0 : Game)
    (hd : g.pc.mm_is_distant = true)
    (hclick : handleMouseClick aenv g = some (g0, false)) :
    ∃ g1, handleMouseMoveDirection aenv g = some g1 ∧
      g1.pc.mm_target_desired = g0.pc.mm_target_desired ∧
      g1.pc.stats.pos = g0.pc.stats.pos ∧
      ((g1.pc.path = [] ∧ g1.pc.mm_target = g1.pc.mm_target_desired) ∨
        (g1.pc.path.getLast? = some g1.pc.mm_target ∧
          distExceeds g1.pc.stats.pos g1.pc.mm_target 1 = true) ∨
        (distExceeds g1.pc.stats.pos g1.pc.mm_target 1 = false ∧
          (g1.pc.path ++ [g1.pc.mm_target] = g0.pc.path ∨
            g1.pc.path ++ [g1.pc.mm_target]
              = (aenv.collider.computePath g0.pc.stats.pos g0.pc.mm_target_desired
                  g0.pc.stats.movement_type).1))) := by
  have key : ∀ x : Game, x.pc.mm_target = g0.pc.mm_target_desired →
      x.pc.mm_target_desired = g0.pc.mm_target_desired → x.pc.stats = g0.pc.stats →
      x.pc.path = g0.pc.path →
      ((handlePathfinding aenv x).pc.mm_target_desired = g0.pc.mm_target_desired ∧
        (handlePathfinding aenv x).pc.stats.pos = g0.pc.stats.pos ∧
        (((handlePathfinding aenv x).pc.path = [] ∧
            (handlePathfinding aenv x).pc.mm_target = g0.pc.mm_target_desired) ∨
          ((handlePathfinding aenv x).pc.path.getLast? = some (handlePathfinding aenv x).pc.mm_target ∧
            distExceeds (handlePathfinding aenv x).pc.stats.pos
              (handlePathfinding aenv x).pc.mm_target 1 = true) ∨
          (distExceeds (handlePathfinding aenv x).pc.stats.pos
              (handlePathfinding aenv x).pc.mm_target 1 = false ∧
            ((handlePathfinding aenv x).pc.path ++ [(handlePathfinding aenv x).pc.mm_target]
                = g0.pc.path ∨
              (handlePathfinding aenv x).pc.path ++ [(handlePathfinding aenv x).pc.mm_target]
                = (aenv.collider.computePath g0.pc.stats.pos g0.pc.mm_target_desired
                    g0.pc.stats.movement_type).1)))) := by
    intro x hx1 hx2 hx3 hx4
    obtain ⟨y, hy, y1, y2, y3, yc⟩ := handlePathfinding_cases aenv x
    obtain ⟨_, _, _, _, u5, u6⟩ := updatePathTarget_plan y
    have hpath : y.pc.path = g0.pc.path ∨
        y.pc.path = (aenv.collider.computePath g0.pc.stats.pos g0.pc.mm_target_desired
          g0.pc.stats.movement_type).1 := by
      rcases yc with ⟨_, _, _, c⟩ | ⟨_, _, _, _, c⟩ | ⟨_, _, _, _, _, c⟩
      · exact Or.inl (c.trans hx4)
      · exact Or.inl (c.trans hx4)
      · right
        rw [c, hx3, hx1]
    have hpos : y.pc.stats.pos = g0.pc.stats.pos := by rw [y3, hx3]
    rw [hy, u6]
    refine ⟨(u5.trans y2).trans hx2, hpos, ?_⟩
    rcases updatePathTarget_cases y with ⟨he, hu⟩ | ⟨P, l, hP, ht, hcase⟩
    · left
      rw [hu]
      exact ⟨he, y1.trans hx1⟩
    · rw [ht]
      rcases hcase with ⟨hfar, hp⟩ | ⟨hnear, hp⟩
      · right
        left
        rw [hp]
        exact ⟨by simp, hfar⟩
      · right
        right
        rw [hp, ← hP]
        exact ⟨hnear, hpath⟩
  unfold handleMouseMoveDirection
  have hd1 : (!g.pc.mm_is_distant) = false := by
    rw [hd]
    rfl
  have hft : ¬ (false = true) := by decide
  simp only [hd1, if_neg hft, hclick, Option.map_some']
  refine ⟨_, rfl, ?_⟩
  dsimp only
  split
  · obtain ⟨k1, k2, k3⟩ := key
      { g0 with pc := { g0.pc with mm_target := g0.pc.mm_target_desired } } rfl rfl rfl rfl
    rcases k3 with ⟨a, b⟩ | h | h
    · exact ⟨k1, k2, Or.inl ⟨a, b.trans k1.symm⟩⟩
    · exact ⟨k1, k2, Or.inr (Or.inl h)⟩
    · exact ⟨k1, k2, Or.inr (Or.inr h)⟩
  · exact ⟨rfl, rfl, Or.inl ⟨rfl, rfl⟩⟩

/-- Witness of C21 as amended: the example call towards (9, 0) ends in the third
case. -/
theorem mm_target_after_resolution_witness :
    ∃ g1, handleMouseMoveDirection detourEnv (detourGame 9) = some g1 ∧
      g1.pc.mm_target_desired = (detourGame 9).pc.mm_target_desired ∧
      g1.pc.stats.pos = (detourGame 9).pc.stats.pos ∧
      ((g1.pc.path = [] ∧ g1.pc.mm_target = g1.pc.mm_target_desired) ∨
        (g1.pc.path.getLast? = some g1.pc.mm_target ∧
          distExceeds g1.pc.stats.pos g1.pc.mm_target 1 = true) ∨
        (distExceeds g1.pc.stats.pos g1.pc.mm_target 1 = false ∧
          (g1.pc.path ++ [g1.pc.mm_target] = (detourGame 9).pc.path ∨
            g1.pc.path ++ [g1.pc.mm_target]
              = (detourEnv.collider.computePath (detourGame 9).pc.stats.pos
                  (detourGame 9).pc.mm_target_desired
                  (detourGame 9).pc.stats.movement_type).1))) :=
  mm_target_after_resolution detourEnv (detourGame 9) (detourGame 9) rfl rfl

/-! ## Melee auto-targeting -/

theorem beginPower_target (aenv : AvatarEnv) (B : Nat) (t : FPoint) (g : Game) :
    (beginPower aenv B t g).2 =
      if g.inpt.using_mouse && (aenv.power B).type = PowerType.TYPE_FIXED
          && (aenv.power B).starting_pos = StartingPos.STARTING_POS_MELEE then
        match g.pc.cursor_enemy with
        | some e => (g.w.stats e).pos
        | none => t
      else t := by
  unfold beginPower
  dsimp only
  split <;> rfl

theorem powerFirstFrame_act_target (aenv : AvatarEnv) (g g1 : Game)
    (hff : g.pc.anim.first_frame = true) (h : powerFirstFrame aenv g = some g1) :
    g1.pc.act_target = (beginPower aenv g.pc.current_power g.pc.act_target g).2 := by
  unfold powerFirstFrame at h
  rw [if_pos hff] at h
  dsimp only at h
  obtain ⟨t1, _, h⟩ := Option.bind_eq_some.mp h
  obtain ⟨t2, _, h⟩ := Option.bind_eq_some.mp h
  split at h
  · obtain ⟨w1, _, rfl⟩ := Option.map_eq_some'.mp h
    rfl
  · injection h with h
    subst h
    rfl

theorem powerDoPower_act_target (aenv : AvatarEnv) (g g1 : Game)
    (h : powerDoPower aenv g = some g1) : g1.pc.act_target = g.pc.act_target := by
  unfold powerDoPower at h
  split at h
  · dsimp only at h
    obtain ⟨g2, hc, rfl⟩ := Option.map_eq_some'.mp h
    obtain ⟨_, _, _, heq⟩ := commitCooldown_spec hc
    have h2 : g2.pc.act_target = g.pc.act_target := by rw [heq]; rfl
    split <;> exact h2
  · injection h with h
    subst h
    rfl

/-- C25: a queued fixed melee attack B consumed in STANCE starts the POWER state
with `act_target` set to the queued target; on the first animation frame, with the
mouse in use, `act_target` becomes the position of `cursor_enemy` when one is set
and stays the queued target when it is null; the first-frame block returns when
the timers of B and of the requested power exist and the coordinator has a turn
order, and the rest of `handlePowerState` leaves `act_target` alone. -/
theorem melee_auto_target (aenv : AvatarEnv) (action : ActionData) (B : Nat)
    (hatt : (aenv.power B).new_state = PowerNewState.STATE_ATTACK)
    (hfix : (aenv.power B).type = PowerType.TYPE_FIXED)
    (hmelee : (aenv.power B).starting_pos = StartingPos.STARTING_POS_MELEE) :
    (∀ g, g.pc.stats.cur_state = EntityState.ENTITY_STANCE →
      ∃ g1, handleReplacedPower aenv B action g = some g1 ∧
        g1.pc.stats.cur_state = EntityState.ENTITY_POWER ∧ g1.pc.current_power = B ∧
        g1.pc.act_target = action.target ∧ g1.pc.cursor_enemy = g.pc.cursor_enemy ∧
        g1.inpt.using_mouse = g.inpt.using_mouse) ∧
    (∀ x x1, x.pc.current_power = B → x.inpt.using_mouse = true →
      x.pc.anim.first_frame = true → powerFirstFrame aenv x = some x1 →
      x1.pc.act_target =
        match x.pc.cursor_enemy with
        | some e => (x.w.stats e).pos
        | none => x.pc.act_target) ∧
    (∀ x, x.pc.current_power = B → x.w.cm.initiative_order ≠ [] → TimersReady aenv x →
      aenv.isValid B = true → aenv.isValid x.pc.current_power_original = true →
      ∃ x1, powerFirstFrame aenv x = some x1) ∧
    (∀ x x2, handlePowerState aenv x = some x2 → aenv.isValid x.pc.current_power = true →
      ∃ x1, powerFirstFrame aenv (setAnim aenv x.pc.attack_anim x) = some x1 ∧
        x2.pc.act_target = x1.pc.act_target) := by
  refine ⟨?_, ?_, ?_, ?_⟩
  · intro g hs
    have hni : ¬ (aenv.power B).new_state = PowerNewState.STATE_INSTANT := by
      rw [hatt]
      decide
    have hnb : ¬ g.pc.stats.cur_state = EntityState.ENTITY_BLOCK := by
      rw [hs]
      decide
    refine ⟨handleStanceMovePower aenv B action { g with handled := g.handled ++ [action] },
      ?_, ?_, ?_, ?_, ?_, ?_⟩
    · unfold handleReplacedPower
      dsimp only
      rw [if_neg hni, if_neg hnb, if_pos (Or.inl hs)]
    all_goals
      unfold handleStanceMovePower
      dsimp only
      rw [if_pos hatt]
  · intro x x1 hb hm hff h
    rw [powerFirstFrame_act_target aenv x x1 hff h, beginPower_target, hb, hm, hfix, hmelee]
    rfl
  · intro x hb ho hT hv hvo
    obtain ⟨x1, h1, _⟩ := powerFirstFrame_defined aenv x ho hT (by rw [hb]; exact hv) hvo
    exact ⟨x1, h1⟩
  · intro x x2 h hv
    unfold handlePowerState at h
    dsimp only at h
    obtain ⟨g3, hb, rfl⟩ := Option.map_eq_some'.mp h
    have hv0 : aenv.isValid (setAnim aenv x.pc.attack_anim x).pc.current_power = true := hv
    rw [if_pos hv0] at hb
    obtain ⟨g2, h2, h3⟩ := Option.bind_eq_some.mp hb
    refine ⟨g2, h2, ?_⟩
    rw [← powerDoPower_act_target aenv g2 g3 h3]
    unfold powerFinish
    split <;> rfl

/-- Witness of C25: on the first frame of the melee power 3, queued with the
target (6, 0) while the enemy at (5, 6) is under the cursor, `act_target` becomes
(5, 6). -/
theorem melee_auto_target_witness :
    ∃ x1, powerFirstFrame meleeEnv meleeGame = some x1 ∧ x1.pc.act_target = ⟨5, 6⟩ := by
  obtain ⟨x1, h1⟩ := Option.isSome_iff_exists.mp
    (show (powerFirstFrame meleeEnv meleeGame).isSome = true by decide)
  exact ⟨x1, h1,
    (melee_auto_target meleeEnv (exampleAction 3) 3 rfl rfl rfl).2.1 meleeGame x1 rfl rfl rfl h1⟩

/-! ## The initiative order stays sorted; additions -/

theorem OrderSorted_of_order {cm cm1 : CombatManager}
    (h : cm1.initiative_order = cm.initiative_order) (hs : OrderSorted cm) :
    OrderSorted cm1 := by
  unfold OrderSorted at hs ⊢
  rw [h]
  exact hs

theorem OrderSorted_of_nil {cm : CombatManager} (h : cm.initiative_order = []) :
    OrderSorted cm := by
  unfold OrderSorted
  rw [h]
  exact List.Pairwise.nil

theorem OrderSorted_nextTurn {w w1 : World} (hs : OrderSorted w.cm)
    (h : nextTurn w = some w1) : OrderSorted w1.cm := by
  obtain ⟨_, hcm, _⟩ := nextTurn_cm h
  refine OrderSorted_of_order ?_ hs
  rw [hcm]

theorem OrderSorted_spendAction {w w1 : World} (hs : OrderSorted w.cm)
    (h : spendAction w = some w1) : OrderSorted w1.cm := by
  unfold spendAction at h
  dsimp only at h
  split at h
  · refine OrderSorted_nextTurn ?_ h
    exact OrderSorted_of_order rfl hs
  · injection h with h
    subst h
    exact OrderSorted_of_order rfl hs

theorem OrderSorted_endPlayerTurn {w w1 : World} (hs : OrderSorted w.cm)
    (h : endPlayerTurn w = some w1) : OrderSorted w1.cm := by
  unfold endPlayerTurn at h
  split at h
  · injection h with h
    subst h
    exact hs
  · exact OrderSorted_nextTurn (w := hudlogAdd w "You end your turn.") hs h

theorem OrderSorted_exitCombat (w : World) (hs : OrderSorted w.cm) :
    OrderSorted (exitCombat w).cm := by
  rw [exitCombat_cm]
  split
  · exact hs
  · exact OrderSorted_of_nil rfl

theorem OrderSorted_enterCombat (env : Env) (w : World) (initiator target : Nat)
    (hs : OrderSorted w.cm) : OrderSorted (enterCombat env w initiator target).cm := by
  by_cases hst : w.cm.current_state = CombatState.COMBAT_INACTIVE
  · obtain ⟨⟨l, hl⟩, _⟩ := enterCombat_of_inactive env w initiator target hst
    apply OrderSorted_of_nil
    rw [hl]
  · unfold enterCombat
    rw [if_pos hst]
    exact hs

theorem OrderSorted_addCombatant (env : Env) (hsort : StdSortSpec env.stdSort) (w : World)
    (entity : Option Nat) (hs : OrderSorted w.cm) :
    OrderSorted (addCombatant env w entity).cm := by
  unfold addCombatant
  split
  · exact hs
  · split
    · exact hs
    · split
      · exact hs
      · simp only [hudlogAdd_cm, rollInitiativeForEntity]
        exact sorted_of_spec hsort _

theorem OrderSorted_logicTransition (env : Env) (hsort : StdSortSpec env.stdSort) (w : World)
    (hs : OrderSorted w.cm) : OrderSorted (logicTransition env w).cm := by
  unfold logicTransition
  split
  · dsimp only
    split
    · simp only [logTurnBegins_cm, hudlogAdd_cm, resetTurnState_cm, rollInitiative_cm]
      exact sorted_of_spec hsort _
    · exact OrderSorted_of_order rfl hs
  · exact hs

theorem OrderSorted_autoTurn (env : Env) (hframe : EntityLogicFrame env.entityLogic)
    {w w1 : World} (hs : OrderSorted w.cm) (h : autoTurn env w = some w1) :
    OrderSorted w1.cm := by
  unfold autoTurn at h
  split at h
  · split at h
    · injection h with h
      subst h
      exact hs
    · rename_i current _
      dsimp only at h
      have hs4 : OrderSorted (if w.cm.turn_state.actions_remaining > 0
          then env.entityLogic current w else w).cm := by
        split
        · refine OrderSorted_of_order ?_ hs
          rw [hframe current w]
        · exact hs
      generalize (if w.cm.turn_state.actions_remaining > 0
          then env.entityLogic current w else w) = x at h hs4
      split at h
      · exact OrderSorted_nextTurn hs4 h
      · injection h with h
        subst h
        exact hs4
  · injection h with h
    subst h
    exact hs

theorem OrderSorted_logicActive (env : Env) (hframe : EntityLogicFrame env.entityLogic)
    {w w1 : World} (hs : OrderSorted w.cm) (h : logicActive env w = some w1) :
    OrderSorted w1.cm := by
  unfold logicActive at h
  split at h
  · dsimp only at h
    refine OrderSorted_autoTurn env hframe ?_ h
    have hp : OrderSorted (pruneDead w).cm := OrderSorted_of_order rfl hs
    split
    · exact OrderSorted_exitCombat _ hp
    · exact hp
  · injection h with h
    subst h
    exact hs

theorem OrderSorted_step (env : Env) (hsort : StdSortSpec env.stdSort)
    (hframe : EntityLogicFrame env.entityLogic) {w w1 : World} (c : Call)
    (hs : OrderSorted w.cm) (h : step env w c = some w1) : OrderSorted w1.cm := by
  cases c with
  | enterCombat initiator target =>
    injection h with h
    subst h
    exact OrderSorted_enterCombat env w initiator target hs
  | logic =>
    exact OrderSorted_logicActive env hframe (OrderSorted_logicTransition env hsort w hs) h
  | addCombatant entity =>
    injection h with h
    subst h
    exact OrderSorted_addCombatant env hsort w entity hs
  | nextTurn => exact OrderSorted_nextTurn hs h
  | spendAction => exact OrderSorted_spendAction hs h
  | endPlayerTurn => exact OrderSorted_endPlayerTurn hs h
  | exitCombat =>
    injection h with h
    subst h
    exact OrderSorted_exitCombat w hs
  | world stats entities =>
    injection h with h
    subst h
    exact hs

theorem OrderSorted_run (env : Env) (hsort : StdSortSpec env.stdSort)
    (hframe : EntityLogicFrame env.entityLogic) (calls : List Call) {w w1 : World}
    (hs : OrderSorted w.cm) (h : run env calls w = some w1) : OrderSorted w1.cm := by
  induction calls generalizing w with
  | nil =>
    injection h with h
    subst h
    exact hs
  | cons c cs ih =>
    simp only [run] at h
    cases hc : step env w c with
    | none => simp [hc] at h
    | some v =>
      rw [hc] at h
      exact ih (OrderSorted_step env hsort hframe c hs hc) h

theorem pair_sublist_of_mem {α : Type} (l : List α) (a b : α) (ha : a ∈ l) (hb : b ∈ l)
    (hab : a ≠ b) : List.Sublist [a, b] l ∨ List.Sublist [b, a] l := by
  obtain ⟨s, t, rfl⟩ := List.append_of_mem ha
  rcases List.mem_append.mp hb with hs | ht
  · right
    have h1 : List.Sublist [b] s := List.singleton_sublist.mpr hs
    have h2 : List.Sublist [a] (a :: t) := List.singleton_sublist.mpr (List.mem_cons_self a t)
    exact List.Sublist.append h1 h2
  · left
    rcases List.mem_cons.mp ht with h0 | h0
    · exact absurd h0.symm hab
    · have h1 : List.Sublist [a, b] (a :: t) :=
        List.Sublist.cons₂ a (List.singleton_sublist.mpr h0)
      exact h1.trans (List.sublist_append_right s (a :: t))

theorem addCombatant_rand_calls (env : Env) (w : World) (e : Nat)
    (hs : w.cm.current_state ≠ CombatState.COMBAT_INACTIVE) (he : e ∉ w.cm.combat_entities) :
    (addCombatant env w (some e)).rand_calls = w.rand_calls + 1 := by
  unfold addCombatant
  simp only [if_neg hs, if_neg he, rollInitiativeForEntity]
  rfl

/-- C26: `addCombatant` returns the state as it was for a null entity, in the
INACTIVE state and for an entity that is already a participant. Otherwise the
participant list gains the entity at its end, the initiative order is a
rearrangement of the old entries and one new entry for the entity with its own
roll (one random draw), the entity is flagged in combat and no other stat block
changes; and when the old order was sorted, as it is in every state reached from
the constructor, two old entries of different initiative keep their relative
order. -/
theorem addCombatant_rerolls_only_new (env : Env) (hsort : StdSortSpec env.stdSort)
    (w : World) :
    addCombatant env w none = w ∧
    (w.cm.current_state = CombatState.COMBAT_INACTIVE →
      ∀ entity, addCombatant env w entity = w) ∧
    (∀ e, e ∈ w.cm.combat_entities → addCombatant env w (some e) = w) ∧
    (∀ e, w.cm.current_state ≠ CombatState.COMBAT_INACTIVE → e ∉ w.cm.combat_entities →
      (addCombatant env w (some e)).cm.combat_entities = w.cm.combat_entities ++ [e] ∧
      (addCombatant env w (some e)).cm.initiative_order.Perm
        (w.cm.initiative_order ++
          [⟨e, randBetween 1 20 (env.randRaw w.rand_calls) + (w.stats e).speed⟩]) ∧
      (addCombatant env w (some e)).rand_calls = w.rand_calls + 1 ∧
      ((addCombatant env w (some e)).stats e).in_combat = true ∧
      (∀ i, i ≠ e → (addCombatant env w (some e)).stats i = w.stats i) ∧
      (OrderSorted w.cm → ∀ a b, List.Sublist [a, b] w.cm.initiative_order →
        a.initiative ≠ b.initiative →
        List.Sublist [a, b] (addCombatant env w (some e)).cm.initiative_order)) ∧
    (∀ w0 calls, w0.cm = CombatManager.new env.max_frames_per_sec →
      EntityLogicFrame env.entityLogic → run env calls w0 = some w → OrderSorted w.cm) := by
  refine ⟨rfl, ?_, ?_, ?_, ?_⟩
  · intro hs entity
    unfold addCombatant
    cases entity with
    | none => rfl
    | some e => simp only [if_pos hs]
  · intro e he
    unfold addCombatant
    dsimp only
    split
    · rfl
    · rfl
  · intro e hs he
    obtain ⟨hcm, hstats⟩ := addCombatant_adds env w e hs he
    refine ⟨by rw [hcm], ?_, addCombatant_rand_calls env w e hs he, ?_, ?_, ?_⟩
    · rw [hcm]
      exact (hsort _).1
    · rw [hstats e, if_pos rfl]
    · intro i hi
      rw [hstats i, if_neg hi]
    · intro hsorted a b hsub hne
      have hab : a ≠ b := fun h => hne (by rw [h])
      have hnew : OrderSorted (addCombatant env w (some e)).cm :=
        OrderSorted_addCombatant env hsort w (some e) hsorted
      have hmem : ∀ x, x ∈ w.cm.initiative_order →
          x ∈ (addCombatant env w (some e)).cm.initiative_order := by
        intro x hx
        rw [hcm]
        exact ((hsort _).1.mem_iff).mpr (List.mem_append_left _ hx)
      have ha := hmem a (hsub.subset (List.mem_cons_self a [b]))
      have hb := hmem b (hsub.subset (List.mem_cons_of_mem a (List.mem_singleton.mpr rfl)))
      rcases pair_sublist_of_mem _ a b ha hb hab with h | h
      · exact h
      · exfalso
        have h1 : b.initiative ≤ a.initiative := by
          have hp := List.Pairwise.sublist hsub hsorted
          exact (List.pairwise_cons.mp hp).1 b (List.mem_singleton.mpr rfl)
        have h2 : a.initiative ≤ b.initiative := by
          have hp := List.Pairwise.sublist h hnew
          exact (List.pairwise_cons.mp hp).1 a (List.mem_singleton.mpr rfl)
        exact hne (le_antisymm h2 h1)
  · intro w0 calls hfresh hframe hrun
    refine OrderSorted_run env hsort hframe calls ?_ hrun
    apply OrderSorted_of_nil
    rw [hfresh]
    rfl

/-- Witness of C26: a third entity joins the example combat of hero and enemy. -/
theorem addCombatant_rerolls_only_new_witness :
    (addCombatant exampleEnv (activeWorld 1 2) (some 2)).cm.combat_entities
      = (activeWorld 1 2).cm.combat_entities ++ [2] ∧
    ((addCombatant exampleEnv (activeWorld 1 2) (some 2)).stats 2).in_combat = true :=
  ⟨((addCombatant_rerolls_only_new exampleEnv stableSort_spec (activeWorld 1 2)).2.2.2.1 2
      (by decide) (by decide)).1,
    ((addCombatant_rerolls_only_new exampleEnv stableSort_spec (activeWorld 1 2)).2.2.2.1 2
      (by decide) (by decide)).2.2.2.1⟩

/-! ## Clicks at another combatant's turn; the empty order; stale entries; additions -/

/-- C27 at a failing input: at the turn of the enemy, with the avatar in combat, a click on
(5, 3) passes `isValidMovement` (which measures from the enemy) and
`handleMouseMoveDirection` spends an action of the enemy: two actions become
one, and with one action left the turn passes to the next entry. -/
theorem click_spends_enemy_action :
    (offTurnClickGame 2).pc.stats.in_combat = true ∧
    (offTurnClickGame 2).combat_manager = true ∧
    getCurrentTurnEntity (offTurnClickGame 2).w.cm = some 1 ∧
    isPlayerTurn (offTurnClickGame 2).w = false ∧
    ((offTurnClickGame 2).w.cm.turn_state.actions_remaining,
      (offTurnClickGame 2).w.cm.current_turn_index) = (2, 0) ∧
    (handleMouseMoveDirection exampleAvatarEnv (offTurnClickGame 2)).map
      (fun g => (g.w.cm.turn_state.actions_remaining, g.w.cm.current_turn_index))
      = some (1, 0) ∧
    isPlayerTurn (offTurnClickGame 1).w = false ∧
    (handleMouseMoveDirection exampleAvatarEnv (offTurnClickGame 1)).map
      (fun g => (g.w.cm.turn_state.actions_remaining, g.w.cm.current_turn_index))
      = some (2, 1) := by
  decide

/-- C28 at a failing input: after `enterCombat` the coordinator is in TRANSITION with an empty
initiative order and the turn state it had before, so `spendAction` reaches
`nextTurn` on the empty order (the run is undefined) as soon as the actions are
used up: at the second call on a fresh coordinator, and at the first-frame
`spendAction` of `handlePowerState` when the previous combat left one action. -/
theorem nextTurn_reached_with_empty_order :
    (run exampleEnv [Call.enterCombat 0 1, Call.spendAction] exampleWorld).map
      (fun w => (w.cm.current_state, w.cm.initiative_order,
        w.cm.turn_state.actions_remaining))
      = some (CombatState.COMBAT_TRANSITION, [], 1) ∧
    (run exampleEnv [Call.enterCombat 0 1, Call.spendAction, Call.spendAction]
      exampleWorld).isSome = false ∧
    (run exampleEnv secondCombatCalls exampleWorld).map
      (fun w => (w.cm.current_state, w.cm.initiative_order,
        w.cm.turn_state.actions_remaining, (w.stats 0).in_combat))
      = some (CombatState.COMBAT_TRANSITION, [], 1, true) ∧
    (run exampleEnv (secondCombatCalls ++ [Call.spendAction]) exampleWorld).isSome = false ∧
    transitionGame.pc.stats.in_combat = true ∧
    transitionGame.combat_manager = true ∧
    transitionGame.w.cm.current_state = CombatState.COMBAT_TRANSITION ∧
    (powerFirstFrame exampleAvatarEnv transitionGame).isSome = false ∧
    (handlePowerState exampleAvatarEnv transitionGame).isSome = false := by
  decide

/-- C29 at a failing input: in a combat of the hero and two enemies, the tick after enemy 1
died leaves the coordinator ACTIVE with participants 0 and 2 while the initiative
order still holds the entry of enemy 1; when the hero ends the turn and enemy 2
has had its turn, the tick leaves the coordinator ACTIVE and
`getCurrentTurnEntity` returns the pruned, dead enemy 1. -/
theorem turn_holder_pruned :
    (run crowdEnv pruneCalls crowdWorld).map
      (fun w => (w.cm.current_state, w.cm.combat_entities,
        w.cm.initiative_order.map (fun ce => ce.entity), getCurrentTurnEntity w.cm))
      = some (CombatState.COMBAT_ACTIVE, [0, 2], [1, 0, 2], some 0) ∧
    (run crowdEnv (pruneCalls ++ [Call.endPlayerTurn, Call.logic]) crowdWorld).map
      (fun w => (w.cm.current_state, w.cm.combat_entities,
        w.cm.initiative_order.map (fun ce => ce.entity), getCurrentTurnEntity w.cm,
        (w.stats 1).alive))
      = some (CombatState.COMBAT_ACTIVE, [0, 2], [1, 0, 2], some 1, false) := by
  decide

/-- C30 at a failing input: in the ACTIVE example combat at the turn of the hero (index 1 of
two entries), adding entity 2, which rolls 10, sorts its entry between the
two; the index and the turn-state record stay as they were, so
`getCurrentTurnEntity` returns entity 2 instead of the hero. -/
theorem addCombatant_moves_turn :
    (activeWorld 1 2).cm.current_state = CombatState.COMBAT_ACTIVE ∧
    (activeWorld 1 2).cm.current_turn_index < (activeWorld 1 2).cm.initiative_order.length ∧
    2 ∉ (activeWorld 1 2).cm.combat_entities ∧
    getCurrentTurnEntity (activeWorld 1 2).cm = some 0 ∧
    (addCombatant midRollEnv (activeWorld 1 2) (some 2)).cm.initiative_order
      = [⟨1, 15⟩, ⟨2, 10⟩, ⟨0, 7⟩] ∧
    (addCombatant midRollEnv (activeWorld 1 2) (some 2)).cm.current_turn_index = 1 ∧
    getCurrentTurnEntity (addCombatant midRollEnv (activeWorld 1 2) (some 2)).cm = some 2 ∧
    (addCombatant midRollEnv (activeWorld 1 2) (some 2)).cm.turn_state
      = (activeWorld 1 2).cm.turn_state := by
  decide

/-! ## The turn gate of the action bar -/

theorem checkResourceRequirements_g (benv : BarEnv) (slot_index power : Nat) (b : BarState) :
    (checkResourceRequirements benv slot_index power b).2.g = b.g := by
  unfold checkResourceRequirements
  dsimp only
  repeat' (first | split | dsimp only)

theorem checkMouseMoveTarget_frame (benv : BarEnv) (mm_slot : Nat) (b : BarState) :
    (checkMouseMoveTarget benv mm_slot b).2.g.w = b.g.w ∧
    (checkMouseMoveTarget benv mm_slot b).2.g.pc.action_queue = b.g.pc.action_queue := by
  unfold checkMouseMoveTarget
  dsimp only
  repeat' (first | split | dsimp only)
  all_goals exact ⟨rfl, rfl⟩

theorem setActionTarget_keeps (benv : BarEnv) (action : ActionData)
    (have_aim has_mouse_move_target : Bool) (b : BarState) :
    (setActionTarget benv action have_aim has_mouse_move_target b).power = action.power ∧
    (setActionTarget benv action have_aim has_mouse_move_target b).hotkey = action.hotkey := by
  unfold setActionTarget
  dsimp only
  repeat' (first | split | dsimp only)
  all_goals exact ⟨rfl, rfl⟩

theorem turnGateReturns_iff (g : Game) (hcombat : g.pc.stats.in_combat = true)
    (hcm : g.combat_manager = true) :
    turnGateReturns g = true ↔
      (isPlayerTurn g.w = false ∨ canTakeAction g.w = false ∨
        queuedActions g.pc.action_queue ≥ g.w.cm.turn_state.actions_remaining) := by
  unfold turnGateReturns
  rw [hcombat, hcm]
  cases h1 : isPlayerTurn g.w <;> cases h2 : canTakeAction g.w <;> simp

theorem queuedActions_push (queue : List ActionData) (a : ActionData) :
    queuedActions (queue ++ [a]) ≤ queuedActions queue + 1 := by
  unfold queuedActions
  rw [List.filter_append, List.length_append]
  have h : (List.filter (fun queued => !queued.activated_from_inventory) [a]).length ≤ 1 :=
    (List.length_filter_le _ [a]).trans (by simp)
  omega

/-- C22: with the avatar in combat and a coordinator present,
`processValidAction` returns with the game, and so the action queue, as it was
when it is not the turn of the player, when `canTakeAction()` is false, or when
the queued actions not activated from the inventory number at least
`actions_remaining`. It returns whenever the cast timer of the power exists; it
leaves the coordinator alone and appends at most one entry, for the power and
slot of the action; and a queue with at most `actions_remaining` such entries
before has at most `actions_remaining` of them afterwards. -/
theorem illegal_actions_not_queued (benv : BarEnv) (slot_index : Nat) (action : ActionData)
    (have_aim : Bool) (b : BarState)
    (hcombat : b.g.pc.stats.in_combat = true) (hcm : b.g.combat_manager = true) :
    ((isPlayerTurn b.g.w = false ∨ canTakeAction b.g.w = false ∨
        queuedActions b.g.pc.action_queue ≥ b.g.w.cm.turn_state.actions_remaining) →
      ∃ b1, processValidAction benv slot_index action have_aim b = some b1 ∧ b1.g = b.g) ∧
    ((timerAt b.g.pc.power_cast_timers action.power).isSome = true →
      (processValidAction benv slot_index action have_aim b).isSome = true) ∧
    (∀ b1, processValidAction benv slot_index action have_aim b = some b1 →
      b1.g.w = b.g.w ∧
      (b1.g.pc.action_queue = b.g.pc.action_queue ∨
        ∃ a, b1.g.pc.action_queue = b.g.pc.action_queue ++ [a] ∧
          a.power = action.power ∧ a.hotkey = action.hotkey) ∧
      (queuedActions b.g.pc.action_queue ≤ b.g.w.cm.turn_state.actions_remaining →
        queuedActions b1.g.pc.action_queue ≤ b1.g.w.cm.turn_state.actions_remaining)) := by
  have hg := checkResourceRequirements_g benv slot_index action.power b
  refine ⟨?_, ?_, ?_⟩
  · intro hclosed
    have hgate : turnGateReturns (checkResourceRequirements benv slot_index action.power b).2.g
        = true := by
      rw [hg]
      exact (turnGateReturns_iff b.g hcombat hcm).mpr hclosed
    unfold processValidAction
    dsimp only
    split
    · exact ⟨_, rfl, hg⟩
    · exact ⟨_, rfl, hg⟩
  · intro ht
    unfold processValidAction
    dsimp only
    rw [hg]
    obtain ⟨t, ht1⟩ := Option.isSome_iff_exists.mp ht
    rw [ht1]
    dsimp only
    repeat' (first | split | dsimp only)
    all_goals rfl
  · intro b1 h
    unfold processValidAction at h
    dsimp only at h
    generalize checkResourceRequirements benv slot_index action.power b = r at h hg
    split at h
    · injection h with h
      subst h
      rw [hg]
      exact ⟨rfl, Or.inl rfl, id⟩
    · split at h
      · injection h with h
        subst h
        rw [hg]
        exact ⟨rfl, Or.inl rfl, id⟩
      · rename_i hgate
        rw [hg] at hgate
        have hopen : queuedActions b.g.pc.action_queue
            < b.g.w.cm.turn_state.actions_remaining := by
          by_contra hc
          exact hgate ((turnGateReturns_iff b.g hcombat hcm).mpr
            (Or.inr (Or.inr (not_lt.mp hc))))
        split at h
        · cases h
        · rename_i t ht
          generalize hb0 : ({ r.2 with
            slot_fail_cooldown := fun i =>
              if i = slot_index then (t.duration : Int) else r.2.slot_fail_cooldown i }
              : BarState) = b0 at h
          have hb0g : b0.g = b.g := by
            rw [← hb0]
            exact hg
          have hm := checkMouseMoveTarget_frame benv (if benv.mouse_move_swap then 11 else 10) b0
          generalize checkMouseMoveTarget benv (if benv.mouse_move_swap then 11 else 10) b0
            = m at h hm
          rw [hb0g] at hm
          obtain ⟨hmw, hmq⟩ := hm
          have hk := setActionTarget_keeps benv (setupActionProperties benv action) have_aim
            m.1 m.2
          generalize setActionTarget benv (setupActionProperties benv action) have_aim m.1 m.2
            = a2 at h hk
          have hpush : queuedActions (b.g.pc.action_queue ++ [a2])
              ≤ b.g.w.cm.turn_state.actions_remaining := by
            have := queuedActions_push b.g.pc.action_queue a2
            omega
          split at h
          · split at h
            · injection h with h
              subst h
              dsimp only
              rw [hmw, hmq]
              exact ⟨rfl, Or.inr ⟨a2, rfl, hk.1, hk.2⟩, fun _ => hpush⟩
            · injection h with h
              subst h
              dsimp only
              rw [hmw, hmq]
              exact ⟨rfl, Or.inr ⟨a2, rfl, hk.1, hk.2⟩, fun _ => hpush⟩
          · injection h with h
            subst h
            rw [hmw, hmq]
            exact ⟨rfl, Or.inl rfl, id⟩

/-- Witness of C22: at the turn of the enemy the example action bar queues
nothing, and at the turn of the hero the call returns. -/
theorem illegal_actions_not_queued_witness :
    (∃ b1, processValidAction exampleBarEnv 1 (exampleAction 1) false (exampleBar offTurnGame)
        = some b1 ∧ b1.g = (exampleBar offTurnGame).g) ∧
    (processValidAction exampleBarEnv 1 (exampleAction 1) false
      (exampleBar offTurnGame)).isSome = true :=
  ⟨(illegal_actions_not_queued exampleBarEnv 1 (exampleAction 1) false (exampleBar offTurnGame)
      (by decide) (by decide)).1 (Or.inl (by decide)),
    (illegal_actions_not_queued exampleBarEnv 1 (exampleAction 1) false (exampleBar offTurnGame)
      (by decide) (by decide)).2.1 (by decide)⟩

end Flare
